import Mathlib

/-!
# ADB-over-USB transport: `chrome/browser/devtools/adb/android_usb_device.cc`

A shallow embedding of the message codec (`Checksum`, the header written by
`Queue`, `ParseHeader`, `ParseBody`), of the outgoing queue (`Queue`,
`ProcessOutgoing`, `OutgoingMessageSent`), of the handshake and stream routing
(`Send`, `HandleIncoming`, `ReadHeader`, `ReadBody`, `CreateSocket`, the
constructor), and of disposal and termination (`SocketDeleted`, `Terminate`),
with sequences of calls of these methods on the constructed device, followed by
theorems about them.

Conventions of the embedding:
* a `std::string` / `net::IOBuffer` content is a list of bytes, a byte is `Fin 256`;
* a `uint32` is `Fin 4294967296`; every conversion to `uint32` is an explicit
  reduction modulo `4294967296` (`toUint32`);
* `size_t` values are natural numbers (a string length always fits);
* the conversion of a `size_t` to `int` (`int count = data.length()`) is the
  two's complement reduction to 32 bits (`toInt`);
* the host is little-endian: `memcpy` between a `std::vector<uint32>` and a byte
  buffer lays every word out least significant byte first;
* a closure handed to `message_loop_->PostTask` or to `BulkTransfer` is recorded
  as a value (`Task`, `Effect`) instead of being run, and so is a call on a stream;
* a method of the device takes the device state and returns the new state with
  the calls it made on its collaborators, in order;
* the collaborators' answers are parameters: the signature `AndroidRSASign`
  computes, the blob `AndroidRSAPublicKey` returns, the value of `HasOneRef()`,
  the streams disposed of while a stream is notified of termination, the calls a
  stream makes back on the device while it handles an incoming message.
-/

namespace AndroidUsb

/-! ## Machine types -/

/-- One `char` of a `std::string` or of a `net::IOBuffer`, read as `unsigned char`. -/
abbrev Byte := Fin 256

/-- The type `uint32`. -/
abbrev uint32 := Fin 4294967296

/-- Contents of a `net::IOBuffer`. -/
abbrev IOBuffer := List Byte

/-- Conversion of an unsigned value to `uint32` (reduction modulo `2^32`). -/
def toUint32 (n : Nat) : uint32 := ⟨n % 4294967296, Nat.mod_lt _ (by decide)⟩

/-- Conversion of a `size_t` to `int`, as in `int count = data.length()`: the low
32 bits read as a two's complement number (the value is unchanged below 2^31). -/
def toInt (n : Nat) : Int :=
  if n % 4294967296 < 2147483648 then ((n % 4294967296 : Nat) : Int)
  else ((n % 4294967296 : Nat) : Int) - 4294967296

/-- The four bytes of a `uint32` as they lie in memory (least significant first). -/
def uint32Bytes (w : uint32) : List Byte :=
  [⟨w.val % 256, Nat.mod_lt _ (by decide)⟩,
   ⟨w.val / 256 % 256, Nat.mod_lt _ (by decide)⟩,
   ⟨w.val / 65536 % 256, Nat.mod_lt _ (by decide)⟩,
   ⟨w.val / 16777216 % 256, Nat.mod_lt _ (by decide)⟩]

/-- Memory image of a `std::vector<uint32>`. -/
def vectorBytes : List uint32 → List Byte
  | [] => []
  | w :: ws => uint32Bytes w ++ vectorBytes ws

/-- Byte `i` of a buffer (`buffer->data()[i]`). -/
def byteAt (buffer : IOBuffer) (i : Nat) : Nat := (buffer.getD i 0).val

/-- Word `i` of a `std::vector<uint32>` that was filled by `memcpy` from `buffer`. -/
def wordAt (buffer : IOBuffer) (i : Nat) : uint32 :=
  toUint32 (byteAt buffer (4 * i) + 256 * byteAt buffer (4 * i + 1)
    + 65536 * byteAt buffer (4 * i + 2) + 16777216 * byteAt buffer (4 * i + 3))

/-! ## Constants -/

/-- The constant `kHeaderSize`. -/
def kHeaderSize : Nat := 24

/-- The constant `kMaxPayload`. -/
def kMaxPayload : uint32 := 4096

/-- The constant `kVersion`. -/
def kVersion : uint32 := 0x01000000

/-- The constant `kHostConnectMessage`, the string `host::`. -/
def kHostConnectMessage : List Byte := [104, 111, 115, 116, 58, 58]

/-- Modelled from the spec: the command constant `AdbMessage::kCommandCNXN`, declared in
`android_usb_device.h`; the four-character tag `CNXN` packed into 32 bits as in
the published ADB protocol. -/
def kCommandCNXN : uint32 := 0x4e584e43

/-- Modelled from the spec: the command constant `AdbMessage::kCommandAUTH`, declared in
`android_usb_device.h`; the tag `AUTH`. -/
def kCommandAUTH : uint32 := 0x48545541

/-- Modelled from the spec: the command constant `AdbMessage::kCommandOPEN`, declared in
`android_usb_device.h`; the tag `OPEN`. -/
def kCommandOPEN : uint32 := 0x4e45504f

/-- Modelled from the spec: the command constant `AdbMessage::kCommandOKAY`, declared in
`android_usb_device.h`; the tag `OKAY`. -/
def kCommandOKAY : uint32 := 0x59414b4f

/-- Modelled from the spec: the command constant `AdbMessage::kCommandCLSE`, declared in
`android_usb_device.h`; the tag `CLSE`. -/
def kCommandCLSE : uint32 := 0x45534c43

/-- Modelled from the spec: the command constant `AdbMessage::kCommandWRTE`, declared in
`android_usb_device.h`; the tag `WRTE`. -/
def kCommandWRTE : uint32 := 0x45545257

/-- Modelled from the spec: the AUTH sub-type `AdbMessage::kAuthToken` carried in `arg0`. -/
def kAuthToken : uint32 := 1

/-- Modelled from the spec: the AUTH sub-type `AdbMessage::kAuthSignature` carried in `arg0`. -/
def kAuthSignature : uint32 := 2

/-- Modelled from the spec: the AUTH sub-type `AdbMessage::kAuthRSAPublicKey` carried in `arg0`. -/
def kAuthRSAPublicKey : uint32 := 3

/-- Modelled from the spec: the transfer status enumeration `UsbTransferStatus`, declared
in the USB headers; success, timeout, and the other (fatal) outcomes. -/
inductive UsbTransferStatus where
  | USB_TRANSFER_COMPLETED
  | USB_TRANSFER_ERROR
  | USB_TRANSFER_TIMEOUT
  | USB_TRANSFER_CANCELLED
  | USB_TRANSFER_STALLED
  | USB_TRANSFER_DISCONNECTED
  deriving DecidableEq, Repr

open UsbTransferStatus

/-! ## Messages, queues, scheduled work -/

/-- The class `AdbMessage`. -/
structure AdbMessage where
  command : uint32
  arg0 : uint32
  arg1 : uint32
  body : List Byte
  deriving DecidableEq, Repr

/-- The type `BulkMessage`: a buffer and the number of bytes to transfer. -/
abbrev BulkMessage := IOBuffer × Nat

/-- A bound member function handed to `message_loop_->PostTask`. -/
inductive Task where
  | ProcessOutgoing
  | ReadHeader (initial : Bool)
  | ReadBody (message : AdbMessage) (data_length data_check : uint32)
  | HandleIncoming (message : AdbMessage)
  | Terminate
  deriving DecidableEq, Repr

/-- Modelled from the spec: the logical stream object `AndroidUsbSocket`, declared in
`android_usb_socket.h`; it is reduced to the arguments `CreateSocket` constructs it
with, the stream id and the open command. -/
structure AndroidUsbSocket where
  socket_id : uint32
  command : List Byte
  deriving DecidableEq, Repr

/-- A call the device makes on a collaborator: on the USB device handle an outbound
bulk transfer (completion callback `OutgoingMessageSent`), an inbound one of
`kHeaderSize` bytes (completion callback `ParseHeader`), or an inbound one for a body
(completion callback `ParseBody` bound to the message, the length and the checksum);
on a stream, its incoming-message handler `AndroidUsbSocket::HandleIncoming`, or its
termination notification `AndroidUsbSocket::Terminated`; on the USB device handle again,
`ReleaseInterface` and `Close`; and the construction `new AndroidUsbSocket(...)` of a
stream by `CreateSocket`. -/
inductive Effect where
  | BulkTransferOutbound (buffer : IOBuffer) (length : Nat)
  | BulkTransferHeader (length : Nat)
  | BulkTransferBody (message : AdbMessage) (data_length data_check : uint32)
  | SocketHandleIncoming (socket : AndroidUsbSocket) (message : AdbMessage)
  | SocketTerminated (socket : AndroidUsbSocket)
  | ReleaseInterface (interface_number : Nat)
  | Close
  | NewAndroidUsbSocket (socket : AndroidUsbSocket)
  deriving DecidableEq, Repr

/-- The type `AndroidUsbSockets`, a `std::map` from stream id to stream: the entries
in increasing key order. -/
abbrev AndroidUsbSockets := List (uint32 × AndroidUsbSocket)

/-- The lookup `sockets_.find(key)`; `none` stands for `sockets_.end()`. -/
def AndroidUsbSockets.find : AndroidUsbSockets → uint32 → Option AndroidUsbSocket
  | [], _ => none
  | (k, v) :: rest, key => if k = key then some v else AndroidUsbSockets.find rest key

/-- The assignment `sockets_[key] = value`: a new entry at its place in key order, or
the value of the existing entry replaced. -/
def AndroidUsbSockets.assign :
    AndroidUsbSockets → uint32 → AndroidUsbSocket → AndroidUsbSockets
  | [], key, value => [(key, value)]
  | (k, v) :: rest, key, value =>
    if key < k then (key, value) :: (k, v) :: rest
    else if key = k then (key, value) :: rest
    else (k, v) :: AndroidUsbSockets.assign rest key value

/-- The removal `sockets_.erase(key)`. -/
def AndroidUsbSockets.erase : AndroidUsbSockets → uint32 → AndroidUsbSockets
  | [], _ => []
  | (k, v) :: rest, key =>
    if k = key then AndroidUsbSockets.erase rest key
    else (k, v) :: AndroidUsbSockets.erase rest key

/-! ## `Checksum` -/

/-- The loop `while (count-- > 0) sum += *x++;` of `Checksum`: `x` is the rest of
the data, `count` the `int` counter, `sum` the `uint32` accumulator. The counter
never exceeds the number of bytes left, so the loop has ended when the data is
exhausted (first case). -/
def ChecksumLoop : List Byte → Int → uint32 → uint32
  | [], _, sum => sum
  | b :: x, count, sum =>
    if count > 0 then ChecksumLoop x (count - 1) (toUint32 (sum.val + b.val)) else sum

/-- The function `Checksum`. -/
def Checksum (data : List Byte) : uint32 :=
  ChecksumLoop data (toInt data.length) 0

/-! ## `Queue` and `ProcessOutgoing` -/

/-- The local `append_zero` of `Queue`. -/
def Queue.append_zero (message : AdbMessage) : Bool :=
  let append_zero := true
  let append_zero := if message.body.isEmpty then false else append_zero
  let append_zero :=
    if message.command = kCommandAUTH ∧ message.arg0 = kAuthSignature then false
    else append_zero
  let append_zero := if message.command = kCommandWRTE then false else append_zero
  append_zero

/-- The local `body_length` of `Queue` (a `size_t`). -/
def Queue.body_length (message : AdbMessage) : Nat :=
  message.body.length + (if Queue.append_zero message then 1 else 0)

/-- The local `header` of `Queue` (a `std::vector<uint32>`). -/
def Queue.header (message : AdbMessage) : List uint32 :=
  [message.command, message.arg0, message.arg1,
   toUint32 (Queue.body_length message),
   Checksum message.body,
   toUint32 (message.command.val ^^^ 0xffffffff)]

/-- The buffer `body_buffer` of `Queue`: `body_length` bytes, the body copied to
the front and, with `append_zero`, the last byte set to zero. -/
def Queue.body_buffer (message : AdbMessage) : IOBuffer :=
  message.body ++ (if Queue.append_zero message then [0] else [])

/-- The buffer `header_buffer` of `Queue`: `kHeaderSize` bytes copied from `header`. -/
def Queue.header_buffer (message : AdbMessage) : IOBuffer :=
  (vectorBytes (Queue.header message)).take kHeaderSize

/-- The chunks `Queue` pushes on `outgoing_queue_`, in the order of the pushes. -/
def Queue.pushes (zero_mask_ : Int) (message : AdbMessage) : List BulkMessage :=
  let queued := [(Queue.header_buffer message, kHeaderSize)]
  if !message.body.isEmpty then
    let queued := queued ++ [(Queue.body_buffer message, Queue.body_length message)]
    if zero_mask_ ≠ 0 ∧ Int.land (Queue.body_length message) zero_mask_ = 0 then
      queued ++ [(Queue.body_buffer message, 0)]
    else queued
  else queued

/-- The state of an `AndroidUsbDevice` that the transport code reads and writes. -/
structure AndroidUsbDevice where
  zero_mask_ : Int
  is_connected_ : Bool
  signature_sent_ : Bool
  last_socket_id_ : uint32
  terminated_ : Bool
  pending_messages_ : List AdbMessage
  outgoing_queue_ : List BulkMessage
  sockets_ : AndroidUsbSockets
  deriving DecidableEq, Repr

/-- The method `AndroidUsbDevice::ProcessOutgoing`. -/
def ProcessOutgoing (d : AndroidUsbDevice) : AndroidUsbDevice × List Effect :=
  if d.outgoing_queue_.isEmpty || d.terminated_ then (d, [])
  else
    match d.outgoing_queue_ with
    | [] => (d, [])
    | message :: rest =>
      ({ d with outgoing_queue_ := rest }, [Effect.BulkTransferOutbound message.1 message.2])

/-- The method `AndroidUsbDevice::Queue`. -/
def Queue (d : AndroidUsbDevice) (message : AdbMessage) : AndroidUsbDevice × List Effect :=
  ProcessOutgoing
    { d with outgoing_queue_ := d.outgoing_queue_ ++ Queue.pushes d.zero_mask_ message }

/-! ## `ParseHeader` and `ParseBody` -/

/-- The method `AndroidUsbDevice::TransferError`: it posts `Terminate`. -/
def TransferError (_status : UsbTransferStatus) : List Task := [Task.Terminate]

/-- The method `AndroidUsbDevice::ParseHeader`; the result is the list of tasks it posts. -/
def ParseHeader (status : UsbTransferStatus) (buffer : IOBuffer) (result : Nat) : List Task :=
  if status = USB_TRANSFER_TIMEOUT then [Task.ReadHeader false]
  else if status ≠ USB_TRANSFER_COMPLETED ∨ result ≠ kHeaderSize then TransferError status
  else
    let message : AdbMessage := ⟨wordAt buffer 0, wordAt buffer 1, wordAt buffer 2, []⟩
    let data_length := wordAt buffer 3
    let data_check := wordAt buffer 4
    let magic := wordAt buffer 5
    if toUint32 (message.command.val ^^^ 0xffffffff) ≠ magic then
      TransferError USB_TRANSFER_ERROR
    else if data_length = 0 then [Task.HandleIncoming message]
    else [Task.ReadBody message data_length data_check]

/-- The method `AndroidUsbDevice::ParseBody`; the result is the list of tasks it posts. -/
def ParseBody (message : AdbMessage) (data_length data_check : uint32)
    (status : UsbTransferStatus) (buffer : IOBuffer) (result : Nat) : List Task :=
  if status = USB_TRANSFER_TIMEOUT then [Task.ReadBody message data_length data_check]
  else if status ≠ USB_TRANSFER_COMPLETED ∨ toUint32 result ≠ data_length then
    TransferError status
  else
    let message : AdbMessage := { message with body := buffer.take result }
    if Checksum message.body ≠ data_check then TransferError USB_TRANSFER_ERROR
    else [Task.HandleIncoming message]

/-! ## `ReadHeader`, `Send`, `CreateSocket`, `HandleIncoming`, the constructor -/

/-- The method `AndroidUsbDevice::ReadHeader`. `HasOneRef` is the value of the
reference-count query `HasOneRef()` of the device object at the time of the call (it
is consulted only when `initial` is false). -/
def ReadHeader (d : AndroidUsbDevice) (initial : Bool) (HasOneRef : Bool) :
    AndroidUsbDevice × List Effect :=
  if d.terminated_ then (d, [])
  else if !initial && HasOneRef then (d, [])
  else (d, [Effect.BulkTransferHeader kHeaderSize])

/-- The method `AndroidUsbDevice::Send`. -/
def Send (d : AndroidUsbDevice) (command arg0 arg1 : uint32) (body : List Byte) :
    AndroidUsbDevice × List Effect :=
  let m : AdbMessage := ⟨command, arg0, arg1, body⟩
  if !d.is_connected_ then ({ d with pending_messages_ := d.pending_messages_ ++ [m] }, [])
  else Queue d m

/-- The method `AndroidUsbDevice::CreateSocket`; the second component is the stream
returned to the caller. -/
def CreateSocket (d : AndroidUsbDevice) (command : List Byte) :
    AndroidUsbDevice × AndroidUsbSocket :=
  let socket_id := toUint32 (d.last_socket_id_.val + 1)
  let d := { d with last_socket_id_ := socket_id }
  let socket : AndroidUsbSocket := ⟨socket_id, command⟩
  ({ d with sockets_ := AndroidUsbSockets.assign d.sockets_ socket_id socket }, socket)

/-- The method `AndroidUsbDevice::SocketDeleted`. -/
def SocketDeleted (d : AndroidUsbDevice) (socket_id : uint32) :
    AndroidUsbDevice × List Effect :=
  ({ d with sockets_ := AndroidUsbSockets.erase d.sockets_ socket_id }, [])

/-- A call that a stream, or the client code the stream runs, makes back on the device
while the device is inside the stream's incoming-message handler: `Send` or
`CreateSocket` through the device pointer the stream was constructed with (`this` in
`CreateSocket`), or the disposal callback `SocketDeleted` bound for it there. -/
inductive Reentry where
  | Send (command arg0 arg1 : uint32) (body : List Byte)
  | CreateSocket (command : List Byte)
  | SocketDeleted (socket_id : uint32)
  deriving DecidableEq, Repr

/-- The device after a sequence of such calls, made one after the other, with the calls
these make on the collaborators collected behind `effects` (for `CreateSocket`, the
construction of the stream it returns). -/
def reenter (d : AndroidUsbDevice) (effects : List Effect) :
    List Reentry → AndroidUsbDevice × List Effect
  | [] => (d, effects)
  | Reentry.Send command arg0 arg1 body :: calls =>
    reenter (Send d command arg0 arg1 body).1
      (effects ++ (Send d command arg0 arg1 body).2) calls
  | Reentry.CreateSocket command :: calls =>
    reenter (CreateSocket d command).1
      (effects ++ [Effect.NewAndroidUsbSocket (CreateSocket d command).2]) calls
  | Reentry.SocketDeleted socket_id :: calls =>
    reenter (SocketDeleted d socket_id).1 (effects ++ (SocketDeleted d socket_id).2) calls

/-- The loop of `HandleIncoming` over the swapped-out pending messages: `Queue` is
called on each in turn; the calls made on the way are collected. -/
def QueueAll (d : AndroidUsbDevice) (effects : List Effect) :
    List AdbMessage → AndroidUsbDevice × List Effect
  | [] => (d, effects)
  | m :: pending => QueueAll (Queue d m).1 (effects ++ (Queue d m).2) pending

/-- The `switch` of `AndroidUsbDevice::HandleIncoming`. `AndroidRSASign` and
`AndroidRSAPublicKey` are the two functions of `android_rsa.h` applied to the
device's key `rsa_key_`. The debug assertion `DCHECK_EQ(message->arg0, kAuthToken)`
has no effect. `SocketHandleIncoming socket message` lists the calls made back on the
device while the handler `it->second->HandleIncoming(message)` of the stream found
runs: they take effect on the device before the `switch` is left. -/
def HandleIncoming.dispatch (d : AndroidUsbDevice)
    (AndroidRSASign : List Byte → List Byte) (AndroidRSAPublicKey : List Byte)
    (SocketHandleIncoming : AndroidUsbSocket → AdbMessage → List Reentry)
    (message : AdbMessage) : AndroidUsbDevice × List Effect :=
  if message.command = kCommandAUTH then
    if d.signature_sent_ then
      Queue d ⟨kCommandAUTH, kAuthRSAPublicKey, 0, AndroidRSAPublicKey⟩
    else
      let d := { d with signature_sent_ := true }
      let signature := AndroidRSASign message.body
      if !signature.isEmpty then Queue d ⟨kCommandAUTH, kAuthSignature, 0, signature⟩
      else Queue d ⟨kCommandAUTH, kAuthRSAPublicKey, 0, AndroidRSAPublicKey⟩
  else if message.command = kCommandCNXN then
    let d := { d with is_connected_ := true }
    let pending := d.pending_messages_
    let d := { d with pending_messages_ := [] }
    QueueAll d [] pending
  else if message.command = kCommandOKAY ∨ message.command = kCommandWRTE
      ∨ message.command = kCommandCLSE then
    match AndroidUsbSockets.find d.sockets_ message.arg1 with
    | some socket =>
      reenter d [Effect.SocketHandleIncoming socket message] (SocketHandleIncoming socket message)
    | none => (d, [])
  else (d, [])

/-- The method `AndroidUsbDevice::HandleIncoming`: the `switch`, then `ReadHeader(false)`. -/
def HandleIncoming (d : AndroidUsbDevice)
    (AndroidRSASign : List Byte → List Byte) (AndroidRSAPublicKey : List Byte)
    (HasOneRef : Bool) (SocketHandleIncoming : AndroidUsbSocket → AdbMessage → List Reentry)
    (message : AdbMessage) : AndroidUsbDevice × List Effect :=
  let r := HandleIncoming.dispatch d AndroidRSASign AndroidRSAPublicKey SocketHandleIncoming
    message
  let r2 := ReadHeader r.1 false HasOneRef
  (r2.1, r.2 ++ r2.2)

/-- The member initialisers of the constructor `AndroidUsbDevice::AndroidUsbDevice`. -/
def AndroidUsbDevice.members (zero_mask : Int) : AndroidUsbDevice :=
  { zero_mask_ := zero_mask, is_connected_ := false, signature_sent_ := false,
    last_socket_id_ := 256, terminated_ := false, pending_messages_ := [],
    outgoing_queue_ := [], sockets_ := [] }

/-- The constructor `AndroidUsbDevice::AndroidUsbDevice`: the initial members, then
`Queue` of the connection message and `ReadHeader(true)` (for which `HasOneRef()` is
not evaluated). -/
def AndroidUsbDevice.construct (zero_mask : Int) : AndroidUsbDevice × List Effect :=
  let d := AndroidUsbDevice.members zero_mask
  let r := Queue d ⟨kCommandCNXN, kVersion, kMaxPayload, kHostConnectMessage⟩
  let r2 := ReadHeader r.1 true false
  (r2.1, r.2 ++ r2.2)

/-! ## `OutgoingMessageSent`, `ReadBody`, `SocketDeleted`, `Terminate` -/

/-- The method `AndroidUsbDevice::OutgoingMessageSent`; the result is the list of tasks
it posts. -/
def OutgoingMessageSent (status : UsbTransferStatus) (_buffer : IOBuffer) (_result : Nat) :
    List Task :=
  if status ≠ USB_TRANSFER_COMPLETED then []
  else [Task.ProcessOutgoing]

/-- The method `AndroidUsbDevice::ReadBody`: one inbound transfer of `data_length`
bytes whose completion callback is `ParseBody` bound to the three arguments. -/
def ReadBody (message : AdbMessage) (data_length data_check : uint32) : List Effect :=
  [Effect.BulkTransferBody message data_length data_check]

/-- The device after the `SocketDeleted` callbacks for a list of stream ids. -/
def SocketDeletedAll (d : AndroidUsbDevice) : List uint32 → AndroidUsbDevice
  | [] => d
  | socket_id :: ids => SocketDeletedAll (SocketDeleted d socket_id).1 ids

/-- The loop of `Terminate` over the copy `sockets` of the stream table: every stream
of the copy is notified in turn. `Terminated socket` lists the streams disposed of
while `socket` is being notified (the stream itself, for one that removes itself): for
each of them the callback `SocketDeleted` runs on the device before the loop goes on. -/
def Terminate.notify (Terminated : AndroidUsbSocket → List uint32)
    (d : AndroidUsbDevice) (effects : List Effect) :
    AndroidUsbSockets → AndroidUsbDevice × List Effect
  | [] => (d, effects)
  | (_, socket) :: sockets =>
    Terminate.notify Terminated (SocketDeletedAll d (Terminated socket))
      (effects ++ [Effect.SocketTerminated socket]) sockets

/-- The method `AndroidUsbDevice::Terminate`. -/
def Terminate (d : AndroidUsbDevice) (Terminated : AndroidUsbSocket → List uint32) :
    AndroidUsbDevice × List Effect :=
  if d.terminated_ then (d, [])
  else
    let d := { d with terminated_ := true }
    let sockets := d.sockets_
    let r := Terminate.notify Terminated d [] sockets
    (r.1, r.2 ++ [Effect.ReleaseInterface 1, Effect.Close])

/-- The device and the collected calls after a sequence of `Terminate` calls, each
given with the disposals its notifications trigger. -/
def TerminateAll (d : AndroidUsbDevice) (effects : List Effect) :
    List (AndroidUsbSocket → List uint32) → AndroidUsbDevice × List Effect
  | [] => (d, effects)
  | Terminated :: later =>
    TerminateAll (Terminate d Terminated).1 (effects ++ (Terminate d Terminated).2) later

/-- The chunks handed to the transport by a sequence of calls, in the order of the
`BulkTransfer` calls. -/
def transferred : List Effect → List BulkMessage
  | [] => []
  | Effect.BulkTransferOutbound buffer length :: effects =>
    (buffer, length) :: transferred effects
  | _ :: effects => transferred effects

/-- The streams whose incoming-message handler a sequence of calls invokes, with the
message handed over. -/
def forwarded : List Effect → List (AndroidUsbSocket × AdbMessage)
  | [] => []
  | Effect.SocketHandleIncoming socket message :: effects =>
    (socket, message) :: forwarded effects
  | _ :: effects => forwarded effects

/-- A call on the outgoing path of the device. -/
inductive OutgoingCall where
  | Queue (message : AdbMessage)
  | ProcessOutgoing
  deriving DecidableEq, Repr

/-- The device and the collected calls after a sequence of `Queue` and
`ProcessOutgoing` calls. -/
def runOutgoing (d : AndroidUsbDevice) (effects : List Effect) :
    List OutgoingCall → AndroidUsbDevice × List Effect
  | [] => (d, effects)
  | OutgoingCall.Queue message :: calls =>
    runOutgoing (Queue d message).1 (effects ++ (Queue d message).2) calls
  | OutgoingCall.ProcessOutgoing :: calls =>
    runOutgoing (ProcessOutgoing d).1 (effects ++ (ProcessOutgoing d).2) calls

/-- The chunks of the messages queued by a sequence of calls, concatenated in call order. -/
def queuedChunks (zero_mask_ : Int) : List OutgoingCall → List BulkMessage
  | [] => []
  | OutgoingCall.Queue message :: calls =>
    Queue.pushes zero_mask_ message ++ queuedChunks zero_mask_ calls
  | OutgoingCall.ProcessOutgoing :: calls => queuedChunks zero_mask_ calls

/-- The chunks of a list of messages, concatenated in order. -/
def chunksOf (zero_mask_ : Int) : List AdbMessage → List BulkMessage
  | [] => []
  | m :: messages => Queue.pushes zero_mask_ m ++ chunksOf zero_mask_ messages

/-- The device after a sequence of `Send` calls (command, arg0, arg1 and body of each
call given as a message), with the calls collected. -/
def SendAll (d : AndroidUsbDevice) (effects : List Effect) :
    List AdbMessage → AndroidUsbDevice × List Effect
  | [] => (d, effects)
  | m :: messages =>
    SendAll (Send d m.command m.arg0 m.arg1 m.body).1
      (effects ++ (Send d m.command m.arg0 m.arg1 m.body).2) messages

/-! ## Reads that time out -/

/-- The tasks posted when the read started by a posted read task completes with
USB_TRANSFER_TIMEOUT; `completion` is the buffer and the byte count the completion
callback is given. -/
def timeoutOf (completion : IOBuffer × Nat) : Task → List Task
  | Task.ReadHeader _ => ParseHeader USB_TRANSFER_TIMEOUT completion.1 completion.2
  | Task.ReadBody message data_length data_check =>
    ParseBody message data_length data_check USB_TRANSFER_TIMEOUT completion.1 completion.2
  | _ => []

/-- The tasks posted after consecutive timeouts, one for each completion of the list. -/
def afterTimeouts : List (IOBuffer × Nat) → List Task → List Task
  | [], tasks => tasks
  | completion :: later, tasks =>
    afterTimeouts later (tasks.foldr (fun task posted => timeoutOf completion task ++ posted) [])

/-! ## The outbound writes in flight -/

/-- A device together with the number of outbound writes handed to the transport whose
completion callback has not fired yet, and the number of `ProcessOutgoing` tasks posted
to the message loop that have not run yet. -/
structure Link where
  device : AndroidUsbDevice
  outstanding : Nat
  posted : Nat
  deriving DecidableEq, Repr

/-- A step of the outgoing side of a link: a call of `Queue`, `Send` or `HandleIncoming`,
the run of a posted `ProcessOutgoing` task, or the completion callback
`OutgoingMessageSent` of an outstanding write. -/
inductive LinkCall where
  | Queue (message : AdbMessage)
  | Send (command arg0 arg1 : uint32) (body : List Byte)
  | HandleIncoming (message : AdbMessage) (HasOneRef : Bool)
      (SocketHandleIncoming : AndroidUsbSocket → AdbMessage → List Reentry)
  | ProcessOutgoing
  | OutgoingMessageSent (status : UsbTransferStatus)

/-- The number of `ProcessOutgoing` tasks in a list of posted tasks. -/
def postedProcessOutgoing : List Task → Nat
  | [] => 0
  | Task.ProcessOutgoing :: tasks => postedProcessOutgoing tasks + 1
  | _ :: tasks => postedProcessOutgoing tasks

/-- One step of a link; `none` when the step cannot happen (no posted task to run, no
outstanding write to complete). -/
def Link.step (AndroidRSASign : List Byte → List Byte) (AndroidRSAPublicKey : List Byte)
    (l : Link) : LinkCall → Option Link
  | LinkCall.Queue message =>
    some { l with device := (Queue l.device message).1,
                  outstanding := l.outstanding + (transferred (Queue l.device message).2).length }
  | LinkCall.Send command arg0 arg1 body =>
    some { l with device := (Send l.device command arg0 arg1 body).1,
                  outstanding := l.outstanding
                    + (transferred (Send l.device command arg0 arg1 body).2).length }
  | LinkCall.HandleIncoming message HasOneRef SocketHandleIncoming =>
    some { l with device :=
                    (HandleIncoming l.device AndroidRSASign AndroidRSAPublicKey HasOneRef
                      SocketHandleIncoming message).1,
                  outstanding := l.outstanding
                    + (transferred (HandleIncoming l.device AndroidRSASign AndroidRSAPublicKey
                        HasOneRef SocketHandleIncoming message).2).length }
  | LinkCall.ProcessOutgoing =>
    if l.posted = 0 then none
    else
      some { device := (ProcessOutgoing l.device).1,
             outstanding := l.outstanding + (transferred (ProcessOutgoing l.device).2).length,
             posted := l.posted - 1 }
  | LinkCall.OutgoingMessageSent status =>
    if l.outstanding = 0 then none
    else
      some { l with outstanding := l.outstanding - 1,
                    posted := l.posted + postedProcessOutgoing (OutgoingMessageSent status [] 0) }

/-- A sequence of steps of a link. -/
def Link.run (AndroidRSASign : List Byte → List Byte) (AndroidRSAPublicKey : List Byte)
    (l : Link) : List LinkCall → Option Link
  | [] => some l
  | call :: calls =>
    match Link.step AndroidRSASign AndroidRSAPublicKey l call with
    | none => none
    | some next => Link.run AndroidRSASign AndroidRSAPublicKey next calls

/-- The link right after the constructor has run. -/
def Link.construct (zero_mask : Int) : Link :=
  { device := (AndroidUsbDevice.construct zero_mask).1,
    outstanding := (transferred (AndroidUsbDevice.construct zero_mask).2).length,
    posted := 0 }

/-! ## Sequences of calls on the device -/

/-- A call of a method of the device, with its arguments and the answers and reactions
of the collaborators it consults: a call by a client (`CreateSocket`, `Send`), by a
stream (`SocketDeleted`), by the transport as a completion callback
(`OutgoingMessageSent`, `ParseHeader`, `ParseBody`), by the message loop running a
posted task, or by the destructor (`Terminate`). -/
inductive Call where
  | CreateSocket (command : List Byte)
  | Send (command arg0 arg1 : uint32) (body : List Byte)
  | Queue (message : AdbMessage)
  | ProcessOutgoing
  | OutgoingMessageSent (status : UsbTransferStatus) (buffer : IOBuffer) (result : Nat)
  | ReadHeader (initial : Bool) (HasOneRef : Bool)
  | ParseHeader (status : UsbTransferStatus) (buffer : IOBuffer) (result : Nat)
  | ReadBody (message : AdbMessage) (data_length data_check : uint32)
  | ParseBody (message : AdbMessage) (data_length data_check : uint32)
      (status : UsbTransferStatus) (buffer : IOBuffer) (result : Nat)
  | HandleIncoming (message : AdbMessage) (HasOneRef : Bool)
      (SocketHandleIncoming : AndroidUsbSocket → AdbMessage → List Reentry)
  | TransferError (status : UsbTransferStatus)
  | Terminate (Terminated : AndroidUsbSocket → List uint32)
  | SocketDeleted (socket_id : uint32)

/-- Whether a call is a call of `ReadBody`. -/
def Call.isReadBody : Call → Bool
  | Call.ReadBody _ _ _ => true
  | _ => false

/-- One call on the device: the device after the call, the calls made on the
collaborators (for `CreateSocket`, the construction of the stream it returns), and the
tasks posted to the message loop. The methods `OutgoingMessageSent`, `ReadBody`,
`ParseHeader`, `ParseBody` and `TransferError` read and write no member of the device
but `message_loop_` and `usb_device_`. -/
def callDevice (AndroidRSASign : List Byte → List Byte) (AndroidRSAPublicKey : List Byte)
    (d : AndroidUsbDevice) : Call → AndroidUsbDevice × List Effect × List Task
  | Call.CreateSocket command =>
    ((CreateSocket d command).1, [Effect.NewAndroidUsbSocket (CreateSocket d command).2], [])
  | Call.Send command arg0 arg1 body =>
    ((Send d command arg0 arg1 body).1, (Send d command arg0 arg1 body).2, [])
  | Call.Queue message => ((Queue d message).1, (Queue d message).2, [])
  | Call.ProcessOutgoing => ((ProcessOutgoing d).1, (ProcessOutgoing d).2, [])
  | Call.OutgoingMessageSent status buffer result =>
    (d, [], OutgoingMessageSent status buffer result)
  | Call.ReadHeader initial HasOneRef =>
    ((ReadHeader d initial HasOneRef).1, (ReadHeader d initial HasOneRef).2, [])
  | Call.ParseHeader status buffer result => (d, [], ParseHeader status buffer result)
  | Call.ReadBody message data_length data_check =>
    (d, ReadBody message data_length data_check, [])
  | Call.ParseBody message data_length data_check status buffer result =>
    (d, [], ParseBody message data_length data_check status buffer result)
  | Call.HandleIncoming message HasOneRef SocketHandleIncoming =>
    ((HandleIncoming d AndroidRSASign AndroidRSAPublicKey HasOneRef SocketHandleIncoming
        message).1,
     (HandleIncoming d AndroidRSASign AndroidRSAPublicKey HasOneRef SocketHandleIncoming
        message).2, [])
  | Call.TransferError status => (d, [], TransferError status)
  | Call.Terminate Terminated => ((Terminate d Terminated).1, (Terminate d Terminated).2, [])
  | Call.SocketDeleted socket_id =>
    ((SocketDeleted d socket_id).1, (SocketDeleted d socket_id).2, [])

/-- A sequence of calls on the device, in any order and with any arguments: the device
after the last call, the calls made on the collaborators and the tasks posted, in order.
Every state the device can be in is the state after such a sequence of calls on the
device the constructor leaves. -/
def callAll (AndroidRSASign : List Byte → List Byte) (AndroidRSAPublicKey : List Byte)
    (d : AndroidUsbDevice) : List Call → AndroidUsbDevice × List Effect × List Task
  | [] => (d, [], [])
  | call :: calls =>
    let r := callDevice AndroidRSASign AndroidRSAPublicKey d call
    let later := callAll AndroidRSASign AndroidRSAPublicKey r.1 calls
    (later.1, r.2.1 ++ later.2.1, r.2.2 ++ later.2.2)

/-- The number of streams constructed among the calls made on the collaborators: one
for each call of `CreateSocket`, whether made by a client or by a stream from inside its
incoming-message handler. -/
def created : List Effect → Nat
  | [] => 0
  | Effect.NewAndroidUsbSocket _ :: effects => created effects + 1
  | _ :: effects => created effects

/-- The bulk transfers among the calls made on the collaborators: outbound writes,
header reads and body reads. -/
def bulkTransfers : List Effect → List Effect
  | [] => []
  | Effect.BulkTransferOutbound buffer length :: effects =>
    Effect.BulkTransferOutbound buffer length :: bulkTransfers effects
  | Effect.BulkTransferHeader length :: effects =>
    Effect.BulkTransferHeader length :: bulkTransfers effects
  | Effect.BulkTransferBody message data_length data_check :: effects =>
    Effect.BulkTransferBody message data_length data_check :: bulkTransfers effects
  | _ :: effects => bulkTransfers effects

/-- The sizes of the header reads among the calls made on the collaborators. -/
def headerReads : List Effect → List Nat
  | [] => []
  | Effect.BulkTransferHeader length :: effects => length :: headerReads effects
  | _ :: effects => headerReads effects

/-- The stream ids disposed of during the loop of `Terminate` over the copy `sockets`
of the stream table, in the order of the `SocketDeleted` callbacks. -/
def Terminate.disposed (Terminated : AndroidUsbSocket → List uint32) :
    AndroidUsbSockets → List uint32
  | [] => []
  | (_, socket) :: sockets => Terminated socket ++ Terminate.disposed Terminated sockets

/-! ## Auxiliary lemmas -/

theorem toUint32_of_lt {n : Nat} (h : n < 4294967296) : (toUint32 n).val = n := by
  simp [toUint32, Nat.mod_eq_of_lt h]

theorem toInt_of_lt {n : Nat} (h : n < 2147483648) : toInt n = (n : Int) := by
  have h1 : n % 4294967296 = n := Nat.mod_eq_of_lt (by omega)
  simp [toInt, h1, h]

/-- Reading back word `k` of a header buffer written from six words. -/
theorem wordAt_vectorBytes (w0 w1 w2 w3 w4 w5 : uint32) :
    wordAt ((vectorBytes [w0, w1, w2, w3, w4, w5]).take kHeaderSize) 0 = w0
    ∧ wordAt ((vectorBytes [w0, w1, w2, w3, w4, w5]).take kHeaderSize) 1 = w1
    ∧ wordAt ((vectorBytes [w0, w1, w2, w3, w4, w5]).take kHeaderSize) 2 = w2
    ∧ wordAt ((vectorBytes [w0, w1, w2, w3, w4, w5]).take kHeaderSize) 3 = w3
    ∧ wordAt ((vectorBytes [w0, w1, w2, w3, w4, w5]).take kHeaderSize) 4 = w4
    ∧ wordAt ((vectorBytes [w0, w1, w2, w3, w4, w5]).take kHeaderSize) 5 = w5 := by
  have h0 := w0.isLt
  have h1 := w1.isLt
  have h2 := w2.isLt
  have h3 := w3.isLt
  have h4 := w4.isLt
  have h5 := w5.isLt
  refine ⟨?_, ?_, ?_, ?_, ?_, ?_⟩ <;> apply Fin.ext <;>
    simp [wordAt, byteAt, vectorBytes, uint32Bytes, kHeaderSize, toUint32] <;> omega

/-- The loop of `Checksum` run for exactly the length of the data adds all bytes. -/
theorem ChecksumLoop_length (data : List Byte) (sum : uint32) :
    (ChecksumLoop data (data.length : Int) sum).val
      = (sum.val + (data.map Fin.val).sum) % 4294967296 := by
  induction data generalizing sum with
  | nil => simp [ChecksumLoop, Nat.mod_eq_of_lt sum.isLt]
  | cons b x ih =>
    have hpos : ((b :: x).length : Int) > 0 := by simp only [List.length_cons]; omega
    have hpred : ((b :: x).length : Int) - 1 = (x.length : Int) := by
      simp only [List.length_cons]; omega
    rw [ChecksumLoop, if_pos hpos, hpred, ih]
    simp [toUint32]
    omega

/-- The loop of `Checksum` does nothing when the counter is not positive. -/
theorem ChecksumLoop_nonpos (data : List Byte) (count : Int) (sum : uint32) (h : count ≤ 0) :
    ChecksumLoop data count sum = sum := by
  cases data with
  | nil => rfl
  | cons b x =>
    have : ¬ count > 0 := by omega
    rw [ChecksumLoop, if_neg this]

theorem Checksum_of_lt (data : List Byte) (h : data.length < 2147483648) :
    (Checksum data).val = (data.map Fin.val).sum % 4294967296 := by
  rw [Checksum, toInt_of_lt h, ChecksumLoop_length]
  simp

/-- A string whose length wraps to a non-positive `int` has checksum zero. -/
theorem Checksum_of_wrap (data : List Byte) (h : toInt data.length ≤ 0) : Checksum data = 0 := by
  rw [Checksum, ChecksumLoop_nonpos _ _ _ h]

theorem sum_replicate_val (n : Nat) (b : Byte) :
    ((List.replicate n b).map Fin.val).sum = n * b.val := by
  induction n with
  | zero => simp
  | succ n ih => rw [List.replicate_succ, List.map_cons, List.sum_cons, ih]; ring

/-- Overwriting one byte moves the byte sum by the difference of the two bytes. -/
theorem sum_set_val (body : List Byte) (i : Nat) (h : i < body.length) (b : Byte) :
    ((body.set i b).map Fin.val).sum + (body.get ⟨i, h⟩).val
      = (body.map Fin.val).sum + b.val := by
  induction body generalizing i with
  | nil => simp at h
  | cons a x ih =>
    cases i with
    | zero => simp; omega
    | succ i =>
      have h2 : i < x.length := by simpa using h
      have := ih i h2
      simp only [List.set_cons_succ, List.map_cons, List.sum_cons, List.get_cons_succ]
      omega

theorem set_zero_replicate_ne (n : Nat) (a b : Byte) (hn : 0 < n) (hab : b ≠ a) :
    (List.replicate n a).set 0 b ≠ List.replicate n a := by
  cases n with
  | zero => omega
  | succ n =>
    rw [List.replicate_succ, List.set_cons_zero]
    intro h
    exact hab (List.cons.inj h).1

/-- The chunks pushed for a message without body: the header alone. -/
theorem pushes_of_empty (zero_mask_ : Int) (message : AdbMessage) (h : message.body = []) :
    Queue.pushes zero_mask_ message = [(Queue.header_buffer message, 24)] := by
  simp [Queue.pushes, h, kHeaderSize]

/-- The chunks pushed for a message with a body: header, body, and the zero-length
chunk when the test on `zero_mask_` succeeds. -/
theorem pushes_of_nonempty (zero_mask_ : Int) (message : AdbMessage) (h : message.body ≠ []) :
    Queue.pushes zero_mask_ message
      = (Queue.header_buffer message, 24)
        :: (Queue.body_buffer message, Queue.body_length message)
        :: (if zero_mask_ ≠ 0 ∧ Int.land (Queue.body_length message) zero_mask_ = 0
            then [(Queue.body_buffer message, 0)] else []) := by
  have he : message.body.isEmpty = false := by
    cases hb : message.body with
    | nil => exact absurd hb h
    | cons a x => rfl
  unfold Queue.pushes
  simp only [he, kHeaderSize, Bool.not_false, if_true, List.cons_append, List.nil_append]
  split <;> rfl

theorem body_buffer_length (message : AdbMessage) :
    (Queue.body_buffer message).length = Queue.body_length message := by
  unfold Queue.body_buffer Queue.body_length
  split <;> simp

/-- The words read back from the header buffer of `Queue`. -/
theorem wordAt_header_buffer (message : AdbMessage) :
    wordAt (Queue.header_buffer message) 0 = message.command
    ∧ wordAt (Queue.header_buffer message) 1 = message.arg0
    ∧ wordAt (Queue.header_buffer message) 2 = message.arg1
    ∧ wordAt (Queue.header_buffer message) 3 = toUint32 (Queue.body_length message)
    ∧ wordAt (Queue.header_buffer message) 4 = Checksum message.body
    ∧ wordAt (Queue.header_buffer message) 5 = toUint32 (message.command.val ^^^ 0xffffffff) :=
  wordAt_vectorBytes _ _ _ _ _ _

/-- The three outcomes of `ParseHeader` on a completed read of `kHeaderSize` bytes. -/
theorem ParseHeader_completed (buffer : IOBuffer) :
    ParseHeader USB_TRANSFER_COMPLETED buffer 24
      = if toUint32 ((wordAt buffer 0).val ^^^ 0xffffffff) ≠ wordAt buffer 5 then
          TransferError USB_TRANSFER_ERROR
        else if wordAt buffer 3 = 0 then
          [Task.HandleIncoming ⟨wordAt buffer 0, wordAt buffer 1, wordAt buffer 2, []⟩]
        else
          [Task.ReadBody ⟨wordAt buffer 0, wordAt buffer 1, wordAt buffer 2, []⟩
            (wordAt buffer 3) (wordAt buffer 4)] := by
  simp [ParseHeader, kHeaderSize]

/-- The outcome of `ParseBody` on a completed read of the declared length. -/
theorem ParseBody_completed (message : AdbMessage) (data_check : uint32)
    (buffer : IOBuffer) (n : Nat) (hn : buffer.length = n) :
    ParseBody message (toUint32 n) data_check USB_TRANSFER_COMPLETED buffer n
      = if Checksum buffer ≠ data_check then TransferError USB_TRANSFER_ERROR
        else [Task.HandleIncoming { message with body := buffer }] := by
  have ht : buffer.take n = buffer := List.take_of_length_le (by omega)
  simp [ParseBody, ht]

theorem xor_two_pow_ne (x i : Nat) : x ^^^ 2 ^ i ≠ x := by
  intro h
  have h2 : x ^^^ 2 ^ i = x ^^^ 0 := by simpa using h
  have h3 := Nat.xor_right_inj.mp h2
  exact absurd h3 (by positivity)

/-- Below 2^31 bytes the appended zero byte does not change the checksum. -/
theorem Checksum_body_buffer (message : AdbMessage)
    (h : Queue.body_length message < 2147483648) :
    Checksum (Queue.body_buffer message) = Checksum message.body := by
  have hl := body_buffer_length message
  have h1 : message.body.length < 2147483648 := by
    unfold Queue.body_length at h; omega
  apply Fin.ext
  rw [Checksum_of_lt _ (by omega), Checksum_of_lt _ h1]
  unfold Queue.body_buffer
  split <;> simp

/-- When `append_zero` is false the body buffer is the body itself. -/
theorem body_buffer_of_not_append (message : AdbMessage)
    (h : Queue.append_zero message = false) :
    Queue.body_buffer message = message.body
    ∧ Queue.body_length message = message.body.length := by
  simp [Queue.body_buffer, Queue.body_length, h]

/-- When `append_zero` is true the body buffer is the body and one zero byte. -/
theorem body_buffer_of_append (message : AdbMessage)
    (h : Queue.append_zero message = true) :
    Queue.body_buffer message = message.body ++ [0]
    ∧ Queue.body_length message = message.body.length + 1 := by
  simp [Queue.body_buffer, Queue.body_length, h]

theorem isEmpty_eq_false {body : List Byte} (h : body ≠ []) : body.isEmpty = false := by
  cases body with
  | nil => exact absurd rfl h
  | cons a x => rfl

/-- The test of `Queue` on `zero_mask_` for a mask `2^j - 1`. -/
theorem land_two_pow_sub_one (n j : Nat) :
    Int.land (n : Int) (((2 ^ j - 1 : Nat)) : Int) = ((n % 2 ^ j : Nat) : Int) := by
  show ((n &&& (2 ^ j - 1) : Nat) : Int) = _
  rw [Nat.and_pow_two_sub_one_eq_mod]

theorem append_zero_WRTE (message : AdbMessage) (h : message.command = kCommandWRTE) :
    Queue.append_zero message = false := by
  simp [Queue.append_zero, h]

theorem append_zero_signature (message : AdbMessage)
    (h : message.command = kCommandAUTH ∧ message.arg0 = kAuthSignature) :
    Queue.append_zero message = false := by
  simp [Queue.append_zero, h.1, h.2]

theorem append_zero_other (message : AdbMessage) (hb : message.body ≠ [])
    (hs : ¬ (message.command = kCommandAUTH ∧ message.arg0 = kAuthSignature))
    (hw : message.command ≠ kCommandWRTE) :
    Queue.append_zero message = true := by
  simp [Queue.append_zero, isEmpty_eq_false hb, hs, hw]

theorem replicate_ne_nil (n : Nat) (b : Byte) (hn : 0 < n) : List.replicate n b ≠ [] := by
  cases n with
  | zero => omega
  | succ n => simp [List.replicate_succ]

/-- The chunks of a WRTE message whose body is `n` copies of one byte. -/
theorem pushes_WRTE_replicate (n : Nat) (hn : 0 < n) (arg0 arg1 : uint32) (b : Byte) :
    Queue.pushes 0 ⟨kCommandWRTE, arg0, arg1, List.replicate n b⟩
      = [(Queue.header_buffer ⟨kCommandWRTE, arg0, arg1, List.replicate n b⟩, 24),
         (List.replicate n b, n)]
    ∧ wordAt (Queue.header_buffer ⟨kCommandWRTE, arg0, arg1, List.replicate n b⟩) 3
      = toUint32 n := by
  have ha := body_buffer_of_not_append ⟨kCommandWRTE, arg0, arg1, List.replicate n b⟩
    (append_zero_WRTE _ rfl)
  have hl : Queue.body_length ⟨kCommandWRTE, arg0, arg1, List.replicate n b⟩ = n := by
    rw [ha.2]; exact List.length_replicate n b
  constructor
  · rw [pushes_of_nonempty 0 _ (replicate_ne_nil n b hn), ha.1, hl]
    simp
  · rw [(wordAt_header_buffer _).2.2.2.1, hl]

/-- The header of a stream-open message whose body is `n` copies of one byte. -/
theorem header_OPEN_replicate (n : Nat) (hn : 0 < n) (arg0 arg1 : uint32) (b : Byte) :
    ParseHeader USB_TRANSFER_COMPLETED
        (Queue.header_buffer ⟨kCommandOPEN, arg0, arg1, List.replicate n b⟩) 24
      = if toUint32 (n + 1) = 0 then [Task.HandleIncoming ⟨kCommandOPEN, arg0, arg1, []⟩]
        else [Task.ReadBody ⟨kCommandOPEN, arg0, arg1, []⟩ (toUint32 (n + 1))
                (Checksum (List.replicate n b))] := by
  have ha := body_buffer_of_append ⟨kCommandOPEN, arg0, arg1, List.replicate n b⟩
    (append_zero_other _ (replicate_ne_nil n b hn)
      (fun h => (by decide : kCommandOPEN ≠ kCommandAUTH) h.1)
      (fun h => (by decide : kCommandOPEN ≠ kCommandWRTE) h))
  have hl : Queue.body_length ⟨kCommandOPEN, arg0, arg1, List.replicate n b⟩ = n + 1 := by
    rw [ha.2]; exact congrArg (· + 1) (List.length_replicate n b)
  obtain ⟨w0, w1, w2, w3, w4, w5⟩ :=
    wordAt_header_buffer ⟨kCommandOPEN, arg0, arg1, List.replicate n b⟩
  rw [ParseHeader_completed, w0, w1, w2, w3, w4, w5, hl]
  simp

theorem body_ne_nil_of_body_length_pos (message : AdbMessage)
    (h : 0 < Queue.body_length message) : message.body ≠ [] := by
  intro hb
  have hz : Queue.body_length message = 0 := by
    simp [Queue.body_length, Queue.append_zero, hb]
  omega

theorem two_le_two_pow (j : Nat) (hj : 1 ≤ j) : 2 ≤ 2 ^ j := by
  calc 2 = 2 ^ 1 := rfl
    _ ≤ 2 ^ j := Nat.pow_le_pow_right (by decide) hj

theorem mul_two_pow_sub_one_mod (j k : Nat) (hj : 1 ≤ j) (hk : 1 ≤ k) :
    (k * 2 ^ j - 1) % 2 ^ j = 2 ^ j - 1 := by
  have hp := two_le_two_pow j hj
  obtain ⟨k, rfl⟩ : ∃ k', k = k' + 1 := ⟨k - 1, by omega⟩
  have h1 : (k + 1) * 2 ^ j - 1 = (2 ^ j - 1) + k * 2 ^ j := by
    rw [Nat.succ_mul]; omega
  rw [h1, Nat.add_mul_mod_self_right, Nat.mod_eq_of_lt (by omega)]

/-! ### The outgoing path -/

theorem transferred_append (a b : List Effect) :
    transferred (a ++ b) = transferred a ++ transferred b := by
  induction a with
  | nil => rfl
  | cons e a ih => cases e <;> simp [transferred, ih]

theorem forwarded_append (a b : List Effect) :
    forwarded (a ++ b) = forwarded a ++ forwarded b := by
  induction a with
  | nil => rfl
  | cons e a ih => cases e <;> simp [forwarded, ih]

/-- The two outcomes of `ProcessOutgoing`: nothing, or the head chunk handed over. -/
theorem ProcessOutgoing_cases (d : AndroidUsbDevice) :
    (ProcessOutgoing d = (d, []) ∧ (d.outgoing_queue_ = [] ∨ d.terminated_ = true))
    ∨ ∃ m rest, d.outgoing_queue_ = m :: rest ∧ d.terminated_ = false
        ∧ ProcessOutgoing d
          = ({ d with outgoing_queue_ := rest }, [Effect.BulkTransferOutbound m.1 m.2]) := by
  unfold ProcessOutgoing
  cases hq : d.outgoing_queue_ with
  | nil => left; simp
  | cons m rest =>
    cases ht : d.terminated_ with
    | true => left; simp
    | false => right; exact ⟨m, rest, rfl, rfl, by simp⟩

/-- `ProcessOutgoing` changes nothing but the outgoing queue, loses no chunk and calls
no stream. -/
theorem ProcessOutgoing_frame (d : AndroidUsbDevice) :
    (∃ queue, (ProcessOutgoing d).1 = { d with outgoing_queue_ := queue })
    ∧ transferred (ProcessOutgoing d).2 ++ (ProcessOutgoing d).1.outgoing_queue_
        = d.outgoing_queue_
    ∧ forwarded (ProcessOutgoing d).2 = [] := by
  rcases ProcessOutgoing_cases d with ⟨h, _⟩ | ⟨m, rest, hq, _, h⟩
  · rw [h]; exact ⟨⟨d.outgoing_queue_, rfl⟩, rfl, rfl⟩
  · rw [h]; exact ⟨⟨rest, rfl⟩, by simp [transferred, hq], rfl⟩

/-- `Queue` changes nothing but the outgoing queue; the chunks handed over followed by
the new queue are the old queue followed by the chunks of the message. -/
theorem Queue_frame (d : AndroidUsbDevice) (message : AdbMessage) :
    (∃ queue, (Queue d message).1 = { d with outgoing_queue_ := queue })
    ∧ transferred (Queue d message).2 ++ (Queue d message).1.outgoing_queue_
        = d.outgoing_queue_ ++ Queue.pushes d.zero_mask_ message
    ∧ forwarded (Queue d message).2 = [] := by
  obtain ⟨⟨q, hq⟩, h2, h3⟩ := ProcessOutgoing_frame
    { d with outgoing_queue_ := d.outgoing_queue_ ++ Queue.pushes d.zero_mask_ message }
  unfold Queue
  exact ⟨⟨q, hq⟩, h2, h3⟩

/-- The loop over the pending messages changes nothing but the outgoing queue and keeps
the chunks in order. -/
theorem QueueAll_frame (pending : List AdbMessage) (d : AndroidUsbDevice)
    (effects : List Effect) :
    (∃ queue, (QueueAll d effects pending).1 = { d with outgoing_queue_ := queue })
    ∧ transferred (QueueAll d effects pending).2
        ++ (QueueAll d effects pending).1.outgoing_queue_
        = transferred effects ++ d.outgoing_queue_ ++ chunksOf d.zero_mask_ pending
    ∧ forwarded (QueueAll d effects pending).2 = forwarded effects := by
  induction pending generalizing d effects with
  | nil => exact ⟨⟨d.outgoing_queue_, rfl⟩, by simp [QueueAll, chunksOf], rfl⟩
  | cons m pending ih =>
    obtain ⟨⟨q1, h1⟩, h2, h3⟩ := Queue_frame d m
    obtain ⟨⟨q, i1⟩, i2, i3⟩ := ih (Queue d m).1 (effects ++ (Queue d m).2)
    have hz : (Queue d m).1.zero_mask_ = d.zero_mask_ := by rw [h1]
    refine ⟨⟨q, ?_⟩, ?_, ?_⟩
    · rw [QueueAll, i1, h1]
    · rw [QueueAll, i2, transferred_append, hz, chunksOf, List.append_assoc,
        List.append_assoc, ← List.append_assoc (transferred (Queue d m).2), h2]
      simp
    · rw [QueueAll, i3, forwarded_append, h3, List.append_nil]

/-- A sequence of `Queue` and `ProcessOutgoing` calls keeps the chunks in order. -/
theorem runOutgoing_frame (calls : List OutgoingCall) (d : AndroidUsbDevice)
    (effects : List Effect) :
    (runOutgoing d effects calls).1.zero_mask_ = d.zero_mask_
    ∧ transferred (runOutgoing d effects calls).2
        ++ (runOutgoing d effects calls).1.outgoing_queue_
        = transferred effects ++ d.outgoing_queue_ ++ queuedChunks d.zero_mask_ calls := by
  induction calls generalizing d effects with
  | nil => simp [runOutgoing, queuedChunks]
  | cons c calls ih =>
    cases c with
    | Queue m =>
      obtain ⟨⟨q1, h1⟩, h2, _⟩ := Queue_frame d m
      have hz : (Queue d m).1.zero_mask_ = d.zero_mask_ := by rw [h1]
      obtain ⟨i1, i2⟩ := ih (Queue d m).1 (effects ++ (Queue d m).2)
      refine ⟨by rw [runOutgoing, i1, hz], ?_⟩
      rw [runOutgoing, i2, transferred_append, hz, queuedChunks, List.append_assoc,
        List.append_assoc, ← List.append_assoc (transferred (Queue d m).2), h2]
      simp
    | ProcessOutgoing =>
      obtain ⟨⟨q1, h1⟩, h2, _⟩ := ProcessOutgoing_frame d
      have hz : (ProcessOutgoing d).1.zero_mask_ = d.zero_mask_ := by rw [h1]
      obtain ⟨i1, i2⟩ := ih (ProcessOutgoing d).1 (effects ++ (ProcessOutgoing d).2)
      refine ⟨by rw [runOutgoing, i1, hz], ?_⟩
      rw [runOutgoing, i2, transferred_append, hz, queuedChunks, List.append_assoc,
        List.append_assoc, ← List.append_assoc (transferred (ProcessOutgoing d).2), h2]
      simp

/-- `ReadHeader` leaves the device as it is, hands no chunk over and calls no stream. -/
theorem ReadHeader_frame (d : AndroidUsbDevice) (initial HasOneRef : Bool) :
    (ReadHeader d initial HasOneRef).1 = d
    ∧ transferred (ReadHeader d initial HasOneRef).2 = []
    ∧ forwarded (ReadHeader d initial HasOneRef).2 = [] := by
  unfold ReadHeader
  split
  · exact ⟨rfl, rfl, rfl⟩
  · split <;> exact ⟨rfl, rfl, rfl⟩

/-! ### The stream table -/

theorem find_assign_self (sockets : AndroidUsbSockets) (key : uint32)
    (value : AndroidUsbSocket) :
    AndroidUsbSockets.find (AndroidUsbSockets.assign sockets key value) key = some value := by
  induction sockets with
  | nil => simp [AndroidUsbSockets.assign, AndroidUsbSockets.find]
  | cons e rest ih =>
    obtain ⟨k, v⟩ := e
    unfold AndroidUsbSockets.assign
    split
    · simp [AndroidUsbSockets.find]
    · split
      · simp [AndroidUsbSockets.find]
      · rename_i h1 h2
        have : ¬ k = key := fun h => h2 h.symm
        simp [AndroidUsbSockets.find, this, ih]

theorem find_assign_other (sockets : AndroidUsbSockets) (key other : uint32)
    (value : AndroidUsbSocket) (h : other ≠ key) :
    AndroidUsbSockets.find (AndroidUsbSockets.assign sockets key value) other
      = AndroidUsbSockets.find sockets other := by
  induction sockets with
  | nil =>
    have : ¬ key = other := fun e => h e.symm
    simp [AndroidUsbSockets.assign, AndroidUsbSockets.find, this]
  | cons e rest ih =>
    obtain ⟨k, v⟩ := e
    have hko : ¬ key = other := fun e => h e.symm
    unfold AndroidUsbSockets.assign
    split
    · simp [AndroidUsbSockets.find, hko]
    · split
      · rename_i h1 h2
        subst h2
        simp [AndroidUsbSockets.find, hko]
      · simp [AndroidUsbSockets.find, ih]

/-- Sending on a link that is not connected only extends the pending queue. -/
theorem SendAll_pending (messages : List AdbMessage) (d : AndroidUsbDevice)
    (effects : List Effect) (h : d.is_connected_ = false) :
    SendAll d effects messages
      = ({ d with pending_messages_ := d.pending_messages_ ++ messages }, effects) := by
  induction messages generalizing d effects with
  | nil => simp [SendAll]
  | cons m messages ih =>
    have hs : Send d m.command m.arg0 m.arg1 m.body
        = ({ d with pending_messages_ := d.pending_messages_ ++ [m] }, []) := by
      simp [Send, h]
    rw [SendAll, hs]
    simp only [List.append_nil]
    rw [ih { d with pending_messages_ := d.pending_messages_ ++ [m] } effects h]
    simp

/-- The device the constructor leaves: the initial members but for the outgoing queue. -/
theorem construct_frame (zero_mask : Int) :
    ∃ queue, (AndroidUsbDevice.construct zero_mask).1
      = { AndroidUsbDevice.members zero_mask with outgoing_queue_ := queue } := by
  obtain ⟨⟨q, hq⟩, _, _⟩ := Queue_frame (AndroidUsbDevice.members zero_mask)
    ⟨kCommandCNXN, kVersion, kMaxPayload, kHostConnectMessage⟩
  refine ⟨q, ?_⟩
  unfold AndroidUsbDevice.construct
  simp only [(ReadHeader_frame _ _ _).1, hq]

/-- The calls a stream makes back on the device: the collected calls on the
collaborators start with those collected before. -/
theorem reenter_effects (calls : List Reentry) (d : AndroidUsbDevice) (effects : List Effect) :
    reenter d effects calls = ((reenter d [] calls).1, effects ++ (reenter d [] calls).2) := by
  induction calls generalizing d effects with
  | nil => simp [reenter]
  | cons call calls ih =>
    cases call with
    | Send command arg0 arg1 body =>
      rw [reenter, ih, reenter, ih _ ([] ++ _)]
      simp
    | CreateSocket command =>
      rw [reenter, ih, reenter, ih _ ([] ++ _)]
      simp
    | SocketDeleted socket_id =>
      rw [reenter, ih, reenter, ih _ ([] ++ _)]
      simp

/-- One call a stream makes back on the device, followed by the others. -/
theorem reenter_cons (call : Reentry) (calls : List Reentry) (d : AndroidUsbDevice) :
    reenter d [] (call :: calls)
      = ((reenter (reenter d [] [call]).1 [] calls).1,
         (reenter d [] [call]).2 ++ (reenter (reenter d [] [call]).1 [] calls).2) := by
  cases call with
  | Send command arg0 arg1 body =>
    rw [reenter, reenter_effects]
    simp [reenter]
  | CreateSocket command =>
    rw [reenter, reenter_effects]
    simp [reenter]
  | SocketDeleted socket_id =>
    rw [reenter, reenter_effects]
    simp [reenter]

/-- The `switch` of `HandleIncoming` for AUTH. -/
theorem dispatch_AUTH (d : AndroidUsbDevice) (AndroidRSASign : List Byte → List Byte)
    (AndroidRSAPublicKey : List Byte)
    (SocketHandleIncoming : AndroidUsbSocket → AdbMessage → List Reentry)
    (message : AdbMessage) (hc : message.command = kCommandAUTH) :
    HandleIncoming.dispatch d AndroidRSASign AndroidRSAPublicKey SocketHandleIncoming message
      = if d.signature_sent_ then
          Queue d ⟨kCommandAUTH, kAuthRSAPublicKey, 0, AndroidRSAPublicKey⟩
        else if !(AndroidRSASign message.body).isEmpty then
          Queue { d with signature_sent_ := true }
            ⟨kCommandAUTH, kAuthSignature, 0, AndroidRSASign message.body⟩
        else
          Queue { d with signature_sent_ := true }
            ⟨kCommandAUTH, kAuthRSAPublicKey, 0, AndroidRSAPublicKey⟩ := by
  simp [HandleIncoming.dispatch, hc]

/-- The `switch` of `HandleIncoming` for CNXN. -/
theorem dispatch_CNXN (d : AndroidUsbDevice) (AndroidRSASign : List Byte → List Byte)
    (AndroidRSAPublicKey : List Byte)
    (SocketHandleIncoming : AndroidUsbSocket → AdbMessage → List Reentry)
    (message : AdbMessage) (hc : message.command = kCommandCNXN) :
    HandleIncoming.dispatch d AndroidRSASign AndroidRSAPublicKey SocketHandleIncoming message
      = QueueAll { d with is_connected_ := true, pending_messages_ := [] } []
          d.pending_messages_ := by
  have hne : ¬ kCommandCNXN = kCommandAUTH := by decide
  simp [HandleIncoming.dispatch, hc, hne]

/-- The `switch` of `HandleIncoming` for a command other than AUTH and CNXN. -/
theorem dispatch_other (d : AndroidUsbDevice) (AndroidRSASign : List Byte → List Byte)
    (AndroidRSAPublicKey : List Byte)
    (SocketHandleIncoming : AndroidUsbSocket → AdbMessage → List Reentry)
    (message : AdbMessage)
    (ha : message.command ≠ kCommandAUTH) (hc : message.command ≠ kCommandCNXN) :
    HandleIncoming.dispatch d AndroidRSASign AndroidRSAPublicKey SocketHandleIncoming message
      = if message.command = kCommandOKAY ∨ message.command = kCommandWRTE
            ∨ message.command = kCommandCLSE then
          match AndroidUsbSockets.find d.sockets_ message.arg1 with
          | some socket =>
            reenter d [Effect.SocketHandleIncoming socket message]
              (SocketHandleIncoming socket message)
          | none => (d, [])
        else (d, []) := by
  simp [HandleIncoming.dispatch, ha, hc]

theorem stream_command_ne (command : uint32)
    (h : command = kCommandOKAY ∨ command = kCommandWRTE ∨ command = kCommandCLSE) :
    command ≠ kCommandAUTH ∧ command ≠ kCommandCNXN := by
  rcases h with h | h | h <;> subst h <;> exact ⟨by decide, by decide⟩

/-- One `Queue` call followed by `ReadHeader(false)`: one message queued, nothing else
changed, no stream called. -/
theorem Queue_then_ReadHeader (d : AndroidUsbDevice) (m : AdbMessage) (HasOneRef : Bool) :
    (∃ queue, (ReadHeader (Queue d m).1 false HasOneRef).1 = { d with outgoing_queue_ := queue })
    ∧ transferred ((Queue d m).2 ++ (ReadHeader (Queue d m).1 false HasOneRef).2)
        ++ (ReadHeader (Queue d m).1 false HasOneRef).1.outgoing_queue_
      = d.outgoing_queue_ ++ Queue.pushes d.zero_mask_ m
    ∧ forwarded ((Queue d m).2 ++ (ReadHeader (Queue d m).1 false HasOneRef).2) = [] := by
  obtain ⟨⟨q, hq⟩, h2, h3⟩ := Queue_frame d m
  obtain ⟨r1, r2, r3⟩ := ReadHeader_frame (Queue d m).1 false HasOneRef
  refine ⟨⟨q, by rw [r1, hq]⟩, ?_, ?_⟩
  · rw [transferred_append, r2, r1, List.append_nil, h2]
  · rw [forwarded_append, r3, h3]
    rfl

/-- `HandleIncoming` for a message that reaches no stream (a command other than AUTH and
CNXN that is not a stream command, or a stream command whose `arg1` is not a key of the
stream table): only `ReadHeader(false)` is run. -/
theorem HandleIncoming_dropped (d : AndroidUsbDevice) (AndroidRSASign : List Byte → List Byte)
    (AndroidRSAPublicKey : List Byte) (HasOneRef : Bool)
    (SocketHandleIncoming : AndroidUsbSocket → AdbMessage → List Reentry)
    (message : AdbMessage)
    (ha : message.command ≠ kCommandAUTH) (hc : message.command ≠ kCommandCNXN)
    (hn : ¬ (message.command = kCommandOKAY ∨ message.command = kCommandWRTE
          ∨ message.command = kCommandCLSE)
      ∨ AndroidUsbSockets.find d.sockets_ message.arg1 = none) :
    HandleIncoming d AndroidRSASign AndroidRSAPublicKey HasOneRef SocketHandleIncoming message
      = ReadHeader d false HasOneRef := by
  have hd : HandleIncoming.dispatch d AndroidRSASign AndroidRSAPublicKey SocketHandleIncoming
      message = (d, []) := by
    rw [dispatch_other _ _ _ _ _ ha hc]
    split
    · rename_i hk
      rcases hn with hn | hn
      · exact absurd hk hn
      · rw [hn]
    · rfl
  unfold HandleIncoming
  rw [hd]
  rfl

/-- `HandleIncoming` for a stream command whose `arg1` is the key of a stream: the
handler of the stream is called, the calls it makes back on the device take effect, and
`ReadHeader(false)` is run on the device they leave. -/
theorem HandleIncoming_forwarded (d : AndroidUsbDevice)
    (AndroidRSASign : List Byte → List Byte)
    (AndroidRSAPublicKey : List Byte) (HasOneRef : Bool)
    (SocketHandleIncoming : AndroidUsbSocket → AdbMessage → List Reentry)
    (message : AdbMessage) (socket : AndroidUsbSocket)
    (hk : message.command = kCommandOKAY ∨ message.command = kCommandWRTE
      ∨ message.command = kCommandCLSE)
    (hf : AndroidUsbSockets.find d.sockets_ message.arg1 = some socket) :
    HandleIncoming d AndroidRSASign AndroidRSAPublicKey HasOneRef SocketHandleIncoming message
      = ((reenter d [] (SocketHandleIncoming socket message)).1,
         Effect.SocketHandleIncoming socket message
          :: ((reenter d [] (SocketHandleIncoming socket message)).2
            ++ (ReadHeader (reenter d [] (SocketHandleIncoming socket message)).1
                false HasOneRef).2)) := by
  obtain ⟨ha, hc⟩ := stream_command_ne message.command hk
  have hd : HandleIncoming.dispatch d AndroidRSASign AndroidRSAPublicKey SocketHandleIncoming
      message = reenter d [Effect.SocketHandleIncoming socket message]
        (SocketHandleIncoming socket message) := by
    rw [dispatch_other _ _ _ _ _ ha hc, if_pos hk, hf]
  unfold HandleIncoming
  rw [hd, reenter_effects]
  simp only [(ReadHeader_frame _ _ _).1]
  rfl

/-- The chunks `Queue` pushes for a message, written out: the header of six words, then,
for a non-empty body, the body chunk and, when the test on `zero_mask_` succeeds, the
zero-length chunk. -/
theorem pushes_explicit (zero_mask_ : Int) (message : AdbMessage) :
    Queue.pushes zero_mask_ message
      = (uint32Bytes message.command ++ uint32Bytes message.arg0 ++ uint32Bytes message.arg1
          ++ uint32Bytes (toUint32 (Queue.body_length message))
          ++ uint32Bytes (Checksum message.body)
          ++ uint32Bytes (toUint32 (message.command.val ^^^ 0xffffffff)), 24)
        :: (if message.body = [] then []
            else (Queue.body_buffer message, Queue.body_length message)
              :: (if zero_mask_ ≠ 0 ∧ Int.land (Queue.body_length message) zero_mask_ = 0
                  then [(Queue.body_buffer message, 0)] else [])) := by
  have hh : Queue.header_buffer message
      = uint32Bytes message.command ++ uint32Bytes message.arg0 ++ uint32Bytes message.arg1
          ++ uint32Bytes (toUint32 (Queue.body_length message))
          ++ uint32Bytes (Checksum message.body)
          ++ uint32Bytes (toUint32 (message.command.val ^^^ 0xffffffff)) := by
    simp [Queue.header_buffer, Queue.header, vectorBytes, kHeaderSize, uint32Bytes]
  by_cases hb : message.body = []
  · rw [pushes_of_empty _ _ hb, if_pos hb, hh]
  · rw [pushes_of_nonempty _ _ hb, if_neg hb, hh]

/-- The chunks of a list of messages, written out message by message. -/
theorem chunksOf_explicit (zero_mask_ : Int) (messages : List AdbMessage) :
    chunksOf zero_mask_ messages
      = messages.flatMap (fun m =>
          (uint32Bytes m.command ++ uint32Bytes m.arg0 ++ uint32Bytes m.arg1
            ++ uint32Bytes (toUint32 (Queue.body_length m))
            ++ uint32Bytes (Checksum m.body)
            ++ uint32Bytes (toUint32 (m.command.val ^^^ 0xffffffff)), 24)
          :: (if m.body = [] then []
              else (Queue.body_buffer m, Queue.body_length m)
                :: (if zero_mask_ ≠ 0 ∧ Int.land (Queue.body_length m) zero_mask_ = 0
                    then [(Queue.body_buffer m, 0)] else []))) := by
  induction messages with
  | nil => rfl
  | cons m messages ih => rw [chunksOf, ih, pushes_explicit, List.flatMap_cons]

/-- The chunks of an AUTH message that carries a signature. -/
theorem pushes_signature (zero_mask_ : Int) (signature : List Byte) (h : signature ≠ []) :
    Queue.pushes zero_mask_ ⟨kCommandAUTH, kAuthSignature, 0, signature⟩
      = (uint32Bytes kCommandAUTH ++ uint32Bytes kAuthSignature ++ uint32Bytes 0
          ++ uint32Bytes (toUint32 signature.length) ++ uint32Bytes (Checksum signature)
          ++ uint32Bytes (toUint32 (kCommandAUTH.val ^^^ 0xffffffff)), 24)
        :: (signature, signature.length)
        :: (if zero_mask_ ≠ 0 ∧ Int.land signature.length zero_mask_ = 0
            then [(signature, 0)] else []) := by
  have ha : Queue.append_zero ⟨kCommandAUTH, kAuthSignature, 0, signature⟩ = false := by
    simp [Queue.append_zero]
  have hl : Queue.body_length ⟨kCommandAUTH, kAuthSignature, 0, signature⟩
      = signature.length := by
    simp [Queue.body_length, ha]
  have hb : Queue.body_buffer ⟨kCommandAUTH, kAuthSignature, 0, signature⟩ = signature := by
    simp [Queue.body_buffer, ha]
  rw [pushes_explicit, hl, hb]
  simp only
  rw [if_neg h]

/-- The chunks of an AUTH message that carries the public key. -/
theorem pushes_public_key (zero_mask_ : Int) (key : List Byte) :
    Queue.pushes zero_mask_ ⟨kCommandAUTH, kAuthRSAPublicKey, 0, key⟩
      = (uint32Bytes kCommandAUTH ++ uint32Bytes kAuthRSAPublicKey ++ uint32Bytes 0
          ++ uint32Bytes (toUint32 (if key = [] then 0 else key.length + 1))
          ++ uint32Bytes (Checksum key)
          ++ uint32Bytes (toUint32 (kCommandAUTH.val ^^^ 0xffffffff)), 24)
        :: (if key = [] then []
            else (key ++ [0], key.length + 1)
              :: (if zero_mask_ ≠ 0 ∧ Int.land ((key.length + 1 : Nat) : Int) zero_mask_ = 0
                  then [(key ++ [0], 0)] else [])) := by
  by_cases hk : key = []
  · subst hk
    rw [pushes_explicit]
    simp [Queue.body_length, Queue.append_zero]
  · have hne : ¬ (kCommandAUTH = kCommandAUTH ∧ kAuthRSAPublicKey = kAuthSignature) := by
      decide
    have hw : ¬ kCommandAUTH = kCommandWRTE := by decide
    have he : key.isEmpty = false := isEmpty_eq_false hk
    have hs : ¬ kAuthRSAPublicKey = kAuthSignature := by decide
    have ha : Queue.append_zero ⟨kCommandAUTH, kAuthRSAPublicKey, 0, key⟩ = true := by
      simp [Queue.append_zero, he, hne, hw, hs]
    have hl : Queue.body_length ⟨kCommandAUTH, kAuthRSAPublicKey, 0, key⟩
        = key.length + 1 := by
      simp [Queue.body_length, ha]
    have hb : Queue.body_buffer ⟨kCommandAUTH, kAuthRSAPublicKey, 0, key⟩ = key ++ [0] := by
      simp [Queue.body_buffer, ha]
    rw [pushes_explicit, hl, hb]
    simp only [if_neg hk]

/-! ### Disposal and termination -/

theorem find_erase_self (sockets : AndroidUsbSockets) (key : uint32) :
    AndroidUsbSockets.find (AndroidUsbSockets.erase sockets key) key = none := by
  induction sockets with
  | nil => rfl
  | cons e rest ih =>
    obtain ⟨k, v⟩ := e
    unfold AndroidUsbSockets.erase
    split
    · exact ih
    · rename_i h
      simp [AndroidUsbSockets.find, h, ih]

theorem find_erase_other (sockets : AndroidUsbSockets) (key other : uint32)
    (h : other ≠ key) :
    AndroidUsbSockets.find (AndroidUsbSockets.erase sockets key) other
      = AndroidUsbSockets.find sockets other := by
  induction sockets with
  | nil => rfl
  | cons e rest ih =>
    obtain ⟨k, v⟩ := e
    unfold AndroidUsbSockets.erase
    split
    · rename_i hk
      have : ¬ k = other := fun e => h (e.symm.trans hk)
      simp [AndroidUsbSockets.find, this, ih]
    · simp [AndroidUsbSockets.find, ih]

theorem erase_of_find_none (sockets : AndroidUsbSockets) (key : uint32)
    (h : AndroidUsbSockets.find sockets key = none) :
    AndroidUsbSockets.erase sockets key = sockets := by
  induction sockets with
  | nil => rfl
  | cons e rest ih =>
    obtain ⟨k, v⟩ := e
    unfold AndroidUsbSockets.find at h
    split at h
    · cases h
    · rename_i hk
      simp [AndroidUsbSockets.erase, hk, ih h]

/-- The disposal callbacks change nothing but the stream table. -/
theorem SocketDeletedAll_frame (ids : List uint32) (d : AndroidUsbDevice) :
    ∃ sockets, SocketDeletedAll d ids = { d with sockets_ := sockets } := by
  induction ids generalizing d with
  | nil => exact ⟨d.sockets_, rfl⟩
  | cons socket_id ids ih =>
    obtain ⟨sockets, h⟩ := ih (SocketDeleted d socket_id).1
    exact ⟨sockets, by rw [SocketDeletedAll, h]; rfl⟩

/-- The notification loop of `Terminate`: one notification for each entry of the copy,
in the order of the copy, whatever is disposed of on the way; only the stream table of
the device can change. -/
theorem notify_spec (Terminated : AndroidUsbSocket → List uint32)
    (sockets : AndroidUsbSockets) (d : AndroidUsbDevice) (effects : List Effect) :
    (Terminate.notify Terminated d effects sockets).2
      = effects ++ sockets.map (fun entry => Effect.SocketTerminated entry.2)
    ∧ ∃ table, (Terminate.notify Terminated d effects sockets).1
        = { d with sockets_ := table } := by
  induction sockets generalizing d effects with
  | nil => exact ⟨by simp [Terminate.notify], d.sockets_, rfl⟩
  | cons entry sockets ih =>
    obtain ⟨k, socket⟩ := entry
    obtain ⟨h1, table, h2⟩ := ih (SocketDeletedAll d (Terminated socket))
      (effects ++ [Effect.SocketTerminated socket])
    obtain ⟨t0, h0⟩ := SocketDeletedAll_frame (Terminated socket) d
    refine ⟨by rw [Terminate.notify, h1]; simp, table, ?_⟩
    rw [Terminate.notify, h2, h0]

/-- `Terminate` on a link that is already terminated. -/
theorem Terminate_of_terminated (d : AndroidUsbDevice)
    (Terminated : AndroidUsbSocket → List uint32) (h : d.terminated_ = true) :
    Terminate d Terminated = (d, []) := by
  simp [Terminate, h]

/-- `Terminate` on a link that is not terminated yet. -/
theorem Terminate_of_live (d : AndroidUsbDevice)
    (Terminated : AndroidUsbSocket → List uint32) (h : d.terminated_ = false) :
    (Terminate d Terminated).2
      = d.sockets_.map (fun entry => Effect.SocketTerminated entry.2)
        ++ [Effect.ReleaseInterface 1, Effect.Close]
    ∧ ∃ table, (Terminate d Terminated).1
        = { d with terminated_ := true, sockets_ := table } := by
  obtain ⟨h1, table, h2⟩ := notify_spec Terminated d.sockets_ { d with terminated_ := true } []
  simp only [Terminate, h]
  refine ⟨by simp [h1], table, ?_⟩
  simp [h2]

theorem Terminate_terminated (d : AndroidUsbDevice)
    (Terminated : AndroidUsbSocket → List uint32) :
    (Terminate d Terminated).1.terminated_ = true := by
  cases h : d.terminated_ with
  | true => rw [Terminate_of_terminated d Terminated h]; exact h
  | false =>
    obtain ⟨_, table, h2⟩ := Terminate_of_live d Terminated h
    rw [h2]

/-- On a terminated link `ProcessOutgoing` does nothing. -/
theorem ProcessOutgoing_of_terminated (d : AndroidUsbDevice) (h : d.terminated_ = true) :
    ProcessOutgoing d = (d, []) := by
  simp [ProcessOutgoing, h]

/-- On a terminated link `Queue` only appends the chunks of the message. -/
theorem Queue_of_terminated (d : AndroidUsbDevice) (message : AdbMessage)
    (h : d.terminated_ = true) :
    Queue d message
      = ({ d with outgoing_queue_ := d.outgoing_queue_ ++ Queue.pushes d.zero_mask_ message },
         []) := by
  unfold Queue
  exact ProcessOutgoing_of_terminated _ h

theorem ParseHeader_timeout (buffer : IOBuffer) (result : Nat) :
    ParseHeader USB_TRANSFER_TIMEOUT buffer result = [Task.ReadHeader false] := by
  simp [ParseHeader]

theorem ParseBody_timeout (message : AdbMessage) (data_length data_check : uint32)
    (buffer : IOBuffer) (result : Nat) :
    ParseBody message data_length data_check USB_TRANSFER_TIMEOUT buffer result
      = [Task.ReadBody message data_length data_check] := by
  simp [ParseBody]

/-- On a link that is not terminated `Queue` hands exactly one chunk to the transport. -/
theorem Queue_issues_one (d : AndroidUsbDevice) (message : AdbMessage)
    (h : d.terminated_ = false) :
    ∃ buffer length, (Queue d message).2 = [Effect.BulkTransferOutbound buffer length] := by
  have hne : d.outgoing_queue_ ++ Queue.pushes d.zero_mask_ message ≠ [] := by
    by_cases hb : message.body = []
    · rw [pushes_of_empty _ _ hb]; simp
    · rw [pushes_of_nonempty _ _ hb]; simp
  unfold Queue
  rcases ProcessOutgoing_cases
    { d with outgoing_queue_ := d.outgoing_queue_ ++ Queue.pushes d.zero_mask_ message } with
    ⟨_, hq | ht⟩ | ⟨m, rest, _, _, hp⟩
  · exact absurd hq hne
  · rw [h] at ht; cases ht
  · exact ⟨m.1, m.2, by rw [hp]⟩

theorem ProcessOutgoing_issues_le_one (d : AndroidUsbDevice) :
    (transferred (ProcessOutgoing d).2).length ≤ 1 := by
  rcases ProcessOutgoing_cases d with ⟨h, _⟩ | ⟨m, rest, _, _, h⟩
  · rw [h]; simp [transferred]
  · rw [h]; simp [transferred]

theorem posted_OutgoingMessageSent (status : UsbTransferStatus) :
    postedProcessOutgoing (OutgoingMessageSent status [] 0)
      = if status = USB_TRANSFER_COMPLETED then 1 else 0 := by
  cases status <;> rfl

/-- Along `ProcessOutgoing` tasks and completion callbacks alone the number of writes in
flight plus the number of posted tasks never exceeds one. -/
theorem run_chain (AndroidRSASign : List Byte → List Byte) (AndroidRSAPublicKey : List Byte)
    (calls : List LinkCall) (l l' : Link)
    (hc : ∀ call ∈ calls, call = LinkCall.ProcessOutgoing
      ∨ ∃ status, call = LinkCall.OutgoingMessageSent status)
    (h : l.outstanding + l.posted ≤ 1)
    (hr : Link.run AndroidRSASign AndroidRSAPublicKey l calls = some l') :
    l'.outstanding + l'.posted ≤ 1 := by
  induction calls generalizing l with
  | nil =>
    simp [Link.run] at hr
    subst hr
    exact h
  | cons call calls ih =>
    have hrest : ∀ c ∈ calls, c = LinkCall.ProcessOutgoing
        ∨ ∃ status, c = LinkCall.OutgoingMessageSent status :=
      fun c hcm => hc c (List.mem_cons_of_mem _ hcm)
    rcases hc call (List.mem_cons_self _ _) with hcall | ⟨status, hcall⟩
    · subst hcall
      by_cases hp : l.posted = 0
      · simp [Link.run, Link.step, hp] at hr
      · simp only [Link.run, Link.step, hp, if_false] at hr
        refine ih _ hrest ?_ hr
        have := ProcessOutgoing_issues_le_one l.device
        simp only
        omega
    · subst hcall
      by_cases ho : l.outstanding = 0
      · simp [Link.run, Link.step, ho] at hr
      · simp only [Link.run, Link.step, ho, if_false] at hr
        refine ih _ hrest ?_ hr
        have := posted_OutgoingMessageSent status
        simp only
        split at this <;> omega

/-- The chunks of a message with a body when `zero_mask_` is `2^j - 1`, `j ≥ 1`. -/
theorem pushes_of_mask (j : Nat) (hj : 1 ≤ j) (message : AdbMessage)
    (hb : message.body ≠ []) :
    Queue.pushes (((2 ^ j - 1 : Nat)) : Int) message
      = (Queue.header_buffer message, 24)
        :: (Queue.body_buffer message, Queue.body_length message)
        :: (if Queue.body_length message % 2 ^ j = 0
            then [(Queue.body_buffer message, 0)] else []) := by
  have hp := two_le_two_pow j hj
  have hmask : (((2 ^ j - 1 : Nat)) : Int) ≠ 0 := by
    intro h0
    have : (2 ^ j - 1 : Nat) = 0 := by exact_mod_cast h0
    omega
  rw [pushes_of_nonempty _ _ hb, land_two_pow_sub_one]
  by_cases hm : Queue.body_length message % 2 ^ j = 0
  · rw [if_pos hm, if_pos ⟨hmask, by rw [hm]; rfl⟩]
  · rw [if_neg hm, if_neg]
    rintro ⟨_, h⟩
    exact hm (by exact_mod_cast h)

theorem body_length_pos (message : AdbMessage) (hb : message.body ≠ []) :
    0 < Queue.body_length message := by
  have : 0 < message.body.length := List.length_pos.mpr hb
  unfold Queue.body_length
  omega

/-! ### Sequences of calls -/

theorem erase_eq_filter (sockets : AndroidUsbSockets) (key : uint32) :
    AndroidUsbSockets.erase sockets key = sockets.filter (fun entry => decide (entry.1 ≠ key)) := by
  induction sockets with
  | nil => rfl
  | cons e rest ih =>
    obtain ⟨k, v⟩ := e
    by_cases h : k = key
    · simp [AndroidUsbSockets.erase, h, ih]
    · simp [AndroidUsbSockets.erase, h, ih]

/-- The disposal callbacks for a list of ids remove the entries with these ids. -/
theorem SocketDeletedAll_eq (ids : List uint32) (d : AndroidUsbDevice) :
    SocketDeletedAll d ids
      = { d with sockets_ := d.sockets_.filter (fun entry => decide (entry.1 ∉ ids)) } := by
  induction ids generalizing d with
  | nil => simp [SocketDeletedAll]
  | cons socket_id ids ih =>
    rw [SocketDeletedAll, ih]
    simp only [SocketDeleted, erase_eq_filter, List.filter_filter]
    congr 1
    apply List.filter_congr
    intro entry _
    simp [Bool.and_comm]

/-- The stream table after the notification loop of `Terminate`. -/
theorem notify_eq (Terminated : AndroidUsbSocket → List uint32)
    (sockets : AndroidUsbSockets) (d : AndroidUsbDevice) (effects : List Effect) :
    (Terminate.notify Terminated d effects sockets).1
      = { d with
          sockets_ := List.filter
            (fun entry => decide (entry.1 ∉ Terminate.disposed Terminated sockets)) d.sockets_ } := by
  induction sockets generalizing d effects with
  | nil => simp [Terminate.notify, Terminate.disposed]
  | cons e sockets ih =>
    obtain ⟨k, socket⟩ := e
    rw [Terminate.notify, ih, SocketDeletedAll_eq]
    simp only [Terminate.disposed, List.filter_filter]
    congr 1
    apply List.filter_congr
    intro entry _
    simp [Bool.and_comm, not_or]

/-- The device after `Terminate` on a link that is not terminated yet. -/
theorem Terminate_live_eq (d : AndroidUsbDevice)
    (Terminated : AndroidUsbSocket → List uint32) (h : d.terminated_ = false) :
    (Terminate d Terminated).1
      = { d with
          terminated_ := true,
          sockets_ := List.filter
            (fun entry => decide (entry.1 ∉ Terminate.disposed Terminated d.sockets_))
            d.sockets_ } := by
  simp only [Terminate, h]
  simp [notify_eq]

/-- The device after `Terminate`: terminated, with some entries of the table removed. -/
theorem Terminate_shape (d : AndroidUsbDevice) (Terminated : AndroidUsbSocket → List uint32) :
    ∃ p : uint32 × AndroidUsbSocket → Bool,
      (Terminate d Terminated).1 = { d with terminated_ := true, sockets_ := d.sockets_.filter p } := by
  rcases Bool.eq_false_or_eq_true d.terminated_ with h | h
  · refine ⟨fun _ => true, ?_⟩
    rw [Terminate_of_terminated d Terminated h]
    cases d
    simp at h ⊢
    exact h
  · exact ⟨_, Terminate_live_eq d Terminated h⟩

/-- The device after `Send`: only the two queues can change, and the pending queue only
when the link is not connected. -/
theorem Send_shape (d : AndroidUsbDevice) (command arg0 arg1 : uint32) (body : List Byte) :
    ∃ pending queue, (Send d command arg0 arg1 body).1
        = { d with pending_messages_ := pending, outgoing_queue_ := queue }
      ∧ (d.is_connected_ = true → pending = d.pending_messages_) := by
  rcases Bool.eq_false_or_eq_true d.is_connected_ with hc | hc
  · obtain ⟨q, hq⟩ := (Queue_frame d ⟨command, arg0, arg1, body⟩).1
    refine ⟨d.pending_messages_, q, ?_, fun _ => rfl⟩
    have hs : Send d command arg0 arg1 body = Queue d ⟨command, arg0, arg1, body⟩ := by
      simp [Send, hc]
    rw [hs, hq]
  · refine ⟨d.pending_messages_ ++ [⟨command, arg0, arg1, body⟩], d.outgoing_queue_, ?_, ?_⟩
    · simp [Send, hc]
    · intro h
      rw [hc] at h
      cases h

theorem bulkTransfers_append (a b : List Effect) :
    bulkTransfers (a ++ b) = bulkTransfers a ++ bulkTransfers b := by
  induction a with
  | nil => rfl
  | cons e a ih => cases e <;> simp [bulkTransfers, ih]

theorem headerReads_append (a b : List Effect) :
    headerReads (a ++ b) = headerReads a ++ headerReads b := by
  induction a with
  | nil => rfl
  | cons e a ih => cases e <;> simp [headerReads, ih]

/-- On a terminated link the loop over the pending messages makes no call. -/
theorem QueueAll_of_terminated (pending : List AdbMessage) (d : AndroidUsbDevice)
    (effects : List Effect) (h : d.terminated_ = true) :
    (QueueAll d effects pending).2 = effects := by
  induction pending generalizing d effects with
  | nil => rfl
  | cons m pending ih =>
    rw [QueueAll, Queue_of_terminated d m h]
    simp only [List.append_nil]
    exact ih _ effects h

/-- On a terminated link `ReadHeader` starts no read. -/
theorem ReadHeader_of_terminated (d : AndroidUsbDevice) (initial HasOneRef : Bool)
    (h : d.terminated_ = true) : ReadHeader d initial HasOneRef = (d, []) := by
  simp [ReadHeader, h]

/-- On a terminated link `Send` makes no call. -/
theorem Send_of_terminated (d : AndroidUsbDevice) (command arg0 arg1 : uint32)
    (body : List Byte) (h : d.terminated_ = true) :
    (Send d command arg0 arg1 body).2 = [] := by
  rcases Bool.eq_false_or_eq_true d.is_connected_ with hc | hc
  · have hs : Send d command arg0 arg1 body = Queue d ⟨command, arg0, arg1, body⟩ := by
      simp [Send, hc]
    rw [hs, Queue_of_terminated d _ h]
  · simp [Send, hc]

theorem assign_of_lt (sockets : AndroidUsbSockets) (key : uint32) (value : AndroidUsbSocket)
    (h : ∀ entry ∈ sockets, entry.1 < key) :
    AndroidUsbSockets.assign sockets key value = sockets ++ [(key, value)] := by
  induction sockets with
  | nil => rfl
  | cons e rest ih =>
    obtain ⟨k, v⟩ := e
    have hk : k < key := h (k, v) (List.mem_cons_self _ _)
    have h1 : ¬ key < k := by
      intro hlt
      exact absurd (lt_trans hk hlt) (lt_irrefl _)
    have h2 : ¬ key = k := fun he => absurd (he ▸ hk) (lt_irrefl _)
    rw [AndroidUsbSockets.assign, if_neg h1, if_neg h2,
      ih (fun entry hm => h entry (List.mem_cons_of_mem _ hm))]
    rfl

theorem find_none_of_lt (sockets : AndroidUsbSockets) (key : uint32)
    (h : ∀ entry ∈ sockets, entry.1 < key) :
    AndroidUsbSockets.find sockets key = none := by
  induction sockets with
  | nil => rfl
  | cons e rest ih =>
    obtain ⟨k, v⟩ := e
    have hk : k < key := h (k, v) (List.mem_cons_self _ _)
    have h2 : ¬ k = key := fun he => absurd (he ▸ hk) (lt_irrefl _)
    rw [AndroidUsbSockets.find, if_neg h2,
      ih (fun entry hm => h entry (List.mem_cons_of_mem _ hm))]

/-- `CreateSocket` when the counter does not wrap around and bounds the keys of the
table: the new stream gets the next id and is entered after all other entries. -/
theorem CreateSocket_of_bound (d : AndroidUsbDevice) (command : List Byte)
    (hwrap : d.last_socket_id_.val + 1 < 4294967296)
    (hkeys : ∀ entry ∈ d.sockets_, entry.1.val ≤ d.last_socket_id_.val) :
    (toUint32 (d.last_socket_id_.val + 1)).val = d.last_socket_id_.val + 1
    ∧ AndroidUsbSockets.find d.sockets_ (toUint32 (d.last_socket_id_.val + 1)) = none
    ∧ CreateSocket d command
      = ({ d with
           last_socket_id_ := toUint32 (d.last_socket_id_.val + 1),
           sockets_ := d.sockets_ ++ [(toUint32 (d.last_socket_id_.val + 1),
             ⟨toUint32 (d.last_socket_id_.val + 1), command⟩)] },
         ⟨toUint32 (d.last_socket_id_.val + 1), command⟩) := by
  have hv := toUint32_of_lt hwrap
  have hlt : ∀ entry ∈ d.sockets_, entry.1 < toUint32 (d.last_socket_id_.val + 1) := by
    intro entry hm
    have := hkeys entry hm
    rw [Fin.lt_def, hv]
    omega
  refine ⟨hv, find_none_of_lt _ _ hlt, ?_⟩
  simp only [CreateSocket]
  rw [assign_of_lt _ _ _ hlt]

theorem created_append (a b : List Effect) : created (a ++ b) = created a + created b := by
  induction a with
  | nil => simp [created]
  | cons e a ih =>
    cases e <;> simp [created, ih]
    omega

theorem created_ProcessOutgoing (d : AndroidUsbDevice) : created (ProcessOutgoing d).2 = 0 := by
  rcases ProcessOutgoing_cases d with ⟨h, _⟩ | ⟨m, rest, _, _, h⟩
  · rw [h]; rfl
  · rw [h]; rfl

theorem created_Queue (d : AndroidUsbDevice) (message : AdbMessage) :
    created (Queue d message).2 = 0 := by
  unfold Queue
  exact created_ProcessOutgoing _

theorem created_QueueAll (pending : List AdbMessage) (d : AndroidUsbDevice)
    (effects : List Effect) :
    created (QueueAll d effects pending).2 = created effects := by
  induction pending generalizing d effects with
  | nil => rfl
  | cons m pending ih => rw [QueueAll, ih, created_append, created_Queue, Nat.add_zero]

theorem created_Send (d : AndroidUsbDevice) (command arg0 arg1 : uint32) (body : List Byte) :
    created (Send d command arg0 arg1 body).2 = 0 := by
  unfold Send
  split
  · rfl
  · exact created_Queue _ _

theorem created_ReadHeader (d : AndroidUsbDevice) (initial HasOneRef : Bool) :
    created (ReadHeader d initial HasOneRef).2 = 0 := by
  unfold ReadHeader
  split
  · rfl
  · split <;> rfl

theorem created_Terminate (d : AndroidUsbDevice) (Terminated : AndroidUsbSocket → List uint32) :
    created (Terminate d Terminated).2 = 0 := by
  rcases Bool.eq_false_or_eq_true d.terminated_ with h | h
  · rw [Terminate_of_terminated d Terminated h]; rfl
  · rw [(Terminate_of_live d Terminated h).1, created_append]
    have hm : ∀ sockets : AndroidUsbSockets,
        created (sockets.map (fun entry => Effect.SocketTerminated entry.2)) = 0 := by
      intro sockets
      induction sockets with
      | nil => rfl
      | cons e rest ih => simpa [created] using ih
    rw [hm]
    rfl

/-- The calls a stream makes back on the device leave the flags and `zero_mask_` as
they are. -/
theorem reenter_shape (calls : List Reentry) (d : AndroidUsbDevice) (effects : List Effect) :
    ∃ pending queue last sockets, (reenter d effects calls).1
      = { d with
          pending_messages_ := pending, outgoing_queue_ := queue,
          last_socket_id_ := last, sockets_ := sockets } := by
  induction calls generalizing d effects with
  | nil => exact ⟨_, _, _, _, rfl⟩
  | cons call calls ih =>
    cases call with
    | Send command arg0 arg1 body =>
      obtain ⟨p1, q1, h1, _⟩ := Send_shape d command arg0 arg1 body
      obtain ⟨p, q, l, t, h⟩ := ih (Send d command arg0 arg1 body).1
        (effects ++ (Send d command arg0 arg1 body).2)
      exact ⟨p, q, l, t, by rw [reenter, h, h1]⟩
    | CreateSocket command =>
      obtain ⟨p, q, l, t, h⟩ := ih (CreateSocket d command).1
        (effects ++ [Effect.NewAndroidUsbSocket (CreateSocket d command).2])
      exact ⟨p, q, l, t, by rw [reenter, h]; rfl⟩
    | SocketDeleted socket_id =>
      obtain ⟨p, q, l, t, h⟩ := ih (SocketDeleted d socket_id).1
        (effects ++ (SocketDeleted d socket_id).2)
      exact ⟨p, q, l, t, by rw [reenter, h]; rfl⟩

/-- The calls a stream makes back on the device keep the pending queue of a connected
link empty. -/
theorem reenter_pending (calls : List Reentry) (d : AndroidUsbDevice) (effects : List Effect)
    (hinv : d.is_connected_ = true → d.pending_messages_ = []) :
    (reenter d effects calls).1.is_connected_ = true
      → (reenter d effects calls).1.pending_messages_ = [] := by
  induction calls generalizing d effects with
  | nil => exact hinv
  | cons call calls ih =>
    cases call with
    | Send command arg0 arg1 body =>
      obtain ⟨p1, q1, h1, hp⟩ := Send_shape d command arg0 arg1 body
      rw [reenter]
      refine ih _ _ ?_
      rw [h1]
      intro hc
      exact (hp hc).trans (hinv hc)
    | CreateSocket command =>
      rw [reenter]
      exact ih _ _ hinv
    | SocketDeleted socket_id =>
      rw [reenter]
      exact ih _ _ hinv

/-- The calls a stream makes back on the device call no stream handler and start no
header read. -/
theorem reenter_traces (calls : List Reentry) (d : AndroidUsbDevice) (effects : List Effect) :
    forwarded (reenter d effects calls).2 = forwarded effects
    ∧ headerReads (reenter d effects calls).2 = headerReads effects := by
  induction calls generalizing d effects with
  | nil => exact ⟨rfl, rfl⟩
  | cons call calls ih =>
    cases call with
    | Send command arg0 arg1 body =>
      obtain ⟨i1, i2⟩ := ih (Send d command arg0 arg1 body).1
        (effects ++ (Send d command arg0 arg1 body).2)
      have hf : forwarded (Send d command arg0 arg1 body).2 = [] := by
        unfold Send
        split
        · rfl
        · exact (Queue_frame _ _).2.2
      have hh : headerReads (Send d command arg0 arg1 body).2 = [] := by
        unfold Send
        split
        · rfl
        · unfold Queue
          rcases ProcessOutgoing_cases
            { d with outgoing_queue_ := d.outgoing_queue_
                ++ Queue.pushes d.zero_mask_ ⟨command, arg0, arg1, body⟩ } with
            ⟨h, _⟩ | ⟨m, rest, _, _, h⟩
          · rw [h]; rfl
          · rw [h]; rfl
      rw [reenter, i1, i2, forwarded_append, headerReads_append, hf, hh]
      simp
    | CreateSocket command =>
      obtain ⟨i1, i2⟩ := ih (CreateSocket d command).1
        (effects ++ [Effect.NewAndroidUsbSocket (CreateSocket d command).2])
      rw [reenter, i1, i2, forwarded_append, headerReads_append]
      simp [forwarded, headerReads]
    | SocketDeleted socket_id =>
      obtain ⟨i1, i2⟩ := ih (SocketDeleted d socket_id).1
        (effects ++ (SocketDeleted d socket_id).2)
      rw [reenter, i1, i2, forwarded_append, headerReads_append]
      simp [SocketDeleted, forwarded, headerReads]

/-- On a terminated link the calls a stream makes back on the device start no bulk
transfer. -/
theorem reenter_of_terminated (calls : List Reentry) (d : AndroidUsbDevice)
    (effects : List Effect) (h : d.terminated_ = true) :
    bulkTransfers (reenter d effects calls).2 = bulkTransfers effects := by
  induction calls generalizing d effects with
  | nil => rfl
  | cons call calls ih =>
    cases call with
    | Send command arg0 arg1 body =>
      obtain ⟨p1, q1, h1, _⟩ := Send_shape d command arg0 arg1 body
      rw [reenter, ih _ _ (by rw [h1]; exact h), bulkTransfers_append,
        Send_of_terminated d _ _ _ _ h]
      simp [bulkTransfers]
    | CreateSocket command =>
      rw [reenter, ih (CreateSocket d command).1 _ h, bulkTransfers_append]
      simp [bulkTransfers]
    | SocketDeleted socket_id =>
      rw [reenter, ih (SocketDeleted d socket_id).1 _ h, bulkTransfers_append]
      simp [SocketDeleted, bulkTransfers]

/-- One step that creates `n` streams (none, or one by `CreateSocket`) keeps the keys of
the stream table above 256, at most the id counter, equal to the id of their stream and
in increasing order, as long as the counter does not wrap around. -/
theorem table_step (d next : AndroidUsbDevice) (n : Nat)
    (hstep : (n = 0 ∧ next.last_socket_id_ = d.last_socket_id_
        ∧ ∃ p : uint32 × AndroidUsbSocket → Bool, next.sockets_ = d.sockets_.filter p)
      ∨ (n = 1 ∧ ∃ command, next.last_socket_id_ = (CreateSocket d command).1.last_socket_id_
        ∧ next.sockets_ = (CreateSocket d command).1.sockets_))
    (hkeys : ∀ entry ∈ d.sockets_, 256 < entry.1.val ∧ entry.1.val ≤ d.last_socket_id_.val
      ∧ entry.2.socket_id = entry.1)
    (hsorted : d.sockets_.Pairwise (fun a b => a.1 < b.1))
    (h256 : 256 ≤ d.last_socket_id_.val)
    (hwrap : d.last_socket_id_.val + n < 4294967296) :
    next.last_socket_id_.val = d.last_socket_id_.val + n
    ∧ (∀ entry ∈ next.sockets_, 256 < entry.1.val ∧ entry.1.val ≤ next.last_socket_id_.val
        ∧ entry.2.socket_id = entry.1)
    ∧ next.sockets_.Pairwise (fun a b => a.1 < b.1) := by
  rcases hstep with ⟨hn, hl, p, hp⟩ | ⟨hn, command, hl, hs⟩
  · subst hn
    rw [hl, hp]
    refine ⟨rfl, ?_, hsorted.filter p⟩
    intro entry hm
    exact hkeys entry (List.mem_filter.mp hm).1
  · subst hn
    obtain ⟨hv, _, hcs⟩ := CreateSocket_of_bound d command hwrap (fun e hm => (hkeys e hm).2.1)
    rw [hl, hs, hcs]
    refine ⟨hv, ?_, ?_⟩
    · intro entry hm
      simp only [List.mem_append, List.mem_singleton] at hm
      rcases hm with hm | hm
      · obtain ⟨a, b, c⟩ := hkeys entry hm
        refine ⟨a, ?_, c⟩
        simp only [hv]
        omega
      · subst hm
        exact ⟨by rw [hv]; omega, le_refl _, rfl⟩
    · simp only
      rw [List.pairwise_append]
      refine ⟨hsorted, List.pairwise_singleton _ _, ?_⟩
      intro a ha b hb
      simp only [List.mem_singleton] at hb
      subst hb
      have := (hkeys a ha).2.1
      rw [Fin.lt_def, hv]
      omega

/-- The calls a stream makes back on the device keep the stream table well formed, as
long as the counter does not wrap around; the counter moves by the number of streams
constructed. -/
theorem reenter_table_inv (calls : List Reentry) (d : AndroidUsbDevice)
    (hkeys : ∀ entry ∈ d.sockets_, 256 < entry.1.val ∧ entry.1.val ≤ d.last_socket_id_.val
      ∧ entry.2.socket_id = entry.1)
    (hsorted : d.sockets_.Pairwise (fun a b => a.1 < b.1))
    (h256 : 256 ≤ d.last_socket_id_.val)
    (hwrap : d.last_socket_id_.val + created (reenter d [] calls).2 < 4294967296) :
    (reenter d [] calls).1.last_socket_id_.val
      = d.last_socket_id_.val + created (reenter d [] calls).2
    ∧ (∀ entry ∈ (reenter d [] calls).1.sockets_,
        256 < entry.1.val ∧ entry.1.val ≤ (reenter d [] calls).1.last_socket_id_.val
        ∧ entry.2.socket_id = entry.1)
    ∧ (reenter d [] calls).1.sockets_.Pairwise (fun a b => a.1 < b.1) := by
  induction calls generalizing d with
  | nil => exact ⟨rfl, hkeys, hsorted⟩
  | cons call calls ih =>
    rw [reenter_cons] at hwrap ⊢
    simp only at hwrap ⊢
    rw [created_append] at hwrap ⊢
    have hstep : ((created (reenter d [] [call]).2 = 0
          ∧ (reenter d [] [call]).1.last_socket_id_ = d.last_socket_id_
          ∧ ∃ p : uint32 × AndroidUsbSocket → Bool,
              (reenter d [] [call]).1.sockets_ = d.sockets_.filter p)
        ∨ (created (reenter d [] [call]).2 = 1
          ∧ ∃ command, (reenter d [] [call]).1.last_socket_id_
              = (CreateSocket d command).1.last_socket_id_
            ∧ (reenter d [] [call]).1.sockets_ = (CreateSocket d command).1.sockets_)) := by
      cases call with
      | Send command arg0 arg1 body =>
        obtain ⟨p1, q1, h1, _⟩ := Send_shape d command arg0 arg1 body
        left
        simp only [reenter, List.nil_append]
        rw [h1]
        exact ⟨created_Send d command arg0 arg1 body, rfl, fun _ => true, by simp⟩
      | CreateSocket command =>
        right
        exact ⟨rfl, command, rfl, rfl⟩
      | SocketDeleted socket_id =>
        left
        exact ⟨rfl, rfl, _, erase_eq_filter d.sockets_ socket_id⟩
    obtain ⟨s1, s2, s3⟩ := table_step d (reenter d [] [call]).1 _ hstep hkeys hsorted h256
      (by omega)
    obtain ⟨i1, i2, i3⟩ := ih (reenter d [] [call]).1 s2 s3 (by omega) (by omega)
    exact ⟨by omega, i2, i3⟩

/-- The device after the `switch` of `HandleIncoming`: CNXN connects the link, AUTH sets
`signature_sent_`, and neither `zero_mask_` nor `terminated_` changes. -/
theorem dispatch_shape (d : AndroidUsbDevice) (AndroidRSASign : List Byte → List Byte)
    (AndroidRSAPublicKey : List Byte)
    (SocketHandleIncoming : AndroidUsbSocket → AdbMessage → List Reentry)
    (message : AdbMessage) :
    ∃ pending queue last sockets,
      (HandleIncoming.dispatch d AndroidRSASign AndroidRSAPublicKey SocketHandleIncoming
        message).1
      = { d with
          is_connected_ := d.is_connected_ || decide (message.command = kCommandCNXN),
          signature_sent_ := d.signature_sent_ || decide (message.command = kCommandAUTH),
          pending_messages_ := pending, outgoing_queue_ := queue,
          last_socket_id_ := last, sockets_ := sockets } := by
  by_cases ha : message.command = kCommandAUTH
  · have hc : ¬ message.command = kCommandCNXN := by rw [ha]; decide
    rw [dispatch_AUTH _ _ _ _ _ ha]
    rcases Bool.eq_false_or_eq_true d.signature_sent_ with hs | hs
    · obtain ⟨q, hq⟩ := (Queue_frame d ⟨kCommandAUTH, kAuthRSAPublicKey, 0, AndroidRSAPublicKey⟩).1
      refine ⟨d.pending_messages_, q, d.last_socket_id_, d.sockets_, ?_⟩
      rw [if_pos hs, hq]
      cases d
      simp_all
    · rw [if_neg (by simp [hs])]
      split
      · obtain ⟨q, hq⟩ := (Queue_frame { d with signature_sent_ := true }
          ⟨kCommandAUTH, kAuthSignature, 0, AndroidRSASign message.body⟩).1
        refine ⟨d.pending_messages_, q, d.last_socket_id_, d.sockets_, ?_⟩
        rw [hq]
        cases d
        simp_all
      · obtain ⟨q, hq⟩ := (Queue_frame { d with signature_sent_ := true }
          ⟨kCommandAUTH, kAuthRSAPublicKey, 0, AndroidRSAPublicKey⟩).1
        refine ⟨d.pending_messages_, q, d.last_socket_id_, d.sockets_, ?_⟩
        rw [hq]
        cases d
        simp_all
  · by_cases hc : message.command = kCommandCNXN
    · obtain ⟨q, hq⟩ := (QueueAll_frame d.pending_messages_
        { d with is_connected_ := true, pending_messages_ := [] } []).1
      refine ⟨[], q, d.last_socket_id_, d.sockets_, ?_⟩
      rw [dispatch_CNXN _ _ _ _ _ hc, hq]
      cases d
      simp_all
    · have he : ∀ pending queue last sockets,
          ({ d with pending_messages_ := pending, outgoing_queue_ := queue,
                    last_socket_id_ := last, sockets_ := sockets } : AndroidUsbDevice)
          = { d with
              is_connected_ := d.is_connected_ || decide (message.command = kCommandCNXN),
              signature_sent_ := d.signature_sent_ || decide (message.command = kCommandAUTH),
              pending_messages_ := pending, outgoing_queue_ := queue,
              last_socket_id_ := last, sockets_ := sockets } := by
        intro pending queue last sockets
        cases d
        simp_all
      rw [dispatch_other _ _ _ _ _ ha hc]
      split
      · split
        · rename_i socket _
          obtain ⟨p, q, l, t, h⟩ := reenter_shape (SocketHandleIncoming socket message) d
            [Effect.SocketHandleIncoming socket message]
          exact ⟨p, q, l, t, by rw [h]; exact he p q l t⟩
        · exact ⟨_, _, _, _, he d.pending_messages_ d.outgoing_queue_ d.last_socket_id_
            d.sockets_⟩
      · exact ⟨_, _, _, _, he d.pending_messages_ d.outgoing_queue_ d.last_socket_id_
          d.sockets_⟩

/-- The `switch` of `HandleIncoming` keeps the pending queue of a connected link empty. -/
theorem dispatch_pending (d : AndroidUsbDevice) (AndroidRSASign : List Byte → List Byte)
    (AndroidRSAPublicKey : List Byte)
    (SocketHandleIncoming : AndroidUsbSocket → AdbMessage → List Reentry)
    (message : AdbMessage)
    (hinv : d.is_connected_ = true → d.pending_messages_ = []) :
    (HandleIncoming.dispatch d AndroidRSASign AndroidRSAPublicKey SocketHandleIncoming
        message).1.is_connected_ = true
      → (HandleIncoming.dispatch d AndroidRSASign AndroidRSAPublicKey SocketHandleIncoming
        message).1.pending_messages_ = [] := by
  by_cases ha : message.command = kCommandAUTH
  · rw [dispatch_AUTH _ _ _ _ _ ha]
    split
    · obtain ⟨q, hq⟩ := (Queue_frame d ⟨kCommandAUTH, kAuthRSAPublicKey, 0, AndroidRSAPublicKey⟩).1
      rw [hq]
      exact hinv
    · split
      · obtain ⟨q, hq⟩ := (Queue_frame { d with signature_sent_ := true }
          ⟨kCommandAUTH, kAuthSignature, 0, AndroidRSASign message.body⟩).1
        rw [hq]
        exact hinv
      · obtain ⟨q, hq⟩ := (Queue_frame { d with signature_sent_ := true }
          ⟨kCommandAUTH, kAuthRSAPublicKey, 0, AndroidRSAPublicKey⟩).1
        rw [hq]
        exact hinv
  · by_cases hc : message.command = kCommandCNXN
    · obtain ⟨q, hq⟩ := (QueueAll_frame d.pending_messages_
        { d with is_connected_ := true, pending_messages_ := [] } []).1
      rw [dispatch_CNXN _ _ _ _ _ hc, hq]
      exact fun _ => rfl
    · rw [dispatch_other _ _ _ _ _ ha hc]
      split
      · split
        · exact reenter_pending _ d _ hinv
        · exact hinv
      · exact hinv

/-- The `switch` of `HandleIncoming` keeps the stream table well formed, as long as the
counter does not wrap around; the counter moves by the number of streams constructed. -/
theorem dispatch_table_inv (d : AndroidUsbDevice) (AndroidRSASign : List Byte → List Byte)
    (AndroidRSAPublicKey : List Byte)
    (SocketHandleIncoming : AndroidUsbSocket → AdbMessage → List Reentry)
    (message : AdbMessage)
    (hkeys : ∀ entry ∈ d.sockets_, 256 < entry.1.val ∧ entry.1.val ≤ d.last_socket_id_.val
      ∧ entry.2.socket_id = entry.1)
    (hsorted : d.sockets_.Pairwise (fun a b => a.1 < b.1))
    (h256 : 256 ≤ d.last_socket_id_.val)
    (hwrap : d.last_socket_id_.val
      + created (HandleIncoming.dispatch d AndroidRSASign AndroidRSAPublicKey
          SocketHandleIncoming message).2 < 4294967296) :
    (HandleIncoming.dispatch d AndroidRSASign AndroidRSAPublicKey SocketHandleIncoming
        message).1.last_socket_id_.val
      = d.last_socket_id_.val
        + created (HandleIncoming.dispatch d AndroidRSASign AndroidRSAPublicKey
            SocketHandleIncoming message).2
    ∧ (∀ entry ∈ (HandleIncoming.dispatch d AndroidRSASign AndroidRSAPublicKey
          SocketHandleIncoming message).1.sockets_,
        256 < entry.1.val
        ∧ entry.1.val ≤ (HandleIncoming.dispatch d AndroidRSASign AndroidRSAPublicKey
            SocketHandleIncoming message).1.last_socket_id_.val
        ∧ entry.2.socket_id = entry.1)
    ∧ (HandleIncoming.dispatch d AndroidRSASign AndroidRSAPublicKey SocketHandleIncoming
        message).1.sockets_.Pairwise (fun a b => a.1 < b.1) := by
  have hsame : ∀ r : AndroidUsbDevice × List Effect, created r.2 = 0 →
      r.1.last_socket_id_ = d.last_socket_id_ → r.1.sockets_ = d.sockets_ →
      r.1.last_socket_id_.val = d.last_socket_id_.val + created r.2
      ∧ (∀ entry ∈ r.1.sockets_, 256 < entry.1.val ∧ entry.1.val ≤ r.1.last_socket_id_.val
          ∧ entry.2.socket_id = entry.1)
      ∧ r.1.sockets_.Pairwise (fun a b => a.1 < b.1) := by
    intro r h0 hl hs
    rw [h0, hl, hs]
    exact ⟨rfl, hkeys, hsorted⟩
  by_cases ha : message.command = kCommandAUTH
  · rw [dispatch_AUTH _ _ _ _ _ ha]
    split
    · obtain ⟨q, hq⟩ := (Queue_frame d ⟨kCommandAUTH, kAuthRSAPublicKey, 0, AndroidRSAPublicKey⟩).1
      exact hsame _ (created_Queue _ _) (by rw [hq]) (by rw [hq])
    · split
      · obtain ⟨q, hq⟩ := (Queue_frame { d with signature_sent_ := true }
          ⟨kCommandAUTH, kAuthSignature, 0, AndroidRSASign message.body⟩).1
        exact hsame _ (created_Queue _ _) (by rw [hq]) (by rw [hq])
      · obtain ⟨q, hq⟩ := (Queue_frame { d with signature_sent_ := true }
          ⟨kCommandAUTH, kAuthRSAPublicKey, 0, AndroidRSAPublicKey⟩).1
        exact hsame _ (created_Queue _ _) (by rw [hq]) (by rw [hq])
  · by_cases hc : message.command = kCommandCNXN
    · obtain ⟨q, hq⟩ := (QueueAll_frame d.pending_messages_
        { d with is_connected_ := true, pending_messages_ := [] } []).1
      rw [dispatch_CNXN _ _ _ _ _ hc]
      exact hsame _ (by rw [created_QueueAll]; rfl) (by rw [hq]) (by rw [hq])
    · rw [dispatch_other _ _ _ _ _ ha hc] at hwrap ⊢
      by_cases hk : message.command = kCommandOKAY ∨ message.command = kCommandWRTE
          ∨ message.command = kCommandCLSE
      · rw [if_pos hk] at hwrap ⊢
        cases hf : AndroidUsbSockets.find d.sockets_ message.arg1 with
        | none => exact hsame (d, []) rfl rfl rfl
        | some socket =>
          rw [hf] at hwrap
          simp only at hwrap ⊢
          rw [reenter_effects] at hwrap ⊢
          simp only [created_append] at hwrap ⊢
          have h0 : created [Effect.SocketHandleIncoming socket message] = 0 := rfl
          rw [h0, Nat.zero_add] at hwrap ⊢
          exact reenter_table_inv _ d hkeys hsorted h256 hwrap
      · rw [if_neg hk]
        exact hsame (d, []) rfl rfl rfl

/-- On a terminated link the `switch` of `HandleIncoming` starts no bulk transfer. -/
theorem dispatch_of_terminated (d : AndroidUsbDevice) (AndroidRSASign : List Byte → List Byte)
    (AndroidRSAPublicKey : List Byte)
    (SocketHandleIncoming : AndroidUsbSocket → AdbMessage → List Reentry)
    (message : AdbMessage) (h : d.terminated_ = true) :
    bulkTransfers (HandleIncoming.dispatch d AndroidRSASign AndroidRSAPublicKey
      SocketHandleIncoming message).2 = [] := by
  by_cases ha : message.command = kCommandAUTH
  · rw [dispatch_AUTH _ _ _ _ _ ha]
    split
    · rw [Queue_of_terminated d _ h]; rfl
    · split
      · rw [Queue_of_terminated { d with signature_sent_ := true } _ h]; rfl
      · rw [Queue_of_terminated { d with signature_sent_ := true } _ h]; rfl
  · by_cases hc : message.command = kCommandCNXN
    · rw [dispatch_CNXN _ _ _ _ _ hc, QueueAll_of_terminated d.pending_messages_
        { d with is_connected_ := true, pending_messages_ := [] } [] h]
      rfl
    · rw [dispatch_other _ _ _ _ _ ha hc]
      split
      · split
        · rw [reenter_of_terminated _ d _ h]
          rfl
        · rfl
      · rfl

/-- The device after `HandleIncoming` is the device after its `switch`. -/
theorem HandleIncoming_device (d : AndroidUsbDevice) (AndroidRSASign : List Byte → List Byte)
    (AndroidRSAPublicKey : List Byte) (HasOneRef : Bool)
    (SocketHandleIncoming : AndroidUsbSocket → AdbMessage → List Reentry)
    (message : AdbMessage) :
    (HandleIncoming d AndroidRSASign AndroidRSAPublicKey HasOneRef SocketHandleIncoming
        message).1
      = (HandleIncoming.dispatch d AndroidRSASign AndroidRSAPublicKey SocketHandleIncoming
          message).1 := by
  unfold HandleIncoming
  simp only [(ReadHeader_frame _ _ _).1]

/-- The number of streams constructed by `HandleIncoming` is that of its `switch`. -/
theorem HandleIncoming_created (d : AndroidUsbDevice) (AndroidRSASign : List Byte → List Byte)
    (AndroidRSAPublicKey : List Byte) (HasOneRef : Bool)
    (SocketHandleIncoming : AndroidUsbSocket → AdbMessage → List Reentry)
    (message : AdbMessage) :
    created (HandleIncoming d AndroidRSASign AndroidRSAPublicKey HasOneRef SocketHandleIncoming
        message).2
      = created (HandleIncoming.dispatch d AndroidRSASign AndroidRSAPublicKey
          SocketHandleIncoming message).2 := by
  unfold HandleIncoming
  simp only [created_append, created_ReadHeader, Nat.add_zero]

/-- On a terminated link `HandleIncoming` starts no bulk transfer. -/
theorem HandleIncoming_of_terminated (d : AndroidUsbDevice)
    (AndroidRSASign : List Byte → List Byte) (AndroidRSAPublicKey : List Byte)
    (HasOneRef : Bool) (SocketHandleIncoming : AndroidUsbSocket → AdbMessage → List Reentry)
    (message : AdbMessage) (h : d.terminated_ = true) :
    bulkTransfers (HandleIncoming d AndroidRSASign AndroidRSAPublicKey HasOneRef
      SocketHandleIncoming message).2 = [] := by
  obtain ⟨p, q, l, t, hq⟩ := dispatch_shape d AndroidRSASign AndroidRSAPublicKey
    SocketHandleIncoming message
  have ht : (HandleIncoming.dispatch d AndroidRSASign AndroidRSAPublicKey SocketHandleIncoming
      message).1.terminated_ = true := by rw [hq]; exact h
  unfold HandleIncoming
  simp only [bulkTransfers_append, dispatch_of_terminated d _ _ _ _ h,
    ReadHeader_of_terminated _ false HasOneRef ht]
  rfl

/-- No flag of the link is cleared by a call. -/
theorem callDevice_flags (AndroidRSASign : List Byte → List Byte)
    (AndroidRSAPublicKey : List Byte) (d : AndroidUsbDevice) (call : Call) :
    (d.is_connected_ = true
      → (callDevice AndroidRSASign AndroidRSAPublicKey d call).1.is_connected_ = true)
    ∧ (d.signature_sent_ = true
      → (callDevice AndroidRSASign AndroidRSAPublicKey d call).1.signature_sent_ = true)
    ∧ (d.terminated_ = true
      → (callDevice AndroidRSASign AndroidRSAPublicKey d call).1.terminated_ = true) := by
  cases call with
  | CreateSocket command => exact ⟨id, id, id⟩
  | Send command arg0 arg1 body =>
    obtain ⟨p, q, h, _⟩ := Send_shape d command arg0 arg1 body
    simp only [callDevice]
    rw [h]
    exact ⟨id, id, id⟩
  | Queue message =>
    obtain ⟨q, h⟩ := (Queue_frame d message).1
    simp only [callDevice]
    rw [h]
    exact ⟨id, id, id⟩
  | ProcessOutgoing =>
    obtain ⟨q, h⟩ := (ProcessOutgoing_frame d).1
    simp only [callDevice]
    rw [h]
    exact ⟨id, id, id⟩
  | OutgoingMessageSent status buffer result => exact ⟨id, id, id⟩
  | ReadHeader initial HasOneRef =>
    simp only [callDevice]
    rw [(ReadHeader_frame d initial HasOneRef).1]
    exact ⟨id, id, id⟩
  | ParseHeader status buffer result => exact ⟨id, id, id⟩
  | ReadBody message data_length data_check => exact ⟨id, id, id⟩
  | ParseBody message data_length data_check status buffer result => exact ⟨id, id, id⟩
  | HandleIncoming message HasOneRef SocketHandleIncoming =>
    obtain ⟨p, q, l, t, h⟩ := dispatch_shape d AndroidRSASign AndroidRSAPublicKey
      SocketHandleIncoming message
    simp only [callDevice]
    rw [HandleIncoming_device, h]
    refine ⟨fun hc => ?_, fun hs => ?_, id⟩
    · simp [hc]
    · simp [hs]
  | TransferError status => exact ⟨id, id, id⟩
  | Terminate Terminated =>
    obtain ⟨p, h⟩ := Terminate_shape d Terminated
    simp only [callDevice]
    rw [h]
    exact ⟨id, id, fun _ => rfl⟩
  | SocketDeleted socket_id => exact ⟨id, id, id⟩

/-- A call keeps the pending queue empty on a connected link. -/
theorem callDevice_pending (AndroidRSASign : List Byte → List Byte)
    (AndroidRSAPublicKey : List Byte) (d : AndroidUsbDevice) (call : Call)
    (hinv : d.is_connected_ = true → d.pending_messages_ = []) :
    (callDevice AndroidRSASign AndroidRSAPublicKey d call).1.is_connected_ = true
      → (callDevice AndroidRSASign AndroidRSAPublicKey d call).1.pending_messages_ = [] := by
  cases call with
  | CreateSocket command => exact hinv
  | Send command arg0 arg1 body =>
    obtain ⟨p, q, h, hp⟩ := Send_shape d command arg0 arg1 body
    simp only [callDevice]
    rw [h]
    intro hc
    exact (hp hc).trans (hinv hc)
  | Queue message =>
    obtain ⟨q, h⟩ := (Queue_frame d message).1
    simp only [callDevice]
    rw [h]
    exact hinv
  | ProcessOutgoing =>
    obtain ⟨q, h⟩ := (ProcessOutgoing_frame d).1
    simp only [callDevice]
    rw [h]
    exact hinv
  | OutgoingMessageSent status buffer result => exact hinv
  | ReadHeader initial HasOneRef =>
    simp only [callDevice]
    rw [(ReadHeader_frame d initial HasOneRef).1]
    exact hinv
  | ParseHeader status buffer result => exact hinv
  | ReadBody message data_length data_check => exact hinv
  | ParseBody message data_length data_check status buffer result => exact hinv
  | HandleIncoming message HasOneRef SocketHandleIncoming =>
    simp only [callDevice]
    rw [HandleIncoming_device]
    exact dispatch_pending d _ _ _ _ hinv
  | TransferError status => exact hinv
  | Terminate Terminated =>
    obtain ⟨p, h⟩ := Terminate_shape d Terminated
    simp only [callDevice]
    rw [h]
    exact hinv
  | SocketDeleted socket_id => exact hinv

/-- On a terminated link no call but `ReadBody` starts a bulk transfer. -/
theorem callDevice_of_terminated (AndroidRSASign : List Byte → List Byte)
    (AndroidRSAPublicKey : List Byte) (d : AndroidUsbDevice) (call : Call)
    (h : d.terminated_ = true) (hcall : call.isReadBody = false) :
    bulkTransfers (callDevice AndroidRSASign AndroidRSAPublicKey d call).2.1 = [] := by
  cases call with
  | CreateSocket command => rfl
  | Send command arg0 arg1 body =>
    simp only [callDevice]
    rw [Send_of_terminated d _ _ _ _ h]
    rfl
  | Queue message =>
    simp only [callDevice]
    rw [Queue_of_terminated d _ h]
    rfl
  | ProcessOutgoing =>
    simp only [callDevice]
    rw [ProcessOutgoing_of_terminated d h]
    rfl
  | OutgoingMessageSent status buffer result => rfl
  | ReadHeader initial HasOneRef =>
    simp only [callDevice]
    rw [ReadHeader_of_terminated d _ _ h]
    rfl
  | ParseHeader status buffer result => rfl
  | ReadBody message data_length data_check => cases hcall
  | ParseBody message data_length data_check status buffer result => rfl
  | HandleIncoming message HasOneRef SocketHandleIncoming =>
    exact HandleIncoming_of_terminated d _ _ _ _ _ h
  | TransferError status => rfl
  | Terminate Terminated =>
    simp only [callDevice]
    rw [Terminate_of_terminated d _ h]
    rfl
  | SocketDeleted socket_id => rfl

/-- Over a sequence of calls no flag of the link is cleared. -/
theorem callAll_flags (AndroidRSASign : List Byte → List Byte)
    (AndroidRSAPublicKey : List Byte) (calls : List Call) (d : AndroidUsbDevice) :
    (d.is_connected_ = true
      → (callAll AndroidRSASign AndroidRSAPublicKey d calls).1.is_connected_ = true)
    ∧ (d.signature_sent_ = true
      → (callAll AndroidRSASign AndroidRSAPublicKey d calls).1.signature_sent_ = true)
    ∧ (d.terminated_ = true
      → (callAll AndroidRSASign AndroidRSAPublicKey d calls).1.terminated_ = true) := by
  induction calls generalizing d with
  | nil => exact ⟨id, id, id⟩
  | cons call calls ih =>
    obtain ⟨h1, h2, h3⟩ := callDevice_flags AndroidRSASign AndroidRSAPublicKey d call
    obtain ⟨i1, i2, i3⟩ := ih (callDevice AndroidRSASign AndroidRSAPublicKey d call).1
    exact ⟨fun h => i1 (h1 h), fun h => i2 (h2 h), fun h => i3 (h3 h)⟩

/-- Over a sequence of calls the pending queue of a connected link stays empty. -/
theorem callAll_pending (AndroidRSASign : List Byte → List Byte)
    (AndroidRSAPublicKey : List Byte) (calls : List Call) (d : AndroidUsbDevice)
    (hinv : d.is_connected_ = true → d.pending_messages_ = []) :
    (callAll AndroidRSASign AndroidRSAPublicKey d calls).1.is_connected_ = true
      → (callAll AndroidRSASign AndroidRSAPublicKey d calls).1.pending_messages_ = [] := by
  induction calls generalizing d with
  | nil => exact hinv
  | cons call calls ih =>
    exact ih _ (callDevice_pending AndroidRSASign AndroidRSAPublicKey d call hinv)

/-- On a terminated link no sequence of calls without `ReadBody` starts a bulk transfer. -/
theorem callAll_of_terminated (AndroidRSASign : List Byte → List Byte)
    (AndroidRSAPublicKey : List Byte) (calls : List Call) (d : AndroidUsbDevice)
    (h : d.terminated_ = true) (hcalls : ∀ call ∈ calls, call.isReadBody = false) :
    bulkTransfers (callAll AndroidRSASign AndroidRSAPublicKey d calls).2.1 = [] := by
  induction calls generalizing d with
  | nil => rfl
  | cons call calls ih =>
    have h1 := callDevice_of_terminated AndroidRSASign AndroidRSAPublicKey d call h
      (hcalls call (List.mem_cons_self _ _))
    have h2 := ih (callDevice AndroidRSASign AndroidRSAPublicKey d call).1
      ((callDevice_flags AndroidRSASign AndroidRSAPublicKey d call).2.2 h)
      (fun c hc => hcalls c (List.mem_cons_of_mem _ hc))
    simp only [callAll, bulkTransfers_append, h1, h2]
    rfl

/-- One call keeps the keys of the stream table above 256, at most the id counter, equal
to the id of their stream and in increasing order, as long as the counter does not wrap
around; the counter moves by the number of streams constructed. -/
theorem callDevice_table_inv (AndroidRSASign : List Byte → List Byte)
    (AndroidRSAPublicKey : List Byte) (d : AndroidUsbDevice) (call : Call)
    (hkeys : ∀ entry ∈ d.sockets_, 256 < entry.1.val ∧ entry.1.val ≤ d.last_socket_id_.val
      ∧ entry.2.socket_id = entry.1)
    (hsorted : d.sockets_.Pairwise (fun a b => a.1 < b.1))
    (h256 : 256 ≤ d.last_socket_id_.val)
    (hwrap : d.last_socket_id_.val
      + created (callDevice AndroidRSASign AndroidRSAPublicKey d call).2.1 < 4294967296) :
    (callDevice AndroidRSASign AndroidRSAPublicKey d call).1.last_socket_id_.val
      = d.last_socket_id_.val
        + created (callDevice AndroidRSASign AndroidRSAPublicKey d call).2.1
    ∧ (∀ entry ∈ (callDevice AndroidRSASign AndroidRSAPublicKey d call).1.sockets_,
        256 < entry.1.val
        ∧ entry.1.val
          ≤ (callDevice AndroidRSASign AndroidRSAPublicKey d call).1.last_socket_id_.val
        ∧ entry.2.socket_id = entry.1)
    ∧ (callDevice AndroidRSASign AndroidRSAPublicKey d call).1.sockets_.Pairwise
        (fun a b => a.1 < b.1) := by
  have hfilter : ∀ (next : AndroidUsbDevice) (effects : List Effect), created effects = 0 →
      next.last_socket_id_ = d.last_socket_id_ →
      (∃ p : uint32 × AndroidUsbSocket → Bool, next.sockets_ = d.sockets_.filter p) →
      next.last_socket_id_.val = d.last_socket_id_.val + created effects
      ∧ (∀ entry ∈ next.sockets_, 256 < entry.1.val ∧ entry.1.val ≤ next.last_socket_id_.val
          ∧ entry.2.socket_id = entry.1)
      ∧ next.sockets_.Pairwise (fun a b => a.1 < b.1) := by
    intro next effects h0 hl hp
    rw [h0]
    exact table_step d next 0 (Or.inl ⟨rfl, hl, hp⟩) hkeys hsorted h256 (by omega)
  have hsame : ∀ (next : AndroidUsbDevice) (effects : List Effect), created effects = 0 →
      next.last_socket_id_ = d.last_socket_id_ → next.sockets_ = d.sockets_ →
      next.last_socket_id_.val = d.last_socket_id_.val + created effects
      ∧ (∀ entry ∈ next.sockets_, 256 < entry.1.val ∧ entry.1.val ≤ next.last_socket_id_.val
          ∧ entry.2.socket_id = entry.1)
      ∧ next.sockets_.Pairwise (fun a b => a.1 < b.1) :=
    fun next effects h0 hl hs => hfilter next effects h0 hl ⟨fun _ => true, by rw [hs]; simp⟩
  cases call with
  | CreateSocket command =>
    exact table_step d (CreateSocket d command).1 1 (Or.inr ⟨rfl, command, rfl, rfl⟩)
      hkeys hsorted h256 hwrap
  | Send command arg0 arg1 body =>
    obtain ⟨p, q, h, _⟩ := Send_shape d command arg0 arg1 body
    exact hsame (Send d command arg0 arg1 body).1 (Send d command arg0 arg1 body).2
      (created_Send d command arg0 arg1 body) (by rw [h]) (by rw [h])
  | Queue message =>
    obtain ⟨q, h⟩ := (Queue_frame d message).1
    exact hsame (Queue d message).1 (Queue d message).2 (created_Queue d message)
      (by rw [h]) (by rw [h])
  | ProcessOutgoing =>
    obtain ⟨q, h⟩ := (ProcessOutgoing_frame d).1
    exact hsame (ProcessOutgoing d).1 (ProcessOutgoing d).2 (created_ProcessOutgoing d)
      (by rw [h]) (by rw [h])
  | OutgoingMessageSent status buffer result => exact hsame d [] rfl rfl rfl
  | ReadHeader initial HasOneRef =>
    exact hsame (ReadHeader d initial HasOneRef).1 (ReadHeader d initial HasOneRef).2
      (created_ReadHeader d initial HasOneRef)
      (by rw [(ReadHeader_frame d initial HasOneRef).1])
      (by rw [(ReadHeader_frame d initial HasOneRef).1])
  | ParseHeader status buffer result => exact hsame d [] rfl rfl rfl
  | ReadBody message data_length data_check => exact hsame d _ rfl rfl rfl
  | ParseBody message data_length data_check status buffer result =>
    exact hsame d [] rfl rfl rfl
  | HandleIncoming message HasOneRef SocketHandleIncoming =>
    simp only [callDevice] at hwrap ⊢
    rw [HandleIncoming_created] at hwrap ⊢
    rw [HandleIncoming_device]
    exact dispatch_table_inv d _ _ _ _ hkeys hsorted h256 hwrap
  | TransferError status => exact hsame d [] rfl rfl rfl
  | Terminate Terminated =>
    obtain ⟨p, h⟩ := Terminate_shape d Terminated
    exact hfilter (Terminate d Terminated).1 (Terminate d Terminated).2
      (created_Terminate d Terminated) (by rw [h]) ⟨p, by rw [h]⟩
  | SocketDeleted socket_id =>
    exact hfilter (SocketDeleted d socket_id).1 [] rfl rfl
      ⟨_, erase_eq_filter d.sockets_ socket_id⟩

/-- Over a sequence of calls the keys of the stream table stay above 256, at most the id
counter, equal to the id of their stream and in increasing order, as long as the counter
does not wrap around; the counter moves by the number of streams constructed. -/
theorem callAll_table_inv (AndroidRSASign : List Byte → List Byte)
    (AndroidRSAPublicKey : List Byte) (calls : List Call) (d : AndroidUsbDevice)
    (hkeys : ∀ entry ∈ d.sockets_, 256 < entry.1.val ∧ entry.1.val ≤ d.last_socket_id_.val
      ∧ entry.2.socket_id = entry.1)
    (hsorted : d.sockets_.Pairwise (fun a b => a.1 < b.1))
    (h256 : 256 ≤ d.last_socket_id_.val)
    (hwrap : d.last_socket_id_.val
      + created (callAll AndroidRSASign AndroidRSAPublicKey d calls).2.1 < 4294967296) :
    (callAll AndroidRSASign AndroidRSAPublicKey d calls).1.last_socket_id_.val
      = d.last_socket_id_.val
        + created (callAll AndroidRSASign AndroidRSAPublicKey d calls).2.1
    ∧ (∀ entry ∈ (callAll AndroidRSASign AndroidRSAPublicKey d calls).1.sockets_,
        256 < entry.1.val
        ∧ entry.1.val
          ≤ (callAll AndroidRSASign AndroidRSAPublicKey d calls).1.last_socket_id_.val
        ∧ entry.2.socket_id = entry.1)
    ∧ (callAll AndroidRSASign AndroidRSAPublicKey d calls).1.sockets_.Pairwise
        (fun a b => a.1 < b.1) := by
  induction calls generalizing d with
  | nil => exact ⟨rfl, hkeys, hsorted⟩
  | cons call calls ih =>
    simp only [callAll, created_append] at hwrap ⊢
    obtain ⟨s1, s2, s3⟩ := callDevice_table_inv AndroidRSASign AndroidRSAPublicKey d call
      hkeys hsorted h256 (by omega)
    obtain ⟨i1, i2, i3⟩ := ih (callDevice AndroidRSASign AndroidRSAPublicKey d call).1
      s2 s3 (by omega) (by omega)
    exact ⟨by omega, i2, i3⟩

/-! ### Header reads and permuted bodies -/

theorem headerReads_ProcessOutgoing (d : AndroidUsbDevice) :
    headerReads (ProcessOutgoing d).2 = [] := by
  rcases ProcessOutgoing_cases d with ⟨h, _⟩ | ⟨m, rest, _, _, h⟩
  · rw [h]; rfl
  · rw [h]; rfl

theorem headerReads_Queue (d : AndroidUsbDevice) (message : AdbMessage) :
    headerReads (Queue d message).2 = [] := by
  unfold Queue
  exact headerReads_ProcessOutgoing _

theorem headerReads_QueueAll (pending : List AdbMessage) (d : AndroidUsbDevice)
    (effects : List Effect) :
    headerReads (QueueAll d effects pending).2 = headerReads effects := by
  induction pending generalizing d effects with
  | nil => rfl
  | cons m pending ih =>
    rw [QueueAll, ih, headerReads_append, headerReads_Queue, List.append_nil]

/-- The `switch` of `HandleIncoming` starts no header read. -/
theorem headerReads_dispatch (d : AndroidUsbDevice) (AndroidRSASign : List Byte → List Byte)
    (AndroidRSAPublicKey : List Byte)
    (SocketHandleIncoming : AndroidUsbSocket → AdbMessage → List Reentry)
    (message : AdbMessage) :
    headerReads (HandleIncoming.dispatch d AndroidRSASign AndroidRSAPublicKey
      SocketHandleIncoming message).2 = [] := by
  by_cases ha : message.command = kCommandAUTH
  · rw [dispatch_AUTH _ _ _ _ _ ha]
    split
    · exact headerReads_Queue _ _
    · split <;> exact headerReads_Queue _ _
  · by_cases hc : message.command = kCommandCNXN
    · rw [dispatch_CNXN _ _ _ _ _ hc, headerReads_QueueAll]
      rfl
    · rw [dispatch_other _ _ _ _ _ ha hc]
      split
      · split
        · rw [(reenter_traces _ _ _).2]
          rfl
        · rfl
      · rfl

/-- A length from 2^31 to 2^32 - 1 is a negative `int`. -/
theorem toInt_nonpos {n : Nat} (h1 : 2147483648 ≤ n) (h2 : n < 4294967296) : toInt n ≤ 0 := by
  have hm : n % 4294967296 = n := Nat.mod_eq_of_lt h2
  unfold toInt
  rw [hm, if_neg (by omega)]
  omega

/-- Two strings of the same length below 2^32 with the same byte sum have the same
checksum: below 2^31 bytes the checksum is the byte sum, and from 2^31 bytes on the `int`
counter is negative and the checksum is 0. -/
theorem Checksum_congr (a b : List Byte) (hl : a.length = b.length)
    (hs : (a.map Fin.val).sum = (b.map Fin.val).sum) (h : a.length < 4294967296) :
    Checksum a = Checksum b := by
  by_cases h31 : a.length < 2147483648
  · apply Fin.ext
    rw [Checksum_of_lt a h31, Checksum_of_lt b (by rw [← hl]; exact h31), hs]
  · have ha : toInt a.length ≤ 0 := toInt_nonpos (by omega) h
    rw [Checksum_of_wrap a ha, Checksum_of_wrap b (by rw [← hl]; exact ha)]

/-- Below 2^32 bytes the checksum does not depend on the order of the bytes. -/
theorem Checksum_perm (a b : List Byte) (hp : a.Perm b) (h : a.length < 4294967296) :
    Checksum a = Checksum b :=
  Checksum_congr a b hp.length_eq (hp.map Fin.val).sum_eq h

/-- Exchanging two unequal bytes of a body gives a different body of the same length
with the same byte sum. -/
theorem swap_spec (body : List Byte) (i j : Fin body.length) (h : body.get i ≠ body.get j) :
    (body.set i.val (body.get j)).set j.val (body.get i) ≠ body
    ∧ ((body.set i.val (body.get j)).set j.val (body.get i)).length = body.length
    ∧ ((((body.set i.val (body.get j)).set j.val (body.get i))).map Fin.val).sum
        = (body.map Fin.val).sum := by
  have hij : i.val ≠ j.val := by
    intro he
    exact h (by rw [Fin.ext he])
  have hj1 : j.val < (body.set i.val (body.get j)).length := by simp
  have s1 := sum_set_val body i.val i.isLt (body.get j)
  have s2 := sum_set_val (body.set i.val (body.get j)) j.val hj1 (body.get i)
  have g : (body.set i.val (body.get j)).get ⟨j.val, hj1⟩ = body.get j := by
    simp [List.getElem_set_ne hij]
  rw [g] at s2
  refine ⟨?_, by simp, ?_⟩
  · intro he
    have hi2 : i.val < ((body.set i.val (body.get j)).set j.val (body.get i)).length := by simp
    have e1 : ((body.set i.val (body.get j)).set j.val (body.get i))[i.val] = body[i.val] := by
      simp only [he]
    rw [List.getElem_set_ne (Ne.symm hij), List.getElem_set_self] at e1
    exact h (by simpa using e1.symm)
  · have s1b : ((body.set i.val (body.get j)).map Fin.val).sum + (body.get i).val
        = (body.map Fin.val).sum + (body.get j).val := s1
    have s2b : ((((body.set i.val (body.get j)).set j.val (body.get i))).map Fin.val).sum
          + (body.get j).val
        = ((body.set i.val (body.get j)).map Fin.val).sum + (body.get i).val := s2
    omega

/-! ## Theorems -/

/-- C1: the first chunk `Queue` appends to the outgoing queue is 24 bytes long and is
made of six little-endian 32-bit words: command, arg0, arg1, body_length (reduced to
32 bits), `Checksum body`, and command XOR 0xFFFFFFFF. Byte `j` of word `k` lies at
offset `4 * k + j` and holds bits `8 * j .. 8 * j + 7` of the word. -/
theorem C1_header_layout (d : AndroidUsbDevice) (message : AdbMessage) :
    ∃ (header_buffer : IOBuffer) (rest : List BulkMessage),
      Queue.pushes d.zero_mask_ message = (header_buffer, 24) :: rest
      ∧ Queue d message = ProcessOutgoing
          { d with outgoing_queue_ := d.outgoing_queue_ ++ (header_buffer, 24) :: rest }
      ∧ header_buffer.length = 24
      ∧ header_buffer =
          uint32Bytes message.command ++ uint32Bytes message.arg0 ++ uint32Bytes message.arg1
          ++ uint32Bytes (toUint32 (Queue.body_length message))
          ++ uint32Bytes (Checksum message.body)
          ++ uint32Bytes (toUint32 (message.command.val ^^^ 0xffffffff))
      ∧ (toUint32 (message.command.val ^^^ 0xffffffff)).val = message.command.val ^^^ 0xffffffff
      ∧ ∀ (k : Fin 6) (j : Fin 4),
          byteAt header_buffer (4 * k.val + j.val)
            = ([message.command.val, message.arg0.val, message.arg1.val,
                Queue.body_length message % 4294967296, (Checksum message.body).val,
                message.command.val ^^^ 0xffffffff].getD k.val 0) / 256 ^ j.val % 256 := by
  have hx : message.command.val ^^^ 0xffffffff < 4294967296 :=
    Nat.xor_lt_two_pow (n := 32) message.command.isLt (by decide)
  have hp : Queue.pushes d.zero_mask_ message
      = (Queue.header_buffer message, 24) :: (Queue.pushes d.zero_mask_ message).tail := by
    unfold Queue.pushes
    simp only [kHeaderSize]
    split <;> [split; skip] <;> rfl
  refine ⟨Queue.header_buffer message, (Queue.pushes d.zero_mask_ message).tail,
    hp, ?_, ?_, ?_, ?_, ?_⟩
  · rw [← hp]
    rfl
  · simp [Queue.header_buffer, Queue.header, vectorBytes, uint32Bytes, kHeaderSize]
  · simp [Queue.header_buffer, Queue.header, vectorBytes, kHeaderSize, uint32Bytes]
  · exact toUint32_of_lt hx
  · intro k j
    fin_cases k <;> fin_cases j <;>
      simp [Queue.header_buffer, Queue.header, vectorBytes, kHeaderSize, uint32Bytes, byteAt,
        toUint32, Nat.mod_eq_of_lt hx]

/-- C2 (as amended): round trip. For every message whose transmitted body is shorter
than 2^31 bytes, feeding the header chunk of `Queue` to `ParseHeader` and then the body
chunk of `Queue` to `ParseBody` (status COMPLETED, full length) passes the magic and
checksum checks and dispatches a message with the original command, arg0 and arg1 and
with the transmitted body: the original body when `Queue` appends no zero byte (empty
body, AUTH signature, WRTE), otherwise the original body followed by one zero byte. -/
theorem C2_roundtrip (zero_mask_ : Int) (message : AdbMessage)
    (h : Queue.body_length message < 2147483648) :
    ∃ (header : BulkMessage) (rest : List BulkMessage),
      Queue.pushes zero_mask_ message = header :: rest
      ∧ (message.body = [] →
          rest = []
          ∧ ParseHeader USB_TRANSFER_COMPLETED header.1 header.2
              = [Task.HandleIncoming message])
      ∧ (message.body ≠ [] →
          ∃ (body : BulkMessage) (zero_length : List BulkMessage)
            (data_length data_check : uint32),
            rest = body :: zero_length
            ∧ ParseHeader USB_TRANSFER_COMPLETED header.1 header.2
                = [Task.ReadBody { message with body := [] } data_length data_check]
            ∧ ParseBody { message with body := [] } data_length data_check
                USB_TRANSFER_COMPLETED body.1 body.2
                = [Task.HandleIncoming
                    { message with
                      body := message.body ++ (if Queue.append_zero message then [0] else []) }]) := by
  obtain ⟨w0, w1, w2, w3, w4, w5⟩ := wordAt_header_buffer message
  by_cases hb : message.body = []
  · refine ⟨(Queue.header_buffer message, 24), [], pushes_of_empty _ _ hb, ?_, fun hne => absurd hb hne⟩
    intro _
    refine ⟨rfl, ?_⟩
    have hz : Queue.body_length message = 0 := by
      simp [Queue.body_length, Queue.append_zero, hb]
    have h3 : wordAt (Queue.header_buffer message) 3 = 0 := by rw [w3, hz]; rfl
    rw [ParseHeader_completed, w0, w1, w2, h3, w5]
    simp only [ne_eq, not_true_eq_false, if_false, if_true]
    obtain ⟨c, a0, a1, b⟩ := message
    simp only at hb
    subst hb
    rfl
  · refine ⟨(Queue.header_buffer message, 24), _, pushes_of_nonempty _ _ hb, fun he => absurd he hb, ?_⟩
    intro _
    refine ⟨(Queue.body_buffer message, Queue.body_length message), _,
      toUint32 (Queue.body_length message), Checksum message.body, rfl, ?_, ?_⟩
    · have hpos : 0 < message.body.length := List.length_pos.mpr hb
      have hlen : 0 < Queue.body_length message := by unfold Queue.body_length; omega
      have h3 : wordAt (Queue.header_buffer message) 3 ≠ 0 := by
        rw [w3]
        intro h0
        have := congrArg Fin.val h0
        rw [toUint32_of_lt (by omega)] at this
        simp at this
        omega
      rw [ParseHeader_completed, w0, w1, w2, w5, w4, if_neg h3]
      simp [w3]
    · rw [ParseBody_completed _ _ _ _ (body_buffer_length message), Checksum_body_buffer _ h]
      simp [Queue.body_buffer]

/-- Witness for C2: the 4-byte WRTE message `ping` on stream 257 comes back unchanged. -/
theorem C2_roundtrip_witness :
    ∃ (header body : BulkMessage) (zero_length : List BulkMessage),
      Queue.pushes 63 ⟨kCommandWRTE, 1, 257, [112, 105, 110, 103]⟩
        = header :: body :: zero_length
      ∧ ParseHeader USB_TRANSFER_COMPLETED header.1 header.2
          = [Task.ReadBody ⟨kCommandWRTE, 1, 257, []⟩ 4 430]
      ∧ ParseBody ⟨kCommandWRTE, 1, 257, []⟩ 4 430 USB_TRANSFER_COMPLETED body.1 body.2
          = [Task.HandleIncoming ⟨kCommandWRTE, 1, 257, [112, 105, 110, 103]⟩] := by
  obtain ⟨header, rest, hp, _, hne⟩ :=
    C2_roundtrip 63 ⟨kCommandWRTE, 1, 257, [112, 105, 110, 103]⟩ (by decide)
  obtain ⟨body, zero_length, data_length, data_check, hr, _, _⟩ := hne (by decide)
  subst hr
  refine ⟨header, body, zero_length, hp, ?_, ?_⟩
  · have hh := (List.cons.inj (hp.symm.trans (pushes_of_nonempty 63 _ (by decide)))).1
    subst hh
    decide
  · have hh := (List.cons.inj
      (List.cons.inj (hp.symm.trans (pushes_of_nonempty 63 _ (by decide)))).2).1
    subst hh
    decide

/-- C2 (as stated) fails: for the connection message CNXN with body `host::` the body
chunk `Queue` produces is `host::` followed by a zero byte, the header declares 7 bytes,
and the message `ParseBody` dispatches carries the 7-byte body, not the original one.
Besides, for a stream-open message with a body of 2^32 - 1 bytes the header declares
length 0 and `ParseHeader` dispatches a message with an empty body at once. -/
theorem C2_roundtrip_counterexample :
    Queue.pushes 0 ⟨kCommandCNXN, kVersion, kMaxPayload, kHostConnectMessage⟩
      = [([0x43, 0x4e, 0x58, 0x4e, 0, 0, 0, 1, 0, 0x10, 0, 0,
           7, 0, 0, 0, 0x32, 0x02, 0, 0, 0xbc, 0xb1, 0xa7, 0xb1], 24),
         ([104, 111, 115, 116, 58, 58, 0], 7)]
    ∧ ParseHeader USB_TRANSFER_COMPLETED
        [0x43, 0x4e, 0x58, 0x4e, 0, 0, 0, 1, 0, 0x10, 0, 0,
         7, 0, 0, 0, 0x32, 0x02, 0, 0, 0xbc, 0xb1, 0xa7, 0xb1] 24
      = [Task.ReadBody ⟨kCommandCNXN, kVersion, kMaxPayload, []⟩ 7 562]
    ∧ ParseBody ⟨kCommandCNXN, kVersion, kMaxPayload, []⟩ 7 562
        USB_TRANSFER_COMPLETED [104, 111, 115, 116, 58, 58, 0] 7
      = [Task.HandleIncoming ⟨kCommandCNXN, kVersion, kMaxPayload, [104, 111, 115, 116, 58, 58, 0]⟩]
    ∧ (⟨kCommandCNXN, kVersion, kMaxPayload, [104, 111, 115, 116, 58, 58, 0]⟩ : AdbMessage)
      ≠ ⟨kCommandCNXN, kVersion, kMaxPayload, kHostConnectMessage⟩
    ∧ ParseHeader USB_TRANSFER_COMPLETED
        (Queue.header_buffer ⟨kCommandOPEN, 257, 0, List.replicate 4294967295 0⟩) 24
      = [Task.HandleIncoming ⟨kCommandOPEN, 257, 0, []⟩] := by
  refine ⟨by decide, by decide, by decide, by decide, ?_⟩
  exact (header_OPEN_replicate 4294967295 (by decide) 257 0 0).trans (if_pos (by decide))

/-- C3 (as amended): for every body shorter than 2^31 bytes, `Checksum body` is the sum
of the body's bytes, each taken as an unsigned value in 0..255, reduced modulo 2^32;
and `Checksum` of the empty body is 0. -/
theorem C3_checksum_sum (body : List Byte) (h : body.length < 2147483648) :
    (Checksum body).val = (body.map Fin.val).sum % 4294967296
    ∧ (∀ b ∈ body.map Fin.val, b ≤ 255)
    ∧ Checksum [] = 0 := by
  refine ⟨Checksum_of_lt body h, ?_, rfl⟩
  intro b hb
  obtain ⟨x, _, rfl⟩ := List.mem_map.mp hb
  omega

/-- Witness for C3: the body `host::` has checksum 104+111+115+116+58+58 = 562. -/
theorem C3_checksum_sum_witness :
    (Checksum kHostConnectMessage).val = 562 ∧ Checksum [] = 0 := by
  have h := C3_checksum_sum kHostConnectMessage (by decide)
  exact ⟨h.1.trans (by decide), h.2.2⟩

/-- C3 (as stated) fails: a body of 2^31 + 1 bytes, all equal to 1, has byte sum
2^31 + 1 modulo 2^32, but its length converted to the `int` counter of `Checksum`
is negative, the loop body never runs and `Checksum` returns 0. -/
theorem C3_checksum_sum_counterexample :
    (Checksum (List.replicate 2147483649 1)).val = 0
    ∧ ((List.replicate 2147483649 (1 : Byte)).map Fin.val).sum % 4294967296 = 2147483649 := by
  constructor
  · have hw : toInt (List.replicate 2147483649 (1 : Byte)).length ≤ 0 := by
      rw [List.length_replicate]; decide
    rw [Checksum_of_wrap _ hw]
    rfl
  · rw [sum_replicate_val]
    decide

/-- C4 (as amended): for every body shorter than 2^31 bytes, with the expected length
and the expected checksum `Checksum body`, replacing the byte at any position `i` by a
different byte value makes `ParseBody` take the error path: the only task posted is
`Terminate` (through `TransferError`), and no message is dispatched to `HandleIncoming`. -/
theorem C4_corrupt_byte (message : AdbMessage) (body : List Byte) (i : Fin body.length)
    (b : Byte) (hlen : body.length < 2147483648) (hb : b ≠ body.get i) :
    ParseBody message (toUint32 body.length) (Checksum body) USB_TRANSFER_COMPLETED
        (body.set i.val b) body.length
      = TransferError USB_TRANSFER_ERROR
    ∧ TransferError USB_TRANSFER_ERROR = [Task.Terminate]
    ∧ ∀ m, Task.HandleIncoming m ∉
        ParseBody message (toUint32 body.length) (Checksum body) USB_TRANSFER_COMPLETED
          (body.set i.val b) body.length := by
  have hsum := sum_set_val body i.val i.isLt b
  have hne : Checksum (body.set i.val b) ≠ Checksum body := by
    intro heq
    have hv := congrArg Fin.val heq
    rw [Checksum_of_lt _ (by simpa using hlen), Checksum_of_lt _ hlen] at hv
    have hb2 : b.val ≠ (body.get i).val := fun h => hb (Fin.ext h)
    have h1 := b.isLt
    have h2 := (body.get i).isLt
    have h3 : body.get ⟨i.val, i.isLt⟩ = body.get i := rfl
    rw [h3] at hsum
    omega
  have hp : ParseBody message (toUint32 body.length) (Checksum body) USB_TRANSFER_COMPLETED
        (body.set i.val b) body.length = TransferError USB_TRANSFER_ERROR := by
    rw [ParseBody_completed _ _ _ _ (by simp), if_pos hne]
  refine ⟨hp, rfl, ?_⟩
  intro m hm
  rw [hp] at hm
  simp [TransferError] at hm

/-- Witness for C4: the body `host::` with its first byte replaced by `H`. -/
theorem C4_corrupt_byte_witness :
    ParseBody ⟨kCommandCNXN, kVersion, kMaxPayload, []⟩ 6 562 USB_TRANSFER_COMPLETED
        [72, 111, 115, 116, 58, 58] 6
      = [Task.Terminate] :=
  (C4_corrupt_byte ⟨kCommandCNXN, kVersion, kMaxPayload, []⟩ kHostConnectMessage
    ⟨0, by decide⟩ 72 (by decide) (by decide)).1

/-- C4 (as stated) fails: a body of 2^31 + 1 zero bytes has expected checksum 0; with its
first byte replaced by 1 the length still converts to a negative `int`, `Checksum`
returns 0 again and `ParseBody` dispatches the corrupted body to `HandleIncoming`. -/
theorem C4_corrupt_byte_counterexample :
    (List.replicate 2147483649 (0 : Byte)).set 0 1 ≠ List.replicate 2147483649 0
    ∧ ParseBody ⟨kCommandWRTE, 1, 257, []⟩ (toUint32 2147483649)
        (Checksum (List.replicate 2147483649 0)) USB_TRANSFER_COMPLETED
        ((List.replicate 2147483649 0).set 0 1) 2147483649
      = [Task.HandleIncoming ⟨kCommandWRTE, 1, 257, (List.replicate 2147483649 0).set 0 1⟩] := by
  refine ⟨set_zero_replicate_ne 2147483649 0 1 (by decide) (by decide), ?_⟩
  have hl : ((List.replicate 2147483649 (0 : Byte)).set 0 1).length = 2147483649 := by
    rw [List.length_set, List.length_replicate]
  have h1 : Checksum ((List.replicate 2147483649 (0 : Byte)).set 0 1) = 0 :=
    Checksum_of_wrap _ (by rw [hl]; decide)
  have h2 : Checksum (List.replicate 2147483649 (0 : Byte)) = 0 :=
    Checksum_of_wrap _ (by rw [List.length_replicate]; decide)
  rw [ParseBody_completed _ _ _ _ hl, h1, h2]
  rfl

/-- C5: a successfully read 24-byte header whose magic word is the command XOR
0xFFFFFFFF with any one of its 32 bits flipped makes `ParseHeader` take the error path
(`TransferError`, which posts `Terminate`): nothing is dispatched and no body read is
posted. More generally `ParseHeader` posts a dispatch or a body read only if the magic
word equals the bitwise complement of the command word. -/
theorem C5_magic_check (command arg0 arg1 data_length data_check : uint32) (i : Fin 32) :
    (toUint32 (command.val ^^^ 0xffffffff ^^^ 2 ^ i.val)).val
        = command.val ^^^ 0xffffffff ^^^ 2 ^ i.val
    ∧ ParseHeader USB_TRANSFER_COMPLETED
        ((vectorBytes [command, arg0, arg1, data_length, data_check,
            toUint32 (command.val ^^^ 0xffffffff ^^^ 2 ^ i.val)]).take kHeaderSize) 24
      = TransferError USB_TRANSFER_ERROR
    ∧ TransferError USB_TRANSFER_ERROR = [Task.Terminate]
    ∧ ∀ (status : UsbTransferStatus) (buffer : IOBuffer) (result : Nat) (t : Task),
        t ∈ ParseHeader status buffer result →
        ((∃ m, t = Task.HandleIncoming m) ∨ (∃ m l c, t = Task.ReadBody m l c)) →
        (wordAt buffer 5).val = (wordAt buffer 0).val ^^^ 0xffffffff := by
  have hc : command.val ^^^ 0xffffffff < 2 ^ 32 :=
    Nat.xor_lt_two_pow (n := 32) command.isLt (by decide)
  have hi : 2 ^ i.val < 2 ^ 32 := Nat.pow_lt_pow_right (by decide) i.isLt
  have hlt : command.val ^^^ 0xffffffff ^^^ 2 ^ i.val < 4294967296 :=
    Nat.xor_lt_two_pow (n := 32) hc hi
  refine ⟨toUint32_of_lt hlt, ?_, rfl, ?_⟩
  · obtain ⟨w0, _, _, _, _, w5⟩ := wordAt_vectorBytes command arg0 arg1 data_length data_check
      (toUint32 (command.val ^^^ 0xffffffff ^^^ 2 ^ i.val))
    rw [ParseHeader_completed, w0, w5, if_pos]
    intro h
    have hv := congrArg Fin.val h
    rw [toUint32_of_lt hlt, toUint32_of_lt (by simpa using hc)] at hv
    exact xor_two_pow_ne _ _ hv.symm
  · intro status buffer result t ht hkind
    have hx : (wordAt buffer 0).val ^^^ 0xffffffff < 4294967296 :=
      Nat.xor_lt_two_pow (n := 32) (wordAt buffer 0).isLt (by decide)
    unfold ParseHeader at ht
    split at ht
    · simp at ht
      subst ht
      rcases hkind with ⟨m, hm⟩ | ⟨m, l, c, hm⟩ <;> cases hm
    · split at ht
      · simp [TransferError] at ht
        subst ht
        rcases hkind with ⟨m, hm⟩ | ⟨m, l, c, hm⟩ <;> cases hm
      · simp only at ht
        split at ht
        · simp [TransferError] at ht
          subst ht
          rcases hkind with ⟨m, hm⟩ | ⟨m, l, c, hm⟩ <;> cases hm
        · rename_i hmagic
          have hm2 := not_not.mp hmagic
          have hv := congrArg Fin.val hm2
          rw [toUint32_of_lt hx] at hv
          exact hv.symm

/-- C6 (as amended): for every message whose transmitted body is shorter than 2^31
bytes, the header `Queue` enqueues is consistent with the body bytes transmitted: the
body_length field equals the length of the body chunk pushed after the header (and is 0
when no body chunk is pushed), the body_checksum field equals `Checksum` of exactly the
bytes of that chunk (any appended zero byte included), and magic is the bitwise
complement of command. -/
theorem C6_header_consistent (zero_mask_ : Int) (message : AdbMessage)
    (h : Queue.body_length message < 2147483648) :
    ∃ (header : BulkMessage) (rest : List BulkMessage),
      Queue.pushes zero_mask_ message = header :: rest
      ∧ wordAt header.1 0 = message.command
      ∧ (wordAt header.1 5).val = (wordAt header.1 0).val ^^^ 0xffffffff
      ∧ (message.body = [] →
          rest = [] ∧ (wordAt header.1 3).val = 0 ∧ wordAt header.1 4 = Checksum [])
      ∧ (message.body ≠ [] →
          ∃ (body : BulkMessage) (zero_length : List BulkMessage),
            rest = body :: zero_length
            ∧ (wordAt header.1 3).val = body.2
            ∧ body.1.length = body.2
            ∧ body.1 = message.body ++ (if Queue.append_zero message then [0] else [])
            ∧ wordAt header.1 4 = Checksum body.1) := by
  obtain ⟨w0, _, _, w3, w4, w5⟩ := wordAt_header_buffer message
  have hx : message.command.val ^^^ 0xffffffff < 4294967296 :=
    Nat.xor_lt_two_pow (n := 32) message.command.isLt (by decide)
  have hmagic : (wordAt (Queue.header_buffer message) 5).val
      = (wordAt (Queue.header_buffer message) 0).val ^^^ 0xffffffff := by
    rw [w5, w0, toUint32_of_lt hx]
  by_cases hb : message.body = []
  · refine ⟨(Queue.header_buffer message, 24), [], pushes_of_empty _ _ hb, w0, hmagic, ?_,
      fun hne => absurd hb hne⟩
    intro _
    have hz : Queue.body_length message = 0 := by
      simp [Queue.body_length, Queue.append_zero, hb]
    refine ⟨rfl, ?_, ?_⟩
    · show (wordAt (Queue.header_buffer message) 3).val = 0
      rw [w3, hz]; rfl
    · show wordAt (Queue.header_buffer message) 4 = Checksum []
      rw [w4, hb]
  · refine ⟨(Queue.header_buffer message, 24), _, pushes_of_nonempty _ _ hb, w0, hmagic,
      fun he => absurd he hb, ?_⟩
    intro _
    refine ⟨(Queue.body_buffer message, Queue.body_length message), _, rfl, ?_,
      body_buffer_length message, rfl, ?_⟩
    · show (wordAt (Queue.header_buffer message) 3).val = Queue.body_length message
      rw [w3, toUint32_of_lt (by omega)]
    · show wordAt (Queue.header_buffer message) 4 = Checksum (Queue.body_buffer message)
      rw [w4, Checksum_body_buffer _ h]

/-- Witness for C6: the stream-open message `shell:` (a zero byte is appended). -/
theorem C6_header_consistent_witness :
    ∃ (header : BulkMessage) (rest : List BulkMessage),
      Queue.pushes 63 ⟨kCommandOPEN, 257, 0, [115, 104, 101, 108, 108, 58]⟩ = header :: rest
      ∧ wordAt header.1 0 = kCommandOPEN := by
  obtain ⟨header, rest, hp, hc, _⟩ :=
    C6_header_consistent 63 ⟨kCommandOPEN, 257, 0, [115, 104, 101, 108, 108, 58]⟩ (by decide)
  exact ⟨header, rest, hp, hc⟩

/-- C6 (as stated) fails: for a WRTE message with a body of 2^32 + 1 bytes the body chunk
pushed after the header has length 2^32 + 1, but the 32-bit body_length field of the
header holds 1. -/
theorem C6_header_consistent_counterexample :
    Queue.pushes 0 ⟨kCommandWRTE, 1, 257, List.replicate 4294967297 0⟩
      = [(Queue.header_buffer ⟨kCommandWRTE, 1, 257, List.replicate 4294967297 0⟩, 24),
         (List.replicate 4294967297 0, 4294967297)]
    ∧ (wordAt (Queue.header_buffer ⟨kCommandWRTE, 1, 257, List.replicate 4294967297 0⟩) 3).val
      = 1 := by
  have h := pushes_WRTE_replicate 4294967297 (by decide) 1 257 0
  refine ⟨h.1, ?_⟩
  rw [h.2]
  rfl

/-- C7 (as amended): when the outgoing message is the connection handshake (command
CNXN with a non-empty body), `Queue` appends one trailing zero byte: body_length and the
header field are the body's length plus 1, and the body chunk is the body followed by a
zero byte. For the constructor's CNXN with body `host::` the length is 7. -/
theorem C7_cnxn_terminator (zero_mask_ : Int) (message : AdbMessage)
    (hc : message.command = kCommandCNXN) (hb : message.body ≠ []) :
    Queue.append_zero message = true
    ∧ Queue.body_length message = message.body.length + 1
    ∧ wordAt (Queue.header_buffer message) 3 = toUint32 (message.body.length + 1)
    ∧ (∃ zero_length, Queue.pushes zero_mask_ message
        = (Queue.header_buffer message, 24)
          :: (message.body ++ [0], message.body.length + 1) :: zero_length)
    ∧ Queue.body_length ⟨kCommandCNXN, kVersion, kMaxPayload, kHostConnectMessage⟩ = 7 := by
  have ha : Queue.append_zero message = true :=
    append_zero_other message hb
      (fun h => (by decide : kCommandCNXN ≠ kCommandAUTH) (hc.symm.trans h.1))
      (fun h => (by decide : kCommandCNXN ≠ kCommandWRTE) (hc.symm.trans h))
  obtain ⟨hbuf, hlen⟩ := body_buffer_of_append message ha
  refine ⟨ha, hlen, ?_, ?_, by decide⟩
  · rw [(wordAt_header_buffer message).2.2.2.1, hlen]
  · refine ⟨if zero_mask_ ≠ 0 ∧ Int.land (Queue.body_length message) zero_mask_ = 0
      then [(Queue.body_buffer message, 0)] else [], ?_⟩
    rw [pushes_of_nonempty _ _ hb, hbuf, hlen]

/-- Witness for C7: the CNXN message queued by the constructor. -/
theorem C7_cnxn_terminator_witness :
    Queue.append_zero ⟨kCommandCNXN, kVersion, kMaxPayload, kHostConnectMessage⟩ = true
    ∧ Queue.body_length ⟨kCommandCNXN, kVersion, kMaxPayload, kHostConnectMessage⟩
      = kHostConnectMessage.length + 1 :=
  ⟨(C7_cnxn_terminator 0 ⟨kCommandCNXN, kVersion, kMaxPayload, kHostConnectMessage⟩
      rfl (by decide)).1,
   (C7_cnxn_terminator 0 ⟨kCommandCNXN, kVersion, kMaxPayload, kHostConnectMessage⟩
      rfl (by decide)).2.1⟩

/-- C7 (as stated) fails: for the constructor's CNXN message with body `host::` (6
bytes) `Queue` sets `append_zero`, the body_length header field is 7, and the body chunk
is the 7 bytes `host::` and a zero byte. -/
theorem C7_cnxn_terminator_counterexample :
    Queue.append_zero ⟨kCommandCNXN, kVersion, kMaxPayload, kHostConnectMessage⟩ = true
    ∧ kHostConnectMessage.length = 6
    ∧ wordAt (Queue.header_buffer ⟨kCommandCNXN, kVersion, kMaxPayload, kHostConnectMessage⟩) 3
      = 7
    ∧ (Queue.pushes 0 ⟨kCommandCNXN, kVersion, kMaxPayload, kHostConnectMessage⟩).tail
      = [([104, 111, 115, 116, 58, 58, 0], 7)] := by
  decide

/-- C8: for every message that is a signature-bearing AUTH (command AUTH, arg0 =
kAuthSignature) or a WRTE, whatever its body, `Queue` appends no trailing zero byte:
body_length is the body's length (the header field holds it as a 32-bit word) and, when
the body is non-empty, the body chunk is exactly the body. -/
theorem C8_no_terminator (zero_mask_ : Int) (message : AdbMessage)
    (h : (message.command = kCommandAUTH ∧ message.arg0 = kAuthSignature)
      ∨ message.command = kCommandWRTE) :
    Queue.append_zero message = false
    ∧ Queue.body_length message = message.body.length
    ∧ wordAt (Queue.header_buffer message) 3 = toUint32 message.body.length
    ∧ (message.body ≠ [] →
        ∃ zero_length, Queue.pushes zero_mask_ message
          = (Queue.header_buffer message, 24)
            :: (message.body, message.body.length) :: zero_length) := by
  have ha : Queue.append_zero message = false := by
    rcases h with h | h
    · exact append_zero_signature message h
    · exact append_zero_WRTE message h
  obtain ⟨hbuf, hlen⟩ := body_buffer_of_not_append message ha
  refine ⟨ha, hlen, ?_, ?_⟩
  · rw [(wordAt_header_buffer message).2.2.2.1, hlen]
  · intro hb
    refine ⟨if zero_mask_ ≠ 0 ∧ Int.land (Queue.body_length message) zero_mask_ = 0
      then [(Queue.body_buffer message, 0)] else [], ?_⟩
    rw [pushes_of_nonempty _ _ hb, hbuf, hlen]

/-- Witness for C8: a WRTE whose body ends in a non-zero byte and an AUTH signature. -/
theorem C8_no_terminator_witness :
    Queue.body_length ⟨kCommandWRTE, 1, 257, [112, 105, 110, 103]⟩ = 4
    ∧ Queue.body_length ⟨kCommandAUTH, kAuthSignature, 0, [1, 2, 3]⟩ = 3 :=
  ⟨(C8_no_terminator 0 ⟨kCommandWRTE, 1, 257, [112, 105, 110, 103]⟩ (Or.inr rfl)).2.1,
   (C8_no_terminator 0 ⟨kCommandAUTH, kAuthSignature, 0, [1, 2, 3]⟩ (Or.inl ⟨rfl, rfl⟩)).2.1⟩

/-- C9: for every message with a non-empty body that is neither a connection handshake
(CNXN), nor a signature-bearing AUTH, nor a WRTE, `Queue` transmits the body followed by
exactly one zero byte, and body_length is the body's length plus 1 (the header field
holds it as a 32-bit word). -/
theorem C9_terminator (zero_mask_ : Int) (message : AdbMessage)
    (hb : message.body ≠ []) (_hc : message.command ≠ kCommandCNXN)
    (hs : ¬ (message.command = kCommandAUTH ∧ message.arg0 = kAuthSignature))
    (hw : message.command ≠ kCommandWRTE) :
    Queue.append_zero message = true
    ∧ Queue.body_length message = message.body.length + 1
    ∧ wordAt (Queue.header_buffer message) 3 = toUint32 (message.body.length + 1)
    ∧ ∃ zero_length, Queue.pushes zero_mask_ message
        = (Queue.header_buffer message, 24)
          :: (message.body ++ [0], message.body.length + 1) :: zero_length := by
  have ha : Queue.append_zero message = true := append_zero_other message hb hs hw
  obtain ⟨hbuf, hlen⟩ := body_buffer_of_append message ha
  refine ⟨ha, hlen, ?_, ?_⟩
  · rw [(wordAt_header_buffer message).2.2.2.1, hlen]
  · refine ⟨if zero_mask_ ≠ 0 ∧ Int.land (Queue.body_length message) zero_mask_ = 0
      then [(Queue.body_buffer message, 0)] else [], ?_⟩
    rw [pushes_of_nonempty _ _ hb, hbuf, hlen]

/-- Witness for C9: AUTH with the public key sub-type, and a stream-open message. -/
theorem C9_terminator_witness :
    Queue.body_length ⟨kCommandAUTH, kAuthRSAPublicKey, 0, [81, 65, 65]⟩ = 4
    ∧ Queue.body_length ⟨kCommandOPEN, 257, 0, [115, 104, 101, 108, 108, 58]⟩ = 7 :=
  ⟨(C9_terminator 0 ⟨kCommandAUTH, kAuthRSAPublicKey, 0, [81, 65, 65]⟩
      (by decide) (by decide) (by decide) (by decide)).2.1,
   (C9_terminator 0 ⟨kCommandOPEN, 257, 0, [115, 104, 101, 108, 108, 58]⟩
      (by decide) (by decide) (by decide) (by decide)).2.1⟩

/-- C10 (as amended): for every max packet size N = 2^j with N >= 2 (zero_mask = N - 1),
every k >= 1 and every message: if the transmitted body (the body and any appended zero
byte, `body_length` bytes) has length exactly k * N, `Queue` pushes one extra zero-length
chunk immediately after the body chunk; if it has length k * N - 1, `Queue` pushes no
zero-length chunk. -/
theorem C10_zero_length_chunk (j k : Nat) (hj : 1 ≤ j) (hk : 1 ≤ k) (message : AdbMessage) :
    (Queue.body_length message = k * 2 ^ j →
      Queue.pushes (((2 ^ j - 1 : Nat)) : Int) message
        = [(Queue.header_buffer message, 24),
           (Queue.body_buffer message, k * 2 ^ j),
           (Queue.body_buffer message, 0)])
    ∧ (Queue.body_length message = k * 2 ^ j - 1 →
      Queue.pushes (((2 ^ j - 1 : Nat)) : Int) message
        = [(Queue.header_buffer message, 24),
           (Queue.body_buffer message, k * 2 ^ j - 1)]) := by
  have hp := two_le_two_pow j hj
  have hkp : 2 ≤ k * 2 ^ j := by
    calc 2 ≤ 2 ^ j := hp
      _ = 1 * 2 ^ j := (Nat.one_mul _).symm
      _ ≤ k * 2 ^ j := Nat.mul_le_mul_right _ hk
  have hmask : (((2 ^ j - 1 : Nat)) : Int) ≠ 0 := by
    intro h0
    have : (2 ^ j - 1 : Nat) = 0 := by exact_mod_cast h0
    omega
  constructor
  · intro hl
    have hb := body_ne_nil_of_body_length_pos message (by omega)
    rw [pushes_of_nonempty _ _ hb, land_two_pow_sub_one, hl, Nat.mul_mod_left,
      if_pos ⟨hmask, rfl⟩]
  · intro hl
    have hb := body_ne_nil_of_body_length_pos message (by omega)
    rw [pushes_of_nonempty _ _ hb, land_two_pow_sub_one, hl,
      mul_two_pow_sub_one_mod j k hj hk, if_neg (fun h => hmask h.2)]

/-- Witness for C10: max packet size 64; a WRTE body of 64 bytes and one of 63 bytes. -/
theorem C10_zero_length_chunk_witness :
    (Queue.pushes 63 ⟨kCommandWRTE, 1, 257, List.replicate 64 97⟩).map Prod.snd = [24, 64, 0]
    ∧ (Queue.pushes 63 ⟨kCommandWRTE, 1, 257, List.replicate 63 97⟩).map Prod.snd
      = [24, 63] := by
  have h := C10_zero_length_chunk 6 1 (by decide) (by decide)
  constructor
  · show (Queue.pushes (((2 ^ 6 - 1 : Nat)) : Int) _).map Prod.snd = _
    rw [(h ⟨kCommandWRTE, 1, 257, List.replicate 64 97⟩).1 (by decide)]
    rfl
  · show (Queue.pushes (((2 ^ 6 - 1 : Nat)) : Int) _).map Prod.snd = _
    rw [(h ⟨kCommandWRTE, 1, 257, List.replicate 63 97⟩).2 (by decide)]
    rfl

/-- C10 (as stated) fails: with max packet size 64 (zero_mask 63) and k = 1, a
stream-open message whose body has exactly 64 bytes is transmitted as 65 bytes (a zero
byte is appended) and no zero-length chunk follows; one whose body has 63 bytes is
transmitted as 64 bytes and a zero-length chunk follows. -/
theorem C10_zero_length_chunk_counterexample :
    (List.replicate 64 (97 : Byte)).length = 1 * 64
    ∧ (Queue.pushes 63 ⟨kCommandOPEN, 257, 0, List.replicate 64 97⟩).map Prod.snd = [24, 65]
    ∧ (List.replicate 63 (97 : Byte)).length = 1 * 64 - 1
    ∧ (Queue.pushes 63 ⟨kCommandOPEN, 257, 0, List.replicate 63 97⟩).map Prod.snd
      = [24, 64, 0] := by
  decide

/-- C11: outgoing chunks are handed to the transport in strict FIFO order. `Queue`
appends the chunks of its message at the tail of the outgoing queue (header, then body,
then the zero-length chunk, contiguously) before it calls `ProcessOutgoing`, and
`ProcessOutgoing` removes only the head; so after every sequence of `Queue` and
`ProcessOutgoing` calls the chunks handed to the transport, followed by the chunks still
queued, are the chunks queued at the start followed by the chunks of the queued
messages in call order. In particular the chunks handed over are an initial segment of
that sequence, and on a device that starts with an empty queue an initial segment of the
concatenation of the chunks of the queued messages. -/
theorem C11_fifo (d : AndroidUsbDevice) (calls : List OutgoingCall) :
    transferred (runOutgoing d [] calls).2 ++ (runOutgoing d [] calls).1.outgoing_queue_
      = d.outgoing_queue_ ++ queuedChunks d.zero_mask_ calls
    ∧ transferred (runOutgoing d [] calls).2
        <+: d.outgoing_queue_ ++ queuedChunks d.zero_mask_ calls
    ∧ (∀ zero_mask : Int,
        transferred (runOutgoing (AndroidUsbDevice.members zero_mask) [] calls).2
          <+: queuedChunks zero_mask calls)
    ∧ (∀ message : AdbMessage,
        Queue d message = ProcessOutgoing
          { d with outgoing_queue_ := d.outgoing_queue_ ++ Queue.pushes d.zero_mask_ message }
        ∧ (Queue.pushes d.zero_mask_ message = [(Queue.header_buffer message, 24)]
          ∨ Queue.pushes d.zero_mask_ message
              = [(Queue.header_buffer message, 24),
                 (Queue.body_buffer message, Queue.body_length message)]
          ∨ Queue.pushes d.zero_mask_ message
              = [(Queue.header_buffer message, 24),
                 (Queue.body_buffer message, Queue.body_length message),
                 (Queue.body_buffer message, 0)]))
    ∧ (ProcessOutgoing d = (d, [])
      ∨ ∃ head rest, d.outgoing_queue_ = head :: rest
          ∧ ProcessOutgoing d
            = ({ d with outgoing_queue_ := rest },
               [Effect.BulkTransferOutbound head.1 head.2])) := by
  have h := (runOutgoing_frame calls d []).2
  have h1 : transferred (runOutgoing d [] calls).2 ++ (runOutgoing d [] calls).1.outgoing_queue_
      = d.outgoing_queue_ ++ queuedChunks d.zero_mask_ calls := by
    rw [h]; rfl
  refine ⟨h1, ⟨_, h1⟩, ?_, ?_, ?_⟩
  · intro zero_mask
    have h2 := (runOutgoing_frame calls (AndroidUsbDevice.members zero_mask) []).2
    exact ⟨_, h2⟩
  · intro message
    refine ⟨rfl, ?_⟩
    by_cases hb : message.body = []
    · exact Or.inl (pushes_of_empty _ _ hb)
    · rw [pushes_of_nonempty _ _ hb]
      split
      · exact Or.inr (Or.inr rfl)
      · exact Or.inr (Or.inl rfl)
  · rcases ProcessOutgoing_cases d with ⟨h, _⟩ | ⟨m, rest, hq, _, h⟩
    · exact Or.inl h
    · exact Or.inr ⟨m, rest, hq, h⟩

/-- C12: when `HandleIncoming` receives CNXN the link becomes connected, the pending
queue is left empty, and within that step the chunks of the pending messages are
appended, in submission order, behind the chunks already queued (those handed to the
transport during the step are taken from the head). Messages sent while the link is not
connected are kept in the pending queue in submission order; a message sent after CNXN
is queued behind the drained ones; a later CNXN queues nothing. The chunks of a message
are its 24-byte header of six words, then, for a non-empty body, the body chunk and,
when the test on zero_mask succeeds, a zero-length chunk. -/
theorem C12_cnxn_drains_pending (d : AndroidUsbDevice)
    (AndroidRSASign : List Byte → List Byte) (AndroidRSAPublicKey : List Byte)
    (HasOneRef : Bool) (SocketHandleIncoming : AndroidUsbSocket → AdbMessage → List Reentry)
    (message : AdbMessage) (hc : message.command = kCommandCNXN) :
    (HandleIncoming d AndroidRSASign AndroidRSAPublicKey HasOneRef SocketHandleIncoming message).1.is_connected_
      = true
    ∧ (HandleIncoming d AndroidRSASign AndroidRSAPublicKey HasOneRef SocketHandleIncoming message).1.pending_messages_
      = []
    ∧ transferred (HandleIncoming d AndroidRSASign AndroidRSAPublicKey HasOneRef SocketHandleIncoming message).2
        ++ (HandleIncoming d AndroidRSASign AndroidRSAPublicKey HasOneRef SocketHandleIncoming message).1.outgoing_queue_
      = d.outgoing_queue_ ++ chunksOf d.zero_mask_ d.pending_messages_
    ∧ (∀ (messages : List AdbMessage) (d0 : AndroidUsbDevice), d0.is_connected_ = false →
        SendAll d0 [] messages
          = ({ d0 with pending_messages_ := d0.pending_messages_ ++ messages }, []))
    ∧ (∀ (command arg0 arg1 : uint32) (body : List Byte),
        transferred
            ((HandleIncoming d AndroidRSASign AndroidRSAPublicKey HasOneRef SocketHandleIncoming message).2
              ++ (Send (HandleIncoming d AndroidRSASign AndroidRSAPublicKey HasOneRef SocketHandleIncoming message).1
                    command arg0 arg1 body).2)
          ++ (Send (HandleIncoming d AndroidRSASign AndroidRSAPublicKey HasOneRef SocketHandleIncoming message).1
                command arg0 arg1 body).1.outgoing_queue_
        = d.outgoing_queue_ ++ chunksOf d.zero_mask_ d.pending_messages_
          ++ Queue.pushes d.zero_mask_ ⟨command, arg0, arg1, body⟩)
    ∧ (∀ (later : AdbMessage) (HasOneRef2 : Bool), later.command = kCommandCNXN →
        transferred
            (HandleIncoming (HandleIncoming d AndroidRSASign AndroidRSAPublicKey HasOneRef SocketHandleIncoming message).1
              AndroidRSASign AndroidRSAPublicKey HasOneRef2 SocketHandleIncoming later).2
          ++ (HandleIncoming (HandleIncoming d AndroidRSASign AndroidRSAPublicKey HasOneRef SocketHandleIncoming message).1
              AndroidRSASign AndroidRSAPublicKey HasOneRef2 SocketHandleIncoming
              later).1.outgoing_queue_
        = (HandleIncoming d AndroidRSASign AndroidRSAPublicKey HasOneRef SocketHandleIncoming message).1.outgoing_queue_)
    ∧ (∀ (zero_mask_ : Int) (messages : List AdbMessage),
        chunksOf zero_mask_ messages
          = messages.flatMap (fun m =>
            (uint32Bytes m.command ++ uint32Bytes m.arg0 ++ uint32Bytes m.arg1
              ++ uint32Bytes (toUint32 (Queue.body_length m))
              ++ uint32Bytes (Checksum m.body)
              ++ uint32Bytes (toUint32 (m.command.val ^^^ 0xffffffff)), 24)
            :: (if m.body = [] then []
                else (Queue.body_buffer m, Queue.body_length m)
                  :: (if zero_mask_ ≠ 0 ∧ Int.land (Queue.body_length m) zero_mask_ = 0
                      then [(Queue.body_buffer m, 0)] else []))))
    ∧ (∀ (zero_mask_ : Int) (m : AdbMessage),
        Queue.pushes zero_mask_ m
          = (uint32Bytes m.command ++ uint32Bytes m.arg0 ++ uint32Bytes m.arg1
              ++ uint32Bytes (toUint32 (Queue.body_length m))
              ++ uint32Bytes (Checksum m.body)
              ++ uint32Bytes (toUint32 (m.command.val ^^^ 0xffffffff)), 24)
            :: (if m.body = [] then []
                else (Queue.body_buffer m, Queue.body_length m)
                  :: (if zero_mask_ ≠ 0 ∧ Int.land (Queue.body_length m) zero_mask_ = 0
                      then [(Queue.body_buffer m, 0)] else []))) := by
  -- the step on any device, for any CNXN message
  have step : ∀ (d : AndroidUsbDevice) (HasOneRef : Bool) (message : AdbMessage),
      message.command = kCommandCNXN →
      (∃ queue, (HandleIncoming d AndroidRSASign AndroidRSAPublicKey HasOneRef SocketHandleIncoming message).1
        = { d with is_connected_ := true, pending_messages_ := [], outgoing_queue_ := queue })
      ∧ transferred (HandleIncoming d AndroidRSASign AndroidRSAPublicKey HasOneRef SocketHandleIncoming message).2
          ++ (HandleIncoming d AndroidRSASign AndroidRSAPublicKey HasOneRef SocketHandleIncoming message).1.outgoing_queue_
        = d.outgoing_queue_ ++ chunksOf d.zero_mask_ d.pending_messages_ := by
    intro d HasOneRef message hc
    have hd := dispatch_CNXN d AndroidRSASign AndroidRSAPublicKey SocketHandleIncoming
      message hc
    obtain ⟨⟨q, h1⟩, h2, _⟩ := QueueAll_frame d.pending_messages_
      { d with is_connected_ := true, pending_messages_ := [] } []
    obtain ⟨r1, r2, _⟩ := ReadHeader_frame
      (QueueAll { d with is_connected_ := true, pending_messages_ := [] } []
        d.pending_messages_).1 false HasOneRef
    unfold HandleIncoming
    simp only [hd, r1, transferred_append, r2, List.append_nil]
    exact ⟨⟨q, h1⟩, by simpa [transferred] using h2⟩
  obtain ⟨⟨q, hq⟩, hchunks⟩ := step d HasOneRef message hc
  refine ⟨by rw [hq], by rw [hq], hchunks, ?_, ?_, ?_, chunksOf_explicit, pushes_explicit⟩
  · intro messages d0 h0
    exact SendAll_pending messages d0 [] h0
  · intro command arg0 arg1 body
    have hconn : (HandleIncoming d AndroidRSASign AndroidRSAPublicKey HasOneRef SocketHandleIncoming message).1.is_connected_
        = true := by rw [hq]
    have hz : (HandleIncoming d AndroidRSASign AndroidRSAPublicKey HasOneRef SocketHandleIncoming message).1.zero_mask_
        = d.zero_mask_ := by rw [hq]
    have hs : Send (HandleIncoming d AndroidRSASign AndroidRSAPublicKey HasOneRef SocketHandleIncoming message).1
          command arg0 arg1 body
        = Queue (HandleIncoming d AndroidRSASign AndroidRSAPublicKey HasOneRef SocketHandleIncoming message).1
            ⟨command, arg0, arg1, body⟩ := by
      simp [Send, hconn]
    obtain ⟨_, h2, _⟩ := Queue_frame
      (HandleIncoming d AndroidRSASign AndroidRSAPublicKey HasOneRef SocketHandleIncoming message).1
      ⟨command, arg0, arg1, body⟩
    rw [hs, transferred_append, List.append_assoc, h2, hz, ← List.append_assoc, hchunks]
  · intro later HasOneRef2 hl
    obtain ⟨_, h2⟩ := step
      (HandleIncoming d AndroidRSASign AndroidRSAPublicKey HasOneRef SocketHandleIncoming message).1 HasOneRef2 later hl
    have hp : (HandleIncoming d AndroidRSASign AndroidRSAPublicKey HasOneRef SocketHandleIncoming message).1.pending_messages_
        = [] := by rw [hq]
    rw [h2, hp]
    simp [chunksOf]

/-- Witness for C12: two stream-open requests sent before the handshake completes, then
CNXN from the peer: behind the body chunk of the connection message that was still
queued come the header and the body chunk of each request, byte for byte. -/
theorem C12_cnxn_drains_pending_witness :
    (HandleIncoming
        (SendAll (AndroidUsbDevice.construct 63).1 []
          [⟨kCommandOPEN, 257, 0, [115, 104, 101, 108, 108, 58]⟩,
           ⟨kCommandOPEN, 258, 0, [115, 121, 110, 99, 58]⟩]).1
        (fun _ => []) [] false (fun _ _ => [])
        ⟨kCommandCNXN, kVersion, kMaxPayload, []⟩).1.is_connected_ = true
    ∧ (HandleIncoming
        (SendAll (AndroidUsbDevice.construct 63).1 []
          [⟨kCommandOPEN, 257, 0, [115, 104, 101, 108, 108, 58]⟩,
           ⟨kCommandOPEN, 258, 0, [115, 121, 110, 99, 58]⟩]).1
        (fun _ => []) [] false (fun _ _ => [])
        ⟨kCommandCNXN, kVersion, kMaxPayload, []⟩).1.pending_messages_
      = []
    ∧ transferred (HandleIncoming
          (SendAll (AndroidUsbDevice.construct 63).1 []
            [⟨kCommandOPEN, 257, 0, [115, 104, 101, 108, 108, 58]⟩,
             ⟨kCommandOPEN, 258, 0, [115, 121, 110, 99, 58]⟩]).1
          (fun _ => []) [] false (fun _ _ => [])
          ⟨kCommandCNXN, kVersion, kMaxPayload, []⟩).2
        ++ (HandleIncoming
          (SendAll (AndroidUsbDevice.construct 63).1 []
            [⟨kCommandOPEN, 257, 0, [115, 104, 101, 108, 108, 58]⟩,
             ⟨kCommandOPEN, 258, 0, [115, 121, 110, 99, 58]⟩]).1
          (fun _ => []) [] false (fun _ _ => [])
          ⟨kCommandCNXN, kVersion, kMaxPayload, []⟩).1.outgoing_queue_
      = [([104, 111, 115, 116, 58, 58, 0], 7),
         ([79, 80, 69, 78, 1, 1, 0, 0, 0, 0, 0, 0, 7, 0, 0, 0, 82, 2, 0, 0,
           176, 175, 186, 177], 24),
         ([115, 104, 101, 108, 108, 58, 0], 7),
         ([79, 80, 69, 78, 2, 1, 0, 0, 0, 0, 0, 0, 6, 0, 0, 0, 247, 1, 0, 0,
           176, 175, 186, 177], 24),
         ([115, 121, 110, 99, 58, 0], 6)] :=
  ⟨(C12_cnxn_drains_pending _ (fun _ => []) [] false (fun _ _ => [])
      ⟨kCommandCNXN, kVersion, kMaxPayload, []⟩ rfl).1,
   (C12_cnxn_drains_pending _ (fun _ => []) [] false (fun _ _ => [])
      ⟨kCommandCNXN, kVersion, kMaxPayload, []⟩ rfl).2.1,
   (C12_cnxn_drains_pending _ (fun _ => []) [] false (fun _ _ => [])
      ⟨kCommandCNXN, kVersion, kMaxPayload, []⟩ rfl).2.2.1.trans (by decide)⟩

/-- C13: while the link is not connected, `Send` only appends the message at the end of
the pending queue (outgoing queue unchanged, no call on the transport); while it is
connected, `Send` is `Queue` of that message and the pending queue is unchanged. -/
theorem C13_send (d : AndroidUsbDevice) (command arg0 arg1 : uint32) (body : List Byte) :
    (d.is_connected_ = false →
      Send d command arg0 arg1 body
        = ({ d with pending_messages_ := d.pending_messages_ ++ [⟨command, arg0, arg1, body⟩] },
           [])
      ∧ (Send d command arg0 arg1 body).1.outgoing_queue_ = d.outgoing_queue_)
    ∧ (d.is_connected_ = true →
      Send d command arg0 arg1 body = Queue d ⟨command, arg0, arg1, body⟩
      ∧ (Send d command arg0 arg1 body).1.pending_messages_ = d.pending_messages_) := by
  constructor
  · intro h
    have hs : Send d command arg0 arg1 body
        = ({ d with pending_messages_ := d.pending_messages_ ++ [⟨command, arg0, arg1, body⟩] },
           []) := by
      simp [Send, h]
    exact ⟨hs, by rw [hs]⟩
  · intro h
    have hs : Send d command arg0 arg1 body = Queue d ⟨command, arg0, arg1, body⟩ := by
      simp [Send, h]
    obtain ⟨⟨q, hq⟩, _, _⟩ := Queue_frame d ⟨command, arg0, arg1, body⟩
    exact ⟨hs, by rw [hs, hq]⟩

/-- C14: when `HandleIncoming` receives AUTH(TOKEN) with body T while signature_sent is
false and the signer returns a non-empty signature S for T, the device queues exactly
one message, AUTH with arg0 = kAuthSignature, arg1 = 0 and body S, and signature_sent
becomes true; nothing else of the device changes and no stream is called. The chunks
queued are the 24-byte header (the words AUTH, 2, 0, the length of S, the checksum of S,
AUTH XOR 0xFFFFFFFF), the chunk S itself, and a zero-length chunk when the test on
zero_mask succeeds. -/
theorem C14_auth_signature (d : AndroidUsbDevice)
    (AndroidRSASign : List Byte → List Byte) (AndroidRSAPublicKey : List Byte)
    (HasOneRef : Bool) (SocketHandleIncoming : AndroidUsbSocket → AdbMessage → List Reentry)
    (message : AdbMessage)
    (hc : message.command = kCommandAUTH) (_ht : message.arg0 = kAuthToken)
    (hs : d.signature_sent_ = false) (hne : AndroidRSASign message.body ≠ []) :
    (HandleIncoming d AndroidRSASign AndroidRSAPublicKey HasOneRef SocketHandleIncoming message).1.signature_sent_
      = true
    ∧ (∃ queue, (HandleIncoming d AndroidRSASign AndroidRSAPublicKey HasOneRef SocketHandleIncoming message).1
        = { d with signature_sent_ := true, outgoing_queue_ := queue })
    ∧ transferred (HandleIncoming d AndroidRSASign AndroidRSAPublicKey HasOneRef SocketHandleIncoming message).2
        ++ (HandleIncoming d AndroidRSASign AndroidRSAPublicKey HasOneRef SocketHandleIncoming message).1.outgoing_queue_
      = d.outgoing_queue_
        ++ (uint32Bytes kCommandAUTH ++ uint32Bytes kAuthSignature ++ uint32Bytes 0
            ++ uint32Bytes (toUint32 (AndroidRSASign message.body).length)
            ++ uint32Bytes (Checksum (AndroidRSASign message.body))
            ++ uint32Bytes (toUint32 (kCommandAUTH.val ^^^ 0xffffffff)), 24)
          :: (AndroidRSASign message.body, (AndroidRSASign message.body).length)
          :: (if d.zero_mask_ ≠ 0
                ∧ Int.land (AndroidRSASign message.body).length d.zero_mask_ = 0
              then [(AndroidRSASign message.body, 0)] else [])
    ∧ Queue.pushes d.zero_mask_ ⟨kCommandAUTH, kAuthSignature, 0, AndroidRSASign message.body⟩
      = (uint32Bytes kCommandAUTH ++ uint32Bytes kAuthSignature ++ uint32Bytes 0
            ++ uint32Bytes (toUint32 (AndroidRSASign message.body).length)
            ++ uint32Bytes (Checksum (AndroidRSASign message.body))
            ++ uint32Bytes (toUint32 (kCommandAUTH.val ^^^ 0xffffffff)), 24)
          :: (AndroidRSASign message.body, (AndroidRSASign message.body).length)
          :: (if d.zero_mask_ ≠ 0
                ∧ Int.land (AndroidRSASign message.body).length d.zero_mask_ = 0
              then [(AndroidRSASign message.body, 0)] else [])
    ∧ forwarded (HandleIncoming d AndroidRSASign AndroidRSAPublicKey HasOneRef SocketHandleIncoming message).2
      = [] := by
  have he : (AndroidRSASign message.body).isEmpty = false := isEmpty_eq_false hne
  have hd : HandleIncoming.dispatch d AndroidRSASign AndroidRSAPublicKey SocketHandleIncoming
      message
      = Queue { d with signature_sent_ := true }
          ⟨kCommandAUTH, kAuthSignature, 0, AndroidRSASign message.body⟩ := by
    rw [dispatch_AUTH _ _ _ _ _ hc]
    simp [hs, he]
  obtain ⟨⟨q, h1⟩, h2, h3⟩ := Queue_then_ReadHeader { d with signature_sent_ := true }
    ⟨kCommandAUTH, kAuthSignature, 0, AndroidRSASign message.body⟩ HasOneRef
  have hp := pushes_signature d.zero_mask_ (AndroidRSASign message.body) hne
  unfold HandleIncoming
  simp only [hd]
  exact ⟨by rw [h1], ⟨q, h1⟩, by rw [← hp]; exact h2, hp, h3⟩

/-- Witness for C14: a fresh device, a 20-byte token, a signer returning three bytes:
behind the body chunk of the connection message that was still queued come the header
of AUTH(SIGNATURE) and the three bytes, byte for byte. -/
theorem C14_auth_signature_witness :
    (HandleIncoming (AndroidUsbDevice.construct 63).1 (fun _ => [7, 8, 9]) [81, 65, 65] false
        (fun _ _ => []) ⟨kCommandAUTH, kAuthToken, 0, List.replicate 20 1⟩).1.signature_sent_
      = true
    ∧ forwarded (HandleIncoming (AndroidUsbDevice.construct 63).1 (fun _ => [7, 8, 9])
        [81, 65, 65] false (fun _ _ => [])
        ⟨kCommandAUTH, kAuthToken, 0, List.replicate 20 1⟩).2 = []
    ∧ transferred (HandleIncoming (AndroidUsbDevice.construct 63).1 (fun _ => [7, 8, 9])
          [81, 65, 65] false (fun _ _ => [])
          ⟨kCommandAUTH, kAuthToken, 0, List.replicate 20 1⟩).2
        ++ (HandleIncoming (AndroidUsbDevice.construct 63).1 (fun _ => [7, 8, 9])
          [81, 65, 65] false (fun _ _ => [])
          ⟨kCommandAUTH, kAuthToken, 0, List.replicate 20 1⟩).1.outgoing_queue_
      = [([104, 111, 115, 116, 58, 58, 0], 7),
         ([65, 85, 84, 72, 2, 0, 0, 0, 0, 0, 0, 0, 3, 0, 0, 0, 24, 0, 0, 0,
           190, 170, 171, 183], 24),
         ([7, 8, 9], 3)] :=
  ⟨(C14_auth_signature (AndroidUsbDevice.construct 63).1 (fun _ => [7, 8, 9]) [81, 65, 65]
      false (fun _ _ => []) ⟨kCommandAUTH, kAuthToken, 0, List.replicate 20 1⟩ rfl rfl
      (by decide) (by decide)).1,
   (C14_auth_signature (AndroidUsbDevice.construct 63).1 (fun _ => [7, 8, 9]) [81, 65, 65]
      false (fun _ _ => []) ⟨kCommandAUTH, kAuthToken, 0, List.replicate 20 1⟩ rfl rfl
      (by decide) (by decide)).2.2.2.2,
   (C14_auth_signature (AndroidUsbDevice.construct 63).1 (fun _ => [7, 8, 9]) [81, 65, 65]
      false (fun _ _ => []) ⟨kCommandAUTH, kAuthToken, 0, List.replicate 20 1⟩ rfl rfl
      (by decide) (by decide)).2.2.1.trans (by decide)⟩

/-- C15: when `HandleIncoming` receives AUTH(TOKEN) while signature_sent is true, the
device queues exactly one message, AUTH with arg0 = kAuthRSAPublicKey, arg1 = 0 and the
public key blob as body, whatever the signer would return (no SIGNATURE message), and
signature_sent stays true; nothing else of the device changes. The chunks queued are the
24-byte header (the words AUTH, 3, 0, the transmitted length, the checksum of the blob,
AUTH XOR 0xFFFFFFFF) and, for a non-empty blob, the blob followed by a zero byte, with a
zero-length chunk behind it when the test on zero_mask succeeds. -/
theorem C15_auth_public_key (d : AndroidUsbDevice)
    (AndroidRSASign : List Byte → List Byte) (AndroidRSAPublicKey : List Byte)
    (HasOneRef : Bool) (SocketHandleIncoming : AndroidUsbSocket → AdbMessage → List Reentry)
    (message : AdbMessage)
    (hc : message.command = kCommandAUTH) (_ht : message.arg0 = kAuthToken)
    (hs : d.signature_sent_ = true) :
    (HandleIncoming d AndroidRSASign AndroidRSAPublicKey HasOneRef SocketHandleIncoming message).1.signature_sent_
      = true
    ∧ (∃ queue, (HandleIncoming d AndroidRSASign AndroidRSAPublicKey HasOneRef SocketHandleIncoming message).1
        = { d with outgoing_queue_ := queue })
    ∧ transferred (HandleIncoming d AndroidRSASign AndroidRSAPublicKey HasOneRef SocketHandleIncoming message).2
        ++ (HandleIncoming d AndroidRSASign AndroidRSAPublicKey HasOneRef SocketHandleIncoming message).1.outgoing_queue_
      = d.outgoing_queue_
        ++ (uint32Bytes kCommandAUTH ++ uint32Bytes kAuthRSAPublicKey ++ uint32Bytes 0
            ++ uint32Bytes (toUint32
                (if AndroidRSAPublicKey = [] then 0 else AndroidRSAPublicKey.length + 1))
            ++ uint32Bytes (Checksum AndroidRSAPublicKey)
            ++ uint32Bytes (toUint32 (kCommandAUTH.val ^^^ 0xffffffff)), 24)
          :: (if AndroidRSAPublicKey = [] then []
              else (AndroidRSAPublicKey ++ [0], AndroidRSAPublicKey.length + 1)
                :: (if d.zero_mask_ ≠ 0
                      ∧ Int.land ((AndroidRSAPublicKey.length + 1 : Nat) : Int) d.zero_mask_ = 0
                    then [(AndroidRSAPublicKey ++ [0], 0)] else []))
    ∧ Queue.pushes d.zero_mask_ ⟨kCommandAUTH, kAuthRSAPublicKey, 0, AndroidRSAPublicKey⟩
      = (uint32Bytes kCommandAUTH ++ uint32Bytes kAuthRSAPublicKey ++ uint32Bytes 0
            ++ uint32Bytes (toUint32
                (if AndroidRSAPublicKey = [] then 0 else AndroidRSAPublicKey.length + 1))
            ++ uint32Bytes (Checksum AndroidRSAPublicKey)
            ++ uint32Bytes (toUint32 (kCommandAUTH.val ^^^ 0xffffffff)), 24)
          :: (if AndroidRSAPublicKey = [] then []
              else (AndroidRSAPublicKey ++ [0], AndroidRSAPublicKey.length + 1)
                :: (if d.zero_mask_ ≠ 0
                      ∧ Int.land ((AndroidRSAPublicKey.length + 1 : Nat) : Int) d.zero_mask_ = 0
                    then [(AndroidRSAPublicKey ++ [0], 0)] else []))
    ∧ forwarded (HandleIncoming d AndroidRSASign AndroidRSAPublicKey HasOneRef SocketHandleIncoming message).2 = []
    ∧ ∀ otherSign : List Byte → List Byte,
        HandleIncoming d otherSign AndroidRSAPublicKey HasOneRef SocketHandleIncoming message
          = HandleIncoming d AndroidRSASign AndroidRSAPublicKey HasOneRef SocketHandleIncoming message := by
  have hd : ∀ sign : List Byte → List Byte,
      HandleIncoming.dispatch d sign AndroidRSAPublicKey SocketHandleIncoming message
        = Queue d ⟨kCommandAUTH, kAuthRSAPublicKey, 0, AndroidRSAPublicKey⟩ := by
    intro sign
    rw [dispatch_AUTH _ _ _ _ _ hc]
    simp [hs]
  obtain ⟨⟨q, h1⟩, h2, h3⟩ := Queue_then_ReadHeader d
    ⟨kCommandAUTH, kAuthRSAPublicKey, 0, AndroidRSAPublicKey⟩ HasOneRef
  have hp := pushes_public_key d.zero_mask_ AndroidRSAPublicKey
  unfold HandleIncoming
  simp only [hd]
  exact ⟨by rw [h1, hs], ⟨q, h1⟩, by rw [← hp]; exact h2, hp, h3, fun _ => trivial⟩

/-- Witness for C15: a second AUTH(TOKEN) after the signature was sent: behind the chunks
of AUTH(SIGNATURE) come the header of AUTH(RSAPUBLICKEY) and the key blob with its
terminating zero, byte for byte. -/
theorem C15_auth_public_key_witness :
    transferred
        (HandleIncoming
          (HandleIncoming (AndroidUsbDevice.construct 63).1 (fun _ => [7, 8, 9]) [81, 65, 65]
            false (fun _ _ => []) ⟨kCommandAUTH, kAuthToken, 0, List.replicate 20 1⟩).1
          (fun _ => [7, 8, 9]) [81, 65, 65] false (fun _ _ => [])
          ⟨kCommandAUTH, kAuthToken, 0, List.replicate 20 2⟩).2
      ++ (HandleIncoming
          (HandleIncoming (AndroidUsbDevice.construct 63).1 (fun _ => [7, 8, 9]) [81, 65, 65]
            false (fun _ _ => []) ⟨kCommandAUTH, kAuthToken, 0, List.replicate 20 1⟩).1
          (fun _ => [7, 8, 9]) [81, 65, 65] false (fun _ _ => [])
          ⟨kCommandAUTH, kAuthToken, 0, List.replicate 20 2⟩).1.outgoing_queue_
      = [([65, 85, 84, 72, 2, 0, 0, 0, 0, 0, 0, 0, 3, 0, 0, 0, 24, 0, 0, 0,
           190, 170, 171, 183], 24),
         ([7, 8, 9], 3),
         ([65, 85, 84, 72, 3, 0, 0, 0, 0, 0, 0, 0, 4, 0, 0, 0, 211, 0, 0, 0,
           190, 170, 171, 183], 24),
         ([81, 65, 65, 0], 4)] :=
  (C15_auth_public_key
    (HandleIncoming (AndroidUsbDevice.construct 63).1 (fun _ => [7, 8, 9]) [81, 65, 65]
      false (fun _ _ => []) ⟨kCommandAUTH, kAuthToken, 0, List.replicate 20 1⟩).1
    (fun _ => [7, 8, 9]) [81, 65, 65] false (fun _ _ => [])
    ⟨kCommandAUTH, kAuthToken, 0, List.replicate 20 2⟩ rfl rfl (by decide)).2.2.1.trans
    (by decide)

/-- C16 (as amended): when `HandleIncoming` receives AUTH(TOKEN) while signature_sent is
false and signing fails (the signer returns an empty signature), the device queues
exactly one message, AUTH with arg0 = kAuthRSAPublicKey, arg1 = 0 and the public key
blob as body, and signature_sent is true afterwards (it is set before the signer is
called); nothing else of the device changes. The chunks queued are the 24-byte header
(the words AUTH, 3, 0, the transmitted length, the checksum of the blob, AUTH XOR
0xFFFFFFFF) and, for a non-empty blob, the blob followed by a zero byte, with a
zero-length chunk behind it when the test on zero_mask succeeds. -/
theorem C16_auth_sign_fails (d : AndroidUsbDevice)
    (AndroidRSASign : List Byte → List Byte) (AndroidRSAPublicKey : List Byte)
    (HasOneRef : Bool) (SocketHandleIncoming : AndroidUsbSocket → AdbMessage → List Reentry)
    (message : AdbMessage)
    (hc : message.command = kCommandAUTH) (_ht : message.arg0 = kAuthToken)
    (hs : d.signature_sent_ = false) (he : AndroidRSASign message.body = []) :
    (HandleIncoming d AndroidRSASign AndroidRSAPublicKey HasOneRef SocketHandleIncoming message).1.signature_sent_
      = true
    ∧ (∃ queue, (HandleIncoming d AndroidRSASign AndroidRSAPublicKey HasOneRef SocketHandleIncoming message).1
        = { d with signature_sent_ := true, outgoing_queue_ := queue })
    ∧ transferred (HandleIncoming d AndroidRSASign AndroidRSAPublicKey HasOneRef SocketHandleIncoming message).2
        ++ (HandleIncoming d AndroidRSASign AndroidRSAPublicKey HasOneRef SocketHandleIncoming message).1.outgoing_queue_
      = d.outgoing_queue_
        ++ (uint32Bytes kCommandAUTH ++ uint32Bytes kAuthRSAPublicKey ++ uint32Bytes 0
            ++ uint32Bytes (toUint32
                (if AndroidRSAPublicKey = [] then 0 else AndroidRSAPublicKey.length + 1))
            ++ uint32Bytes (Checksum AndroidRSAPublicKey)
            ++ uint32Bytes (toUint32 (kCommandAUTH.val ^^^ 0xffffffff)), 24)
          :: (if AndroidRSAPublicKey = [] then []
              else (AndroidRSAPublicKey ++ [0], AndroidRSAPublicKey.length + 1)
                :: (if d.zero_mask_ ≠ 0
                      ∧ Int.land ((AndroidRSAPublicKey.length + 1 : Nat) : Int) d.zero_mask_ = 0
                    then [(AndroidRSAPublicKey ++ [0], 0)] else []))
    ∧ Queue.pushes d.zero_mask_ ⟨kCommandAUTH, kAuthRSAPublicKey, 0, AndroidRSAPublicKey⟩
      = (uint32Bytes kCommandAUTH ++ uint32Bytes kAuthRSAPublicKey ++ uint32Bytes 0
            ++ uint32Bytes (toUint32
                (if AndroidRSAPublicKey = [] then 0 else AndroidRSAPublicKey.length + 1))
            ++ uint32Bytes (Checksum AndroidRSAPublicKey)
            ++ uint32Bytes (toUint32 (kCommandAUTH.val ^^^ 0xffffffff)), 24)
          :: (if AndroidRSAPublicKey = [] then []
              else (AndroidRSAPublicKey ++ [0], AndroidRSAPublicKey.length + 1)
                :: (if d.zero_mask_ ≠ 0
                      ∧ Int.land ((AndroidRSAPublicKey.length + 1 : Nat) : Int) d.zero_mask_ = 0
                    then [(AndroidRSAPublicKey ++ [0], 0)] else []))
    ∧ forwarded (HandleIncoming d AndroidRSASign AndroidRSAPublicKey HasOneRef SocketHandleIncoming message).2
      = [] := by
  have hd : HandleIncoming.dispatch d AndroidRSASign AndroidRSAPublicKey SocketHandleIncoming
      message
      = Queue { d with signature_sent_ := true }
          ⟨kCommandAUTH, kAuthRSAPublicKey, 0, AndroidRSAPublicKey⟩ := by
    rw [dispatch_AUTH _ _ _ _ _ hc]
    simp [hs, he]
  obtain ⟨⟨q, h1⟩, h2, h3⟩ := Queue_then_ReadHeader { d with signature_sent_ := true }
    ⟨kCommandAUTH, kAuthRSAPublicKey, 0, AndroidRSAPublicKey⟩ HasOneRef
  have hp := pushes_public_key d.zero_mask_ AndroidRSAPublicKey
  unfold HandleIncoming
  simp only [hd]
  exact ⟨by rw [h1], ⟨q, h1⟩, by rw [← hp]; exact h2, hp, h3⟩

/-- Witness for C16: a fresh device and a signer that fails: behind the body chunk of the
connection message that was still queued come the header of AUTH(RSAPUBLICKEY) and the
key blob with its terminating zero, byte for byte. -/
theorem C16_auth_sign_fails_witness :
    forwarded (HandleIncoming (AndroidUsbDevice.construct 63).1 (fun _ => []) [81, 65, 65]
        false (fun _ _ => []) ⟨kCommandAUTH, kAuthToken, 0, List.replicate 20 1⟩).2 = []
    ∧ transferred (HandleIncoming (AndroidUsbDevice.construct 63).1 (fun _ => []) [81, 65, 65]
          false (fun _ _ => []) ⟨kCommandAUTH, kAuthToken, 0, List.replicate 20 1⟩).2
        ++ (HandleIncoming (AndroidUsbDevice.construct 63).1 (fun _ => []) [81, 65, 65]
          false (fun _ _ => [])
          ⟨kCommandAUTH, kAuthToken, 0, List.replicate 20 1⟩).1.outgoing_queue_
      = [([104, 111, 115, 116, 58, 58, 0], 7),
         ([65, 85, 84, 72, 3, 0, 0, 0, 0, 0, 0, 0, 4, 0, 0, 0, 211, 0, 0, 0,
           190, 170, 171, 183], 24),
         ([81, 65, 65, 0], 4)] :=
  ⟨(C16_auth_sign_fails (AndroidUsbDevice.construct 63).1 (fun _ => []) [81, 65, 65]
      false (fun _ _ => []) ⟨kCommandAUTH, kAuthToken, 0, List.replicate 20 1⟩ rfl rfl
      (by decide) rfl).2.2.2.2,
   (C16_auth_sign_fails (AndroidUsbDevice.construct 63).1 (fun _ => []) [81, 65, 65]
      false (fun _ _ => []) ⟨kCommandAUTH, kAuthToken, 0, List.replicate 20 1⟩ rfl rfl
      (by decide) rfl).2.2.1.trans (by decide)⟩

/-- C16 (as stated) fails: on a fresh device (signature_sent false) with a signer that
returns the empty signature, after `HandleIncoming` of AUTH(TOKEN) signature_sent is
true, and the message queued is AUTH(RSAPUBLICKEY) with the key blob. -/
theorem C16_auth_sign_fails_counterexample :
    (AndroidUsbDevice.construct 63).1.signature_sent_ = false
    ∧ (fun _ => [] : List Byte → List Byte) (List.replicate 20 1) = []
    ∧ (HandleIncoming (AndroidUsbDevice.construct 63).1 (fun _ => []) [81, 65, 65] false
        (fun _ _ => []) ⟨kCommandAUTH, kAuthToken, 0, List.replicate 20 1⟩).1.signature_sent_
      = true
    ∧ (HandleIncoming (AndroidUsbDevice.construct 63).1 (fun _ => []) [81, 65, 65] false
        (fun _ _ => []) ⟨kCommandAUTH, kAuthToken, 0, List.replicate 20 1⟩).1.outgoing_queue_
      = [([65, 85, 84, 72, 3, 0, 0, 0, 0, 0, 0, 0, 4, 0, 0, 0, 211, 0, 0, 0,
           190, 170, 171, 183], 24),
         ([81, 65, 65, 0], 4)] := by
  decide

/-- C17 (as amended): while the link is not yet connected, every inbound message whose
command is none of AUTH, CNXN, OKAY, WRTE and CLSE is ignored: no stream is called, the
device (link flags, pending queue, outgoing queue, stream table) is unchanged and nothing
is handed to the transport. An inbound OKAY, WRTE or CLSE is routed by arg1 as on a
connected link. When the stream table has no stream under that id, no stream is called
and the device is unchanged. When it has one, the message is handed to that stream,
once; the device then changes only through the calls the stream makes back on it while
it handles the message (`Send`, `CreateSocket`, `SocketDeleted`), and is unchanged when
the stream makes none. -/
theorem C17_unconnected_other (d : AndroidUsbDevice)
    (AndroidRSASign : List Byte → List Byte) (AndroidRSAPublicKey : List Byte)
    (HasOneRef : Bool) (SocketHandleIncoming : AndroidUsbSocket → AdbMessage → List Reentry)
    (message : AdbMessage) (_hn : d.is_connected_ = false)
    (ha : message.command ≠ kCommandAUTH) (hc : message.command ≠ kCommandCNXN) :
    ((¬ (message.command = kCommandOKAY ∨ message.command = kCommandWRTE
          ∨ message.command = kCommandCLSE)
        ∨ AndroidUsbSockets.find d.sockets_ message.arg1 = none) →
      HandleIncoming d AndroidRSASign AndroidRSAPublicKey HasOneRef SocketHandleIncoming message
        = ReadHeader d false HasOneRef
      ∧ (HandleIncoming d AndroidRSASign AndroidRSAPublicKey HasOneRef SocketHandleIncoming message).1 = d
      ∧ forwarded (HandleIncoming d AndroidRSASign AndroidRSAPublicKey HasOneRef SocketHandleIncoming message).2 = []
      ∧ transferred (HandleIncoming d AndroidRSASign AndroidRSAPublicKey HasOneRef SocketHandleIncoming message).2 = [])
    ∧ ((message.command = kCommandOKAY ∨ message.command = kCommandWRTE
          ∨ message.command = kCommandCLSE) →
        forwarded (HandleIncoming d AndroidRSASign AndroidRSAPublicKey HasOneRef SocketHandleIncoming message).2
          = match AndroidUsbSockets.find d.sockets_ message.arg1 with
            | some socket => [(socket, message)]
            | none => [])
    ∧ (∀ socket : AndroidUsbSocket,
        (message.command = kCommandOKAY ∨ message.command = kCommandWRTE
          ∨ message.command = kCommandCLSE) →
        AndroidUsbSockets.find d.sockets_ message.arg1 = some socket →
        (HandleIncoming d AndroidRSASign AndroidRSAPublicKey HasOneRef SocketHandleIncoming message).1
          = (reenter d [] (SocketHandleIncoming socket message)).1
        ∧ (HandleIncoming d AndroidRSASign AndroidRSAPublicKey HasOneRef SocketHandleIncoming message).2
          = Effect.SocketHandleIncoming socket message
            :: ((reenter d [] (SocketHandleIncoming socket message)).2
              ++ (ReadHeader (reenter d [] (SocketHandleIncoming socket message)).1
                  false HasOneRef).2)
        ∧ (SocketHandleIncoming socket message = [] →
            (HandleIncoming d AndroidRSASign AndroidRSAPublicKey HasOneRef SocketHandleIncoming message).1 = d
            ∧ transferred (HandleIncoming d AndroidRSASign AndroidRSAPublicKey HasOneRef SocketHandleIncoming message).2 = [])) := by
  have hr := ReadHeader_frame d false HasOneRef
  refine ⟨fun hn => ?_, fun hk => ?_, fun socket hk hf => ?_⟩
  · have h := HandleIncoming_dropped d AndroidRSASign AndroidRSAPublicKey HasOneRef
      SocketHandleIncoming message ha hc hn
    rw [h]
    exact ⟨rfl, hr.1, hr.2.2, hr.2.1⟩
  · cases hf : AndroidUsbSockets.find d.sockets_ message.arg1 with
    | none =>
      rw [HandleIncoming_dropped d AndroidRSASign AndroidRSAPublicKey HasOneRef
        SocketHandleIncoming message ha hc (Or.inr hf)]
      exact hr.2.2
    | some socket =>
      rw [HandleIncoming_forwarded d AndroidRSASign AndroidRSAPublicKey HasOneRef
        SocketHandleIncoming message socket hk hf]
      simp [forwarded, forwarded_append, (reenter_traces _ _ _).1,
        (ReadHeader_frame _ _ _).2.2]
  · rw [HandleIncoming_forwarded d AndroidRSASign AndroidRSAPublicKey HasOneRef
      SocketHandleIncoming message socket hk hf]
    refine ⟨rfl, rfl, fun he => ?_⟩
    rw [he]
    exact ⟨rfl, by simp [reenter, transferred, hr.2.1]⟩

/-- Witness for C17: before the handshake has completed, an unknown command is ignored;
an OKAY for stream 257 is handed to that stream; and when the stream disposes of itself
from inside its handler, its entry has left the stream table afterwards. -/
theorem C17_unconnected_other_witness :
    (HandleIncoming (CreateSocket (AndroidUsbDevice.construct 63).1 [115, 104, 101, 108, 108, 58]).1
        (fun _ => []) [] false (fun _ _ => []) ⟨0x434e5953, 1, 257, []⟩).1
      = (CreateSocket (AndroidUsbDevice.construct 63).1 [115, 104, 101, 108, 108, 58]).1
    ∧ forwarded
        (HandleIncoming (CreateSocket (AndroidUsbDevice.construct 63).1 [115, 104, 101, 108, 108, 58]).1
          (fun _ => []) [] false (fun _ _ => []) ⟨kCommandOKAY, 1, 257, []⟩).2
      = [(⟨257, [115, 104, 101, 108, 108, 58]⟩, ⟨kCommandOKAY, 1, 257, []⟩)]
    ∧ (HandleIncoming (CreateSocket (AndroidUsbDevice.construct 63).1 [115, 104, 101, 108, 108, 58]).1
          (fun _ => []) [] false (fun socket _ => [Reentry.SocketDeleted socket.socket_id])
          ⟨kCommandCLSE, 1, 257, []⟩).1.sockets_
      = [] :=
  ⟨((C17_unconnected_other _ (fun _ => []) [] false (fun _ _ => []) ⟨0x434e5953, 1, 257, []⟩
      (by decide) (by decide) (by decide)).1 (Or.inl (by decide))).2.1,
   ((C17_unconnected_other _ (fun _ => []) [] false (fun _ _ => []) ⟨kCommandOKAY, 1, 257, []⟩
      (by decide) (by decide) (by decide)).2.1 (by decide)).trans (by decide),
   (congrArg AndroidUsbDevice.sockets_
      ((C17_unconnected_other _ (fun _ => []) [] false
        (fun socket _ => [Reentry.SocketDeleted socket.socket_id]) ⟨kCommandCLSE, 1, 257, []⟩
        (by decide) (by decide) (by decide)).2.2 ⟨257, [115, 104, 101, 108, 108, 58]⟩
        (by decide) (by decide)).1).trans (by decide)⟩

/-- C17 (as stated) fails: on a device that is not connected and on which stream 257
was created, an inbound WRTE with arg1 = 257 is handed to that stream, and when the
stream answers with `Send` of an OKAY the message joins the pending queue. -/
theorem C17_unconnected_other_counterexample :
    (CreateSocket (AndroidUsbDevice.construct 63).1 [115, 104, 101, 108, 108, 58]).1.is_connected_
      = false
    ∧ forwarded
        (HandleIncoming
          (CreateSocket (AndroidUsbDevice.construct 63).1 [115, 104, 101, 108, 108, 58]).1
          (fun _ => []) [] false
          (fun socket m => [Reentry.Send kCommandOKAY socket.socket_id m.arg0 []])
          ⟨kCommandWRTE, 1, 257, [111, 107]⟩).2
      = [(⟨257, [115, 104, 101, 108, 108, 58]⟩, ⟨kCommandWRTE, 1, 257, [111, 107]⟩)]
    ∧ (HandleIncoming
          (CreateSocket (AndroidUsbDevice.construct 63).1 [115, 104, 101, 108, 108, 58]).1
          (fun _ => []) [] false
          (fun socket m => [Reentry.Send kCommandOKAY socket.socket_id m.arg0 []])
          ⟨kCommandWRTE, 1, 257, [111, 107]⟩).1.pending_messages_
      = [⟨kCommandOKAY, 257, 1, []⟩] := by
  decide

/-- C18: for every inbound OKAY, WRTE or CLSE message whose arg1 is the id of a stream
present in the stream table, `HandleIncoming` hands that message, unchanged, to the
incoming-message handler of that stream, once, before anything else, and to no other
stream, whatever calls the stream makes back on the device while it handles the message;
the device afterwards is the device these calls leave. The lookup key is arg1: whatever
arg0 is, the stream is the same. -/
theorem C18_forward_to_stream (d : AndroidUsbDevice)
    (AndroidRSASign : List Byte → List Byte) (AndroidRSAPublicKey : List Byte)
    (HasOneRef : Bool) (SocketHandleIncoming : AndroidUsbSocket → AdbMessage → List Reentry)
    (message : AdbMessage) (socket : AndroidUsbSocket)
    (hk : message.command = kCommandOKAY ∨ message.command = kCommandWRTE
      ∨ message.command = kCommandCLSE)
    (hf : AndroidUsbSockets.find d.sockets_ message.arg1 = some socket) :
    forwarded (HandleIncoming d AndroidRSASign AndroidRSAPublicKey HasOneRef SocketHandleIncoming message).2
      = [(socket, message)]
    ∧ (HandleIncoming d AndroidRSASign AndroidRSAPublicKey HasOneRef SocketHandleIncoming message).2
      = Effect.SocketHandleIncoming socket message
        :: ((reenter d [] (SocketHandleIncoming socket message)).2
          ++ (ReadHeader (reenter d [] (SocketHandleIncoming socket message)).1
              false HasOneRef).2)
    ∧ forwarded ((reenter d [] (SocketHandleIncoming socket message)).2
          ++ (ReadHeader (reenter d [] (SocketHandleIncoming socket message)).1
              false HasOneRef).2) = []
    ∧ (HandleIncoming d AndroidRSASign AndroidRSAPublicKey HasOneRef SocketHandleIncoming message).1
      = (reenter d [] (SocketHandleIncoming socket message)).1
    ∧ ∀ arg0 : uint32,
        forwarded (HandleIncoming d AndroidRSASign AndroidRSAPublicKey HasOneRef
            SocketHandleIncoming { message with arg0 := arg0 }).2
          = [(socket, { message with arg0 := arg0 })] := by
  have key : ∀ m : AdbMessage,
      (m.command = kCommandOKAY ∨ m.command = kCommandWRTE ∨ m.command = kCommandCLSE) →
      AndroidUsbSockets.find d.sockets_ m.arg1 = some socket →
      forwarded (HandleIncoming d AndroidRSASign AndroidRSAPublicKey HasOneRef
        SocketHandleIncoming m).2 = [(socket, m)] := by
    intro m hm hfm
    rw [HandleIncoming_forwarded d AndroidRSASign AndroidRSAPublicKey HasOneRef
      SocketHandleIncoming m socket hm hfm]
    simp [forwarded, forwarded_append, (reenter_traces _ _ _).1,
      (ReadHeader_frame _ _ _).2.2]
  have hh := HandleIncoming_forwarded d AndroidRSASign AndroidRSAPublicKey HasOneRef
    SocketHandleIncoming message socket hk hf
  refine ⟨key message hk hf, by rw [hh], ?_, by rw [hh], fun arg0 => ?_⟩
  · simp [forwarded, forwarded_append, (reenter_traces _ _ _).1,
      (ReadHeader_frame _ _ _).2.2]
  · exact key { message with arg0 := arg0 } hk hf

/-- Witness for C18: a WRTE for stream 257, whose arg0 is not a stream id; the stream
answers with `Send` of an OKAY from inside its handler, which (the link being not yet
connected) joins the pending queue. -/
theorem C18_forward_to_stream_witness :
    forwarded
        (HandleIncoming
          (CreateSocket (AndroidUsbDevice.construct 63).1 [115, 104, 101, 108, 108, 58]).1
          (fun _ => []) [] false
          (fun socket m => [Reentry.Send kCommandOKAY socket.socket_id m.arg0 []])
          ⟨kCommandWRTE, 9, 257, [111, 107]⟩).2
      = [(⟨257, [115, 104, 101, 108, 108, 58]⟩, ⟨kCommandWRTE, 9, 257, [111, 107]⟩)]
    ∧ (HandleIncoming
          (CreateSocket (AndroidUsbDevice.construct 63).1 [115, 104, 101, 108, 108, 58]).1
          (fun _ => []) [] false
          (fun socket m => [Reentry.Send kCommandOKAY socket.socket_id m.arg0 []])
          ⟨kCommandWRTE, 9, 257, [111, 107]⟩).1.pending_messages_
      = [⟨kCommandOKAY, 257, 9, []⟩] :=
  ⟨(C18_forward_to_stream
      (CreateSocket (AndroidUsbDevice.construct 63).1 [115, 104, 101, 108, 108, 58]).1
      (fun _ => []) [] false
      (fun socket m => [Reentry.Send kCommandOKAY socket.socket_id m.arg0 []])
      ⟨kCommandWRTE, 9, 257, [111, 107]⟩
      ⟨257, [115, 104, 101, 108, 108, 58]⟩ (by decide) (by decide)).1,
   (congrArg AndroidUsbDevice.pending_messages_
      (C18_forward_to_stream
        (CreateSocket (AndroidUsbDevice.construct 63).1 [115, 104, 101, 108, 108, 58]).1
        (fun _ => []) [] false
        (fun socket m => [Reentry.Send kCommandOKAY socket.socket_id m.arg0 []])
        ⟨kCommandWRTE, 9, 257, [111, 107]⟩
        ⟨257, [115, 104, 101, 108, 108, 58]⟩ (by decide) (by decide)).2.2.2.1).trans
      (by decide)⟩

/-- C19 (as amended): for every inbound OKAY, WRTE or CLSE message whose arg1 is not a
key of the stream table, `HandleIncoming` drops the message: no stream handler is
called, the device (stream table, outgoing queue, pending queue, link flags, among them
terminated_) is unchanged, nothing is handed to the transport, and the step ends with
`ReadHeader(false)`: a new header read of 24 bytes is started when the link is not
terminated and `HasOneRef()` is false, and none is started otherwise. -/
theorem C19_drop_unknown_stream (d : AndroidUsbDevice)
    (AndroidRSASign : List Byte → List Byte) (AndroidRSAPublicKey : List Byte)
    (HasOneRef : Bool) (SocketHandleIncoming : AndroidUsbSocket → AdbMessage → List Reentry)
    (message : AdbMessage)
    (hk : message.command = kCommandOKAY ∨ message.command = kCommandWRTE
      ∨ message.command = kCommandCLSE)
    (hf : AndroidUsbSockets.find d.sockets_ message.arg1 = none) :
    HandleIncoming d AndroidRSASign AndroidRSAPublicKey HasOneRef SocketHandleIncoming message
      = ReadHeader d false HasOneRef
    ∧ (HandleIncoming d AndroidRSASign AndroidRSAPublicKey HasOneRef SocketHandleIncoming message).1 = d
    ∧ forwarded (HandleIncoming d AndroidRSASign AndroidRSAPublicKey HasOneRef SocketHandleIncoming message).2 = []
    ∧ transferred (HandleIncoming d AndroidRSASign AndroidRSAPublicKey HasOneRef SocketHandleIncoming message).2 = []
    ∧ (d.terminated_ = false ∧ HasOneRef = false →
        (HandleIncoming d AndroidRSASign AndroidRSAPublicKey HasOneRef SocketHandleIncoming message).2
          = [Effect.BulkTransferHeader 24])
    ∧ (d.terminated_ = true ∨ HasOneRef = true →
        (HandleIncoming d AndroidRSASign AndroidRSAPublicKey HasOneRef SocketHandleIncoming message).2 = []) := by
  obtain ⟨ha, hc⟩ := stream_command_ne message.command hk
  have h4 := HandleIncoming_dropped d AndroidRSASign AndroidRSAPublicKey HasOneRef
    SocketHandleIncoming message ha hc (Or.inr hf)
  obtain ⟨r1, r2, r3⟩ := ReadHeader_frame d false HasOneRef
  rw [h4]
  refine ⟨rfl, r1, r3, r2, ?_, ?_⟩
  · rintro ⟨ht, ho⟩
    simp [ReadHeader, ht, ho, kHeaderSize]
  · intro h
    rcases h with ht | ho
    · simp [ReadHeader, ht]
    · simp [ReadHeader, ho]

/-- Witness for C19: a WRTE for stream 300 on a device whose only stream is 257. -/
theorem C19_drop_unknown_stream_witness :
    (HandleIncoming
        (CreateSocket (AndroidUsbDevice.construct 63).1 [115, 104, 101, 108, 108, 58]).1
        (fun _ => []) [] false
        (fun socket m => [Reentry.Send kCommandOKAY socket.socket_id m.arg0 []])
        ⟨kCommandWRTE, 9, 300, [111, 107]⟩).2
      = [Effect.BulkTransferHeader 24] :=
  (C19_drop_unknown_stream
    (CreateSocket (AndroidUsbDevice.construct 63).1 [115, 104, 101, 108, 108, 58]).1
    (fun _ => []) [] false
    (fun socket m => [Reentry.Send kCommandOKAY socket.socket_id m.arg0 []])
    ⟨kCommandWRTE, 9, 300, [111, 107]⟩
    (by decide) (by decide)).2.2.2.2.1 ⟨by decide, rfl⟩

/-- C19 (as stated) fails: on a link that is not terminated, when `HasOneRef()` holds, a
WRTE for the unknown stream 300 is dropped and no new header read is started. -/
theorem C19_drop_unknown_stream_counterexample :
    (AndroidUsbDevice.construct 63).1.terminated_ = false
    ∧ AndroidUsbSockets.find (AndroidUsbDevice.construct 63).1.sockets_ 300 = none
    ∧ HandleIncoming (AndroidUsbDevice.construct 63).1 (fun _ => []) [] true
        (fun socket m => [Reentry.Send kCommandOKAY socket.socket_id m.arg0 []])
        ⟨kCommandWRTE, 9, 300, [111, 107]⟩
      = ((AndroidUsbDevice.construct 63).1, []) := by
  decide

/-- C20: stream ids are allocated by incrementing a counter that starts at 256. The
first `CreateSocket` on a fresh device assigns id 257; every `CreateSocket` assigns the
previous counter value plus 1 (as a `uint32`; exactly plus 1 below 2^32 - 1) and stores
it in the counter; the new id is entered in the stream table mapped to the new stream,
all other entries are unchanged, and so is the rest of the device. -/
theorem C20_create_socket (d : AndroidUsbDevice) (command : List Byte) :
    (AndroidUsbDevice.members d.zero_mask_).last_socket_id_ = 256
    ∧ (∀ zero_mask : Int,
        (AndroidUsbDevice.construct zero_mask).1.last_socket_id_ = 256
        ∧ (CreateSocket (AndroidUsbDevice.construct zero_mask).1 command).2.socket_id = 257)
    ∧ (CreateSocket d command).2 = ⟨toUint32 (d.last_socket_id_.val + 1), command⟩
    ∧ (d.last_socket_id_.val + 1 < 4294967296 →
        (CreateSocket d command).2.socket_id.val = d.last_socket_id_.val + 1)
    ∧ (CreateSocket d command).1.last_socket_id_ = (CreateSocket d command).2.socket_id
    ∧ (∀ later : List Byte,
        (CreateSocket (CreateSocket d command).1 later).2.socket_id
          = toUint32 ((CreateSocket d command).2.socket_id.val + 1))
    ∧ AndroidUsbSockets.find (CreateSocket d command).1.sockets_
        (CreateSocket d command).2.socket_id = some (CreateSocket d command).2
    ∧ (∀ other : uint32, other ≠ (CreateSocket d command).2.socket_id →
        AndroidUsbSockets.find (CreateSocket d command).1.sockets_ other
          = AndroidUsbSockets.find d.sockets_ other)
    ∧ (CreateSocket d command).1
      = { d with last_socket_id_ := (CreateSocket d command).1.last_socket_id_,
                 sockets_ := (CreateSocket d command).1.sockets_ } := by
  refine ⟨rfl, ?_, rfl, ?_, rfl, fun _ => rfl, ?_, ?_, rfl⟩
  · intro zero_mask
    obtain ⟨q, hq⟩ := construct_frame zero_mask
    have h256 : (AndroidUsbDevice.construct zero_mask).1.last_socket_id_ = 256 := by
      rw [hq]; rfl
    refine ⟨h256, ?_⟩
    show toUint32 ((AndroidUsbDevice.construct zero_mask).1.last_socket_id_.val + 1) = 257
    rw [h256]
    rfl
  · intro h
    exact toUint32_of_lt h
  · exact find_assign_self _ _ _
  · intro other ho
    exact find_assign_other _ _ _ _ ho

/-- C21: `SocketDeleted(id)` removes the stream-table entry for id, and leaves the table
as it is when id is absent; every other entry is unchanged; the id counter, the
outgoing queue, the pending queue and the link flags are unchanged and no call is made
on the transport or on a stream, so no CLSE is sent by the disposal itself. -/
theorem C21_socket_deleted (d : AndroidUsbDevice) (socket_id : uint32) :
    AndroidUsbSockets.find (SocketDeleted d socket_id).1.sockets_ socket_id = none
    ∧ (∀ other : uint32, other ≠ socket_id →
        AndroidUsbSockets.find (SocketDeleted d socket_id).1.sockets_ other
          = AndroidUsbSockets.find d.sockets_ other)
    ∧ (AndroidUsbSockets.find d.sockets_ socket_id = none → SocketDeleted d socket_id = (d, []))
    ∧ (SocketDeleted d socket_id).1
        = { d with sockets_ := (SocketDeleted d socket_id).1.sockets_ }
    ∧ (SocketDeleted d socket_id).1.last_socket_id_ = d.last_socket_id_
    ∧ (SocketDeleted d socket_id).1.outgoing_queue_ = d.outgoing_queue_
    ∧ (SocketDeleted d socket_id).1.pending_messages_ = d.pending_messages_
    ∧ (SocketDeleted d socket_id).2 = [] := by
  refine ⟨find_erase_self _ _, fun other h => find_erase_other _ _ _ h, ?_, rfl, rfl, rfl, rfl,
    rfl⟩
  intro h
  unfold SocketDeleted
  rw [erase_of_find_none _ _ h]

/-- C22: `Terminate` is idempotent. A call made when terminated_ is already true changes
nothing, notifies no stream and makes no release or close call; after any `Terminate`
call terminated_ is true, so a second call leaves the state of the first and adds no
call to those of the first. -/
theorem C22_terminate_idempotent (d : AndroidUsbDevice)
    (Terminated later : AndroidUsbSocket → List uint32) :
    (d.terminated_ = true → Terminate d Terminated = (d, []))
    ∧ (Terminate d Terminated).1.terminated_ = true
    ∧ Terminate (Terminate d Terminated).1 later = ((Terminate d Terminated).1, [])
    ∧ TerminateAll d [] [Terminated, later]
      = ((Terminate d Terminated).1, (Terminate d Terminated).2) := by
  have h2 := Terminate_of_terminated (Terminate d Terminated).1 later
    (Terminate_terminated d Terminated)
  refine ⟨Terminate_of_terminated d Terminated, Terminate_terminated d Terminated, h2, ?_⟩
  simp [TerminateAll, h2]

/-- C24 (as amended): once the link is terminated no later `Send` makes a call on the
transport, and neither call revives the link; but they are not no-ops on the device.
`Send` appends the message to the pending queue when the link is not connected and the
chunks of the message to the outgoing queue when it is connected; `CreateSocket`
increments the id counter and enters the new stream in the stream table. -/
theorem C24_terminated_send_create (d : AndroidUsbDevice) (ht : d.terminated_ = true)
    (command arg0 arg1 : uint32) (body open_command : List Byte) :
    (Send d command arg0 arg1 body).2 = []
    ∧ (Send d command arg0 arg1 body).1.terminated_ = true
    ∧ (d.is_connected_ = false →
        (Send d command arg0 arg1 body).1
          = { d with pending_messages_ := d.pending_messages_ ++ [⟨command, arg0, arg1, body⟩] })
    ∧ (d.is_connected_ = true →
        (Send d command arg0 arg1 body).1
          = { d with outgoing_queue_ :=
                d.outgoing_queue_ ++ Queue.pushes d.zero_mask_ ⟨command, arg0, arg1, body⟩ })
    ∧ (CreateSocket d open_command).1
      = { d with last_socket_id_ := toUint32 (d.last_socket_id_.val + 1),
                 sockets_ := AndroidUsbSockets.assign d.sockets_
                   (toUint32 (d.last_socket_id_.val + 1))
                   ⟨toUint32 (d.last_socket_id_.val + 1), open_command⟩ }
    ∧ (CreateSocket d open_command).1.terminated_ = true := by
  have hq := Queue_of_terminated d ⟨command, arg0, arg1, body⟩ ht
  rcases Bool.eq_false_or_eq_true d.is_connected_ with hc | hc
  · have hs : Send d command arg0 arg1 body
        = ({ d with outgoing_queue_ :=
              d.outgoing_queue_ ++ Queue.pushes d.zero_mask_ ⟨command, arg0, arg1, body⟩ },
           []) := by
      simp [Send, hc, hq]
    refine ⟨by rw [hs], by rw [hs]; exact ht, ?_, fun _ => by rw [hs], rfl, ht⟩
    intro h
    rw [hc] at h
    cases h
  · have hs : Send d command arg0 arg1 body
        = ({ d with pending_messages_ := d.pending_messages_ ++ [⟨command, arg0, arg1, body⟩] },
           []) := by
      simp [Send, hc]
    refine ⟨by rw [hs], by rw [hs]; exact ht, fun _ => by rw [hs], ?_, rfl, ht⟩
    intro h
    rw [hc] at h
    cases h

/-- Witness for C24: a device terminated right after construction. -/
theorem C24_terminated_send_create_witness :
    (Send (Terminate (AndroidUsbDevice.construct 63).1 (fun _ => [])).1
        kCommandOPEN 257 0 [115, 104, 101, 108, 108, 58]).2 = []
    ∧ (CreateSocket (Terminate (AndroidUsbDevice.construct 63).1 (fun _ => [])).1
        [115, 104, 101, 108, 108, 58]).1.terminated_ = true :=
  ⟨(C24_terminated_send_create (Terminate (AndroidUsbDevice.construct 63).1 (fun _ => [])).1
      (by decide) kCommandOPEN 257 0 [115, 104, 101, 108, 108, 58] []).1,
   (C24_terminated_send_create (Terminate (AndroidUsbDevice.construct 63).1 (fun _ => [])).1
      (by decide) kCommandOPEN 257 0 [] [115, 104, 101, 108, 108, 58]).2.2.2.2.2⟩

/-- C24 (as stated) fails: on a device terminated right after construction `Send` extends
the pending queue and `CreateSocket` moves the id counter to 257 and enters stream 257
in the table; on a connected device that is then terminated `Send` extends the outgoing
queue. -/
theorem C24_terminated_send_create_counterexample :
    (Terminate (AndroidUsbDevice.construct 63).1 (fun _ => [])).1.terminated_ = true
    ∧ (Terminate (AndroidUsbDevice.construct 63).1 (fun _ => [])).1.pending_messages_ = []
    ∧ (Send (Terminate (AndroidUsbDevice.construct 63).1 (fun _ => [])).1
        kCommandOPEN 257 0 [115, 104, 101, 108, 108, 58]).1.pending_messages_
      = [⟨kCommandOPEN, 257, 0, [115, 104, 101, 108, 108, 58]⟩]
    ∧ (Terminate (AndroidUsbDevice.construct 63).1 (fun _ => [])).1.last_socket_id_ = 256
    ∧ (CreateSocket (Terminate (AndroidUsbDevice.construct 63).1 (fun _ => [])).1
        [115, 104, 101, 108, 108, 58]).1.last_socket_id_ = 257
    ∧ (CreateSocket (Terminate (AndroidUsbDevice.construct 63).1 (fun _ => [])).1
        [115, 104, 101, 108, 108, 58]).1.sockets_
      = [(257, ⟨257, [115, 104, 101, 108, 108, 58]⟩)]
    ∧ (Terminate (HandleIncoming (AndroidUsbDevice.construct 63).1 (fun _ => []) [] false
        (fun _ _ => []) ⟨kCommandCNXN, kVersion, kMaxPayload, []⟩).1
        (fun _ => [])).1.outgoing_queue_.length = 1
    ∧ (Send (Terminate (HandleIncoming (AndroidUsbDevice.construct 63).1 (fun _ => []) [] false
        (fun _ _ => []) ⟨kCommandCNXN, kVersion, kMaxPayload, []⟩).1 (fun _ => [])).1
        kCommandOPEN 257 0 [115, 104, 101, 108, 108, 58]).1.outgoing_queue_.length = 3 := by
  decide

/-- C25 (as amended): a transport write that completes with a status other than success
is not escalated. `OutgoingMessageSent` posts `ProcessOutgoing` when the status is
USB_TRANSFER_COMPLETED and posts nothing otherwise: `Terminate` is neither invoked nor
scheduled, and the next queued chunk is not sent by this callback. -/
theorem C25_write_failure (status : UsbTransferStatus) (buffer : IOBuffer) (result : Nat) :
    OutgoingMessageSent status buffer result
      = (if status = USB_TRANSFER_COMPLETED then [Task.ProcessOutgoing] else [])
    ∧ Task.Terminate ∉ OutgoingMessageSent status buffer result
    ∧ (status ≠ USB_TRANSFER_COMPLETED → OutgoingMessageSent status buffer result = []) := by
  by_cases h : status = USB_TRANSFER_COMPLETED
  · simp [OutgoingMessageSent, h]
  · simp [OutgoingMessageSent, h]

/-- C25 (as stated) fails: a write that completes with USB_TRANSFER_ERROR (or with a
disconnection) makes `OutgoingMessageSent` post nothing, whereas a header read that
completes with the same status posts `Terminate`. -/
theorem C25_write_failure_counterexample :
    OutgoingMessageSent USB_TRANSFER_ERROR [] 0 = []
    ∧ OutgoingMessageSent USB_TRANSFER_DISCONNECTED [] 0 = []
    ∧ ParseHeader USB_TRANSFER_ERROR [] 0 = [Task.Terminate] := by
  decide

/-- C26: a header or body read that completes with a status that is neither success nor
timeout, or that completes successfully with a byte count different from the requested
one (24 for a header; the declared body length for a body, of which the read returns at
most that many bytes), terminates the link: `ParseHeader` and `ParseBody` call
`TransferError`, which posts `Terminate` and nothing else, so no message is dispatched
and no read is posted. For a body the same holds of every byte count below 2^32 other
than the declared length, the count being compared as a 32-bit number. -/
theorem C26_read_failure (message : AdbMessage) (data_length data_check : uint32)
    (status : UsbTransferStatus) (buffer : IOBuffer) (result : Nat) :
    (status ≠ USB_TRANSFER_TIMEOUT → (status ≠ USB_TRANSFER_COMPLETED ∨ result ≠ 24) →
      ParseHeader status buffer result = [Task.Terminate])
    ∧ (status ≠ USB_TRANSFER_TIMEOUT → result ≤ data_length.val →
        (status ≠ USB_TRANSFER_COMPLETED ∨ result ≠ data_length.val) →
      ParseBody message data_length data_check status buffer result = [Task.Terminate])
    ∧ (status ≠ USB_TRANSFER_TIMEOUT → (status ≠ USB_TRANSFER_COMPLETED ∨ result ≠ 24) →
      ParseHeader status buffer result = TransferError status)
    ∧ (status ≠ USB_TRANSFER_TIMEOUT →
        (status ≠ USB_TRANSFER_COMPLETED ∨ result % 4294967296 ≠ data_length.val) →
      ParseBody message data_length data_check status buffer result = TransferError status)
    ∧ (status ≠ USB_TRANSFER_TIMEOUT → result < 4294967296 → result ≠ data_length.val →
      ParseBody message data_length data_check status buffer result = TransferError status)
    ∧ TransferError status = [Task.Terminate] := by
  have hbody : status ≠ USB_TRANSFER_TIMEOUT →
      (status ≠ USB_TRANSFER_COMPLETED ∨ result % 4294967296 ≠ data_length.val) →
      ParseBody message data_length data_check status buffer result = TransferError status := by
    intro ht h
    have h2 : status ≠ USB_TRANSFER_COMPLETED ∨ toUint32 result ≠ data_length := by
      rcases h with h | h
      · exact Or.inl h
      · exact Or.inr (fun e => h (by rw [← e]; rfl))
    unfold ParseBody
    rw [if_neg ht, if_pos h2]
  have hheader : status ≠ USB_TRANSFER_TIMEOUT →
      (status ≠ USB_TRANSFER_COMPLETED ∨ result ≠ 24) →
      ParseHeader status buffer result = TransferError status := by
    intro ht h
    unfold ParseHeader
    rw [if_neg ht, if_pos (by simpa [kHeaderSize] using h)]
  refine ⟨hheader, ?_, hheader, hbody, ?_, rfl⟩
  · intro ht hle h
    have hlt : result < 4294967296 := lt_of_le_of_lt hle data_length.isLt
    refine hbody ht ?_
    rcases h with h | h
    · exact Or.inl h
    · exact Or.inr (by rw [Nat.mod_eq_of_lt hlt]; exact h)
  · intro ht hlt hne
    exact hbody ht (Or.inr (by rw [Nat.mod_eq_of_lt hlt]; exact hne))

/-- C27 (as amended): a read that times out does not terminate the link and dispatches
nothing. `ParseHeader` with USB_TRANSFER_TIMEOUT posts `ReadHeader(false)`, which starts
another 24-byte header read when the link is not terminated and `HasOneRef()` is false,
and starts none otherwise; `ParseBody` with USB_TRANSFER_TIMEOUT posts `ReadBody` with
the same pending message, expected length and expected checksum, and `ReadBody`
starts that read. The posted task is the same after any number of consecutive
timeouts. -/
theorem C27_read_timeout (d : AndroidUsbDevice) (HasOneRef : Bool) (message : AdbMessage)
    (data_length data_check : uint32) (buffer : IOBuffer) (result : Nat) :
    ParseHeader USB_TRANSFER_TIMEOUT buffer result = [Task.ReadHeader false]
    ∧ ReadHeader d false HasOneRef
      = (d, if d.terminated_ = false ∧ HasOneRef = false
            then [Effect.BulkTransferHeader 24] else [])
    ∧ ParseBody message data_length data_check USB_TRANSFER_TIMEOUT buffer result
      = [Task.ReadBody message data_length data_check]
    ∧ ReadBody message data_length data_check
      = [Effect.BulkTransferBody message data_length data_check]
    ∧ (∀ completions : List (IOBuffer × Nat),
        afterTimeouts completions [Task.ReadBody message data_length data_check]
          = [Task.ReadBody message data_length data_check])
    ∧ (∀ (completion : IOBuffer × Nat) (completions : List (IOBuffer × Nat)) (initial : Bool),
        afterTimeouts (completion :: completions) [Task.ReadHeader initial]
          = [Task.ReadHeader false]) := by
  have hbody : ∀ completions : List (IOBuffer × Nat),
      afterTimeouts completions [Task.ReadBody message data_length data_check]
        = [Task.ReadBody message data_length data_check] := by
    intro completions
    induction completions with
    | nil => rfl
    | cons c completions ih =>
      simp only [afterTimeouts, List.foldr, timeoutOf, ParseBody_timeout, List.append_nil]
      exact ih
  have hhead : ∀ (completions : List (IOBuffer × Nat)),
      afterTimeouts completions [Task.ReadHeader false] = [Task.ReadHeader false] := by
    intro completions
    induction completions with
    | nil => rfl
    | cons c completions ih =>
      simp only [afterTimeouts, List.foldr, timeoutOf, ParseHeader_timeout, List.append_nil]
      exact ih
  refine ⟨ParseHeader_timeout _ _, ?_, ParseBody_timeout _ _ _ _ _, rfl, hbody, ?_⟩
  · unfold ReadHeader
    cases ht : d.terminated_ <;> cases ho : HasOneRef <;> simp [kHeaderSize]
  · intro completion completions initial
    simp only [afterTimeouts, List.foldr, timeoutOf, ParseHeader_timeout, List.append_nil]
    exact hhead completions

/-- C27 (as stated) fails: after a header read has timed out on a link that is not
terminated, `ParseHeader` posts `ReadHeader(false)`, and when `HasOneRef()` holds that
call starts no read: the header read is not reissued. -/
theorem C27_read_timeout_counterexample :
    ParseHeader USB_TRANSFER_TIMEOUT [] 0 = [Task.ReadHeader false]
    ∧ (AndroidUsbDevice.construct 63).1.terminated_ = false
    ∧ ReadHeader (AndroidUsbDevice.construct 63).1 false true
      = ((AndroidUsbDevice.construct 63).1, []) := by
  decide

/-- C28 (as amended): `ProcessOutgoing` hands at most one chunk to the transport per
call, and the completion callback `OutgoingMessageSent` posts one `ProcessOutgoing` when
the write succeeded and none otherwise; so along the posted `ProcessOutgoing` tasks and
the completion callbacks alone, starting with at most one write in flight or one task
posted, at most one outbound write is outstanding at any time. `Queue` (and with it
`Send` on a connected link and `HandleIncoming`) calls `ProcessOutgoing` directly: on a
link that is not terminated every `Queue` call hands one more chunk to the transport at
once, whatever the number of writes outstanding. -/
theorem C28_writes_in_flight (AndroidRSASign : List Byte → List Byte)
    (AndroidRSAPublicKey : List Byte) (l : Link) (calls : List LinkCall)
    (message : AdbMessage) (status : UsbTransferStatus) :
    (transferred (ProcessOutgoing l.device).2).length ≤ 1
    ∧ OutgoingMessageSent status [] 0
      = (if status = USB_TRANSFER_COMPLETED then [Task.ProcessOutgoing] else [])
    ∧ ((∀ call ∈ calls, call = LinkCall.ProcessOutgoing
          ∨ ∃ status, call = LinkCall.OutgoingMessageSent status) →
        l.outstanding + l.posted ≤ 1 →
        ∀ l', Link.run AndroidRSASign AndroidRSAPublicKey l calls = some l' →
          l'.outstanding + l'.posted ≤ 1)
    ∧ (l.device.terminated_ = false →
        ∃ l', Link.step AndroidRSASign AndroidRSAPublicKey l (LinkCall.Queue message) = some l'
          ∧ l'.outstanding = l.outstanding + 1 ∧ l'.posted = l.posted) := by
  refine ⟨ProcessOutgoing_issues_le_one _, ?_, ?_, ?_⟩
  · cases status <;> rfl
  · intro hc h l' hr
    exact run_chain AndroidRSASign AndroidRSAPublicKey calls l l' hc h hr
  · intro ht
    obtain ⟨buffer, length, hq⟩ := Queue_issues_one l.device message ht
    exact ⟨_, rfl, by simp [hq, transferred], rfl⟩

/-- C28 (as stated) fails: after the constructor's two writes have completed and the
peer's CNXN has been handled, no write is outstanding; two `Send` calls in a row then
leave two writes outstanding, no completion callback having fired in between. -/
theorem C28_writes_in_flight_counterexample :
    (Link.run (fun _ => []) [] (Link.construct 63)
        [LinkCall.OutgoingMessageSent USB_TRANSFER_COMPLETED, LinkCall.ProcessOutgoing,
         LinkCall.OutgoingMessageSent USB_TRANSFER_COMPLETED, LinkCall.ProcessOutgoing,
         LinkCall.HandleIncoming ⟨kCommandCNXN, kVersion, kMaxPayload, []⟩ false
           (fun _ _ => [])]).map
      (fun l => (l.outstanding, l.posted, l.device.outgoing_queue_.length)) = some (0, 0, 0)
    ∧ (Link.run (fun _ => []) [] (Link.construct 63)
        [LinkCall.OutgoingMessageSent USB_TRANSFER_COMPLETED, LinkCall.ProcessOutgoing,
         LinkCall.OutgoingMessageSent USB_TRANSFER_COMPLETED, LinkCall.ProcessOutgoing,
         LinkCall.HandleIncoming ⟨kCommandCNXN, kVersion, kMaxPayload, []⟩ false
           (fun _ _ => []),
         LinkCall.Send kCommandOPEN 257 0 [115, 104, 101, 108, 108, 58],
         LinkCall.Send kCommandOPEN 258 0 [115, 121, 110, 99, 58]]).map
      (fun l => l.outstanding) = some 2 := by
  decide

/-- C29: the constructor leaves the device not connected, with signature_sent false, not
terminated, with an empty stream table and an empty pending queue, and it queues
exactly one message: CNXN with arg0 = 0x01000000, arg1 = 4096 and body `host::`. The
calls it makes are one outbound write, of the 24-byte header of that message (the words
CNXN, 0x01000000, 4096, 7, the checksum of `host::` and CNXN XOR 0xFFFFFFFF, given here
byte for byte), and then one header read of 24 bytes; the other chunks of the message,
the body `host::` with its terminating zero and the zero-length chunk when the test on
zero_mask succeeds, stay in the outgoing queue. -/
theorem C29_constructor (zero_mask : Int) :
    (AndroidUsbDevice.construct zero_mask).1.is_connected_ = false
    ∧ (AndroidUsbDevice.construct zero_mask).1.signature_sent_ = false
    ∧ (AndroidUsbDevice.construct zero_mask).1.terminated_ = false
    ∧ (AndroidUsbDevice.construct zero_mask).1.sockets_ = []
    ∧ (AndroidUsbDevice.construct zero_mask).1.pending_messages_ = []
    ∧ (AndroidUsbDevice.construct zero_mask).2
      = [Effect.BulkTransferOutbound
           [67, 78, 88, 78, 0, 0, 0, 1, 0, 16, 0, 0, 7, 0, 0, 0, 50, 2, 0, 0,
            188, 177, 167, 177] 24,
         Effect.BulkTransferHeader 24]
    ∧ ([67, 78, 88, 78, 0, 0, 0, 1, 0, 16, 0, 0, 7, 0, 0, 0, 50, 2, 0, 0,
        188, 177, 167, 177] : List Byte)
      = uint32Bytes kCommandCNXN ++ uint32Bytes 0x01000000 ++ uint32Bytes 4096
        ++ uint32Bytes 7 ++ uint32Bytes (Checksum [104, 111, 115, 116, 58, 58])
        ++ uint32Bytes (toUint32 (kCommandCNXN.val ^^^ 0xffffffff))
    ∧ Queue.header_buffer ⟨kCommandCNXN, 0x01000000, 4096, [104, 111, 115, 116, 58, 58]⟩
      = [67, 78, 88, 78, 0, 0, 0, 1, 0, 16, 0, 0, 7, 0, 0, 0, 50, 2, 0, 0,
         188, 177, 167, 177]
    ∧ (AndroidUsbDevice.construct zero_mask).1.outgoing_queue_
      = ([104, 111, 115, 116, 58, 58, 0], 7)
        :: (if zero_mask ≠ 0 ∧ Int.land 7 zero_mask = 0
            then [([104, 111, 115, 116, 58, 58, 0], 0)] else [])
    ∧ transferred (AndroidUsbDevice.construct zero_mask).2
        ++ (AndroidUsbDevice.construct zero_mask).1.outgoing_queue_
      = Queue.pushes zero_mask ⟨kCommandCNXN, 0x01000000, 4096, [104, 111, 115, 116, 58, 58]⟩
    ∧ (AndroidUsbDevice.construct zero_mask).1.outgoing_queue_
      = (Queue.pushes zero_mask
          ⟨kCommandCNXN, 0x01000000, 4096, [104, 111, 115, 116, 58, 58]⟩).tail := by
  obtain ⟨q, hq⟩ := construct_frame zero_mask
  have hp := pushes_of_nonempty zero_mask
    ⟨kCommandCNXN, 0x01000000, 4096, [104, 111, 115, 116, 58, 58]⟩ (by decide)
  have hQ : Queue (AndroidUsbDevice.members zero_mask)
        ⟨kCommandCNXN, kVersion, kMaxPayload, kHostConnectMessage⟩
      = ({ AndroidUsbDevice.members zero_mask with
            outgoing_queue_ := (Queue.pushes zero_mask
              ⟨kCommandCNXN, 0x01000000, 4096, [104, 111, 115, 116, 58, 58]⟩).tail },
         [Effect.BulkTransferOutbound
           (Queue.header_buffer ⟨kCommandCNXN, 0x01000000, 4096, [104, 111, 115, 116, 58, 58]⟩)
           24]) := by
    show ProcessOutgoing
        { AndroidUsbDevice.members zero_mask with
          outgoing_queue_ := [] ++ Queue.pushes zero_mask
            ⟨kCommandCNXN, 0x01000000, 4096, [104, 111, 115, 116, 58, 58]⟩ } = _
    rw [hp]
    rfl
  have hc : AndroidUsbDevice.construct zero_mask
      = ({ AndroidUsbDevice.members zero_mask with
            outgoing_queue_ := (Queue.pushes zero_mask
              ⟨kCommandCNXN, 0x01000000, 4096, [104, 111, 115, 116, 58, 58]⟩).tail },
         [Effect.BulkTransferOutbound
           (Queue.header_buffer ⟨kCommandCNXN, 0x01000000, 4096, [104, 111, 115, 116, 58, 58]⟩)
           24,
          Effect.BulkTransferHeader 24]) := by
    unfold AndroidUsbDevice.construct
    simp only [hQ]
    rfl
  have hh : Queue.header_buffer ⟨kCommandCNXN, 0x01000000, 4096, [104, 111, 115, 116, 58, 58]⟩
      = [67, 78, 88, 78, 0, 0, 0, 1, 0, 16, 0, 0, 7, 0, 0, 0, 50, 2, 0, 0,
         188, 177, 167, 177] := by
    decide
  rw [hc, hh]
  refine ⟨rfl, rfl, rfl, rfl, rfl, rfl, by decide, rfl, ?_, ?_, ?_⟩
  · simp only
    rw [hp]
    rfl
  · simp only [transferred]
    rw [hp, hh]
    rfl
  · simp only

/-- C30: for every zero_mask = N - 1 with N = 2^j, j >= 1, `Queue` pushes a zero-length
chunk if and only if the message body is non-empty and the transmitted body length
(body_length, which counts any appended zero byte) is a positive multiple of N; the
zero-length chunk then comes immediately after the body chunk, as the last chunk of the
message. When zero_mask is 0 no zero-length chunk is pushed. -/
theorem C30_zero_length_iff (j : Nat) (hj : 1 ≤ j) (message : AdbMessage) :
    ((∃ chunk ∈ Queue.pushes (((2 ^ j - 1 : Nat)) : Int) message, chunk.2 = 0)
      ↔ (message.body ≠ [] ∧ ∃ k, 1 ≤ k ∧ Queue.body_length message = k * 2 ^ j))
    ∧ ((message.body ≠ [] ∧ ∃ k, 1 ≤ k ∧ Queue.body_length message = k * 2 ^ j) →
        Queue.pushes (((2 ^ j - 1 : Nat)) : Int) message
          = [(Queue.header_buffer message, 24),
             (Queue.body_buffer message, Queue.body_length message),
             (Queue.body_buffer message, 0)])
    ∧ (∀ chunk ∈ Queue.pushes 0 message, chunk.2 ≠ 0) := by
  have hp := two_le_two_pow j hj
  have hfull : (message.body ≠ [] ∧ ∃ k, 1 ≤ k ∧ Queue.body_length message = k * 2 ^ j) →
      Queue.pushes (((2 ^ j - 1 : Nat)) : Int) message
        = [(Queue.header_buffer message, 24),
           (Queue.body_buffer message, Queue.body_length message),
           (Queue.body_buffer message, 0)] := by
    rintro ⟨hb, k, _, hk⟩
    rw [pushes_of_mask j hj message hb, if_pos (by rw [hk]; exact Nat.mul_mod_left _ _)]
  refine ⟨⟨?_, ?_⟩, hfull, ?_⟩
  · rintro ⟨chunk, hmem, hz⟩
    by_cases hb : message.body = []
    · rw [pushes_of_empty _ _ hb] at hmem
      simp at hmem
      rw [hmem] at hz
      cases hz
    · have hlen := body_length_pos message hb
      rw [pushes_of_mask j hj message hb] at hmem
      by_cases hm : Queue.body_length message % 2 ^ j = 0
      · refine ⟨hb, Queue.body_length message / 2 ^ j, ?_, ?_⟩
        · exact (Nat.one_le_div_iff (by omega)).mpr
            (Nat.le_of_dvd hlen (Nat.dvd_of_mod_eq_zero hm))
        · exact (Nat.div_mul_cancel (Nat.dvd_of_mod_eq_zero hm)).symm
      · rw [if_neg hm] at hmem
        simp at hmem
        rcases hmem with h | h
        · rw [h] at hz; cases hz
        · rw [h] at hz; simp at hz; omega
  · intro h
    rw [hfull h]
    exact ⟨(Queue.body_buffer message, 0), by simp, rfl⟩
  · intro chunk hmem
    by_cases hb : message.body = []
    · rw [pushes_of_empty _ _ hb] at hmem
      simp at hmem
      rw [hmem]
      exact (by decide : (24 : Nat) ≠ 0)
    · have hlen := body_length_pos message hb
      rw [pushes_of_nonempty _ _ hb] at hmem
      simp at hmem
      rcases hmem with h | h
      · rw [h]; exact (by decide : (24 : Nat) ≠ 0)
      · rw [h]; simp; omega

/-- Witness for C30: max packet size 64; a WRTE body of 64 bytes, a stream-open body of
63 bytes (sent as 64), and a WRTE body of 65 bytes. -/
theorem C30_zero_length_iff_witness :
    (Queue.pushes 63 ⟨kCommandWRTE, 1, 257, List.replicate 64 97⟩).map Prod.snd = [24, 64, 0]
    ∧ (Queue.pushes 63 ⟨kCommandOPEN, 257, 0, List.replicate 63 97⟩).map Prod.snd = [24, 64, 0]
    ∧ ∀ chunk ∈ Queue.pushes 0 ⟨kCommandWRTE, 1, 257, List.replicate 65 97⟩, chunk.2 ≠ 0 := by
  have h := C30_zero_length_iff 6 (by decide)
  refine ⟨?_, ?_, (h ⟨kCommandWRTE, 1, 257, List.replicate 65 97⟩).2.2⟩
  · show (Queue.pushes (((2 ^ 6 - 1 : Nat)) : Int) _).map Prod.snd = _
    rw [(h ⟨kCommandWRTE, 1, 257, List.replicate 64 97⟩).2.1 ⟨by decide, 1, by decide, by decide⟩]
    rfl
  · show (Queue.pushes (((2 ^ 6 - 1 : Nat)) : Int) _).map Prod.snd = _
    rw [(h ⟨kCommandOPEN, 257, 0, List.replicate 63 97⟩).2.1 ⟨by decide, 1, by decide, by decide⟩]
    rfl

/-- C31: `ProcessOutgoing` is a no-op (same device, no transport write) when the outgoing
queue is empty or the link is terminated; otherwise it removes exactly the head chunk of
the outgoing queue, hands exactly that chunk's buffer and length to the transport in one
write, and leaves the rest of the queue and all other device state unchanged. -/
theorem C31_process_outgoing (d : AndroidUsbDevice) :
    ((d.outgoing_queue_ = [] ∨ d.terminated_ = true) → ProcessOutgoing d = (d, []))
    ∧ (∀ (message : BulkMessage) (rest : List BulkMessage),
        d.outgoing_queue_ = message :: rest → d.terminated_ = false →
        ProcessOutgoing d
          = ({ d with outgoing_queue_ := rest },
             [Effect.BulkTransferOutbound message.1 message.2])) := by
  refine ⟨fun h => ?_, fun message rest hq ht => ?_⟩
  · rcases ProcessOutgoing_cases d with ⟨e, _⟩ | ⟨m, rest, hq, ht, _⟩
    · exact e
    · rcases h with h | h
      · rw [hq] at h; cases h
      · rw [ht] at h; cases h
  · rcases ProcessOutgoing_cases d with ⟨_, h0 | h0⟩ | ⟨m, rest2, hq2, _, e⟩
    · rw [hq] at h0; cases h0
    · rw [ht] at h0; cases h0
    · rw [hq] at hq2
      cases hq2
      exact e

/-- C32: for every successfully read header (24 bytes) with matching magic: if the
declared body length is zero, `ParseHeader` posts the dispatch of a message with the
decoded command, arg0, arg1 and an empty body, whatever the declared checksum, and no
body read; otherwise it posts no dispatch but one `ReadBody`, which starts exactly one
body read of the declared body length, bound to the declared checksum. -/
theorem C32_parse_header (buffer : IOBuffer)
    (hmagic : toUint32 ((wordAt buffer 0).val ^^^ 0xffffffff) = wordAt buffer 5) :
    (wordAt buffer 3 = 0 →
      ParseHeader USB_TRANSFER_COMPLETED buffer 24
        = [Task.HandleIncoming ⟨wordAt buffer 0, wordAt buffer 1, wordAt buffer 2, []⟩])
    ∧ (wordAt buffer 3 ≠ 0 →
      ParseHeader USB_TRANSFER_COMPLETED buffer 24
        = [Task.ReadBody ⟨wordAt buffer 0, wordAt buffer 1, wordAt buffer 2, []⟩
            (wordAt buffer 3) (wordAt buffer 4)]
      ∧ ReadBody ⟨wordAt buffer 0, wordAt buffer 1, wordAt buffer 2, []⟩
            (wordAt buffer 3) (wordAt buffer 4)
        = [Effect.BulkTransferBody ⟨wordAt buffer 0, wordAt buffer 1, wordAt buffer 2, []⟩
            (wordAt buffer 3) (wordAt buffer 4)]) := by
  refine ⟨fun h0 => ?_, fun h0 => ⟨?_, rfl⟩⟩
  · rw [ParseHeader_completed, if_neg (not_not.mpr hmagic), if_pos h0]
  · rw [ParseHeader_completed, if_neg (not_not.mpr hmagic), if_neg h0]

/-- Witness for C32: an OKAY header declaring an empty body and the checksum 12345 is
dispatched at once; a WRTE header declaring 5 bytes leads to a body read of 5 bytes. -/
theorem C32_parse_header_witness :
    ParseHeader USB_TRANSFER_COMPLETED
        ((vectorBytes [kCommandOKAY, 1, 257, 0, 12345,
            toUint32 (kCommandOKAY.val ^^^ 0xffffffff)]).take kHeaderSize) 24
      = [Task.HandleIncoming ⟨kCommandOKAY, 1, 257, []⟩]
    ∧ ParseHeader USB_TRANSFER_COMPLETED
        ((vectorBytes [kCommandWRTE, 1, 257, 5, 532,
            toUint32 (kCommandWRTE.val ^^^ 0xffffffff)]).take kHeaderSize) 24
      = [Task.ReadBody ⟨kCommandWRTE, 1, 257, []⟩ 5 532] :=
  ⟨((C32_parse_header
      ((vectorBytes [kCommandOKAY, 1, 257, 0, 12345,
        toUint32 (kCommandOKAY.val ^^^ 0xffffffff)]).take kHeaderSize) (by decide)).1
      (by decide)).trans (by decide),
   ((C32_parse_header
      ((vectorBytes [kCommandWRTE, 1, 257, 5, 532,
        toUint32 (kCommandWRTE.val ^^^ 0xffffffff)]).take kHeaderSize) (by decide)).2
      (by decide)).1.trans (by decide)⟩

/-- C33 (as amended): for every inbound message, whatever its command and whether or not
a stream was found, `HandleIncoming` ends by calling `ReadHeader(false)` on the device
the `switch` leaves, and the `switch` itself starts no header read. That call starts
exactly one inbound read of 24 bytes when the link is not terminated and `HasOneRef()`
is false, and no read when the link is terminated or `HasOneRef()` is true. -/
theorem C33_read_after_dispatch (d : AndroidUsbDevice)
    (AndroidRSASign : List Byte → List Byte) (AndroidRSAPublicKey : List Byte)
    (HasOneRef : Bool) (SocketHandleIncoming : AndroidUsbSocket → AdbMessage → List Reentry)
    (message : AdbMessage) :
    (HandleIncoming d AndroidRSASign AndroidRSAPublicKey HasOneRef SocketHandleIncoming message).2
      = (HandleIncoming.dispatch d AndroidRSASign AndroidRSAPublicKey SocketHandleIncoming message).2
        ++ (ReadHeader (HandleIncoming.dispatch d AndroidRSASign AndroidRSAPublicKey SocketHandleIncoming message).1
            false HasOneRef).2
    ∧ headerReads (HandleIncoming.dispatch d AndroidRSASign AndroidRSAPublicKey SocketHandleIncoming message).2 = []
    ∧ (ReadHeader (HandleIncoming.dispatch d AndroidRSASign AndroidRSAPublicKey SocketHandleIncoming message).1
        false HasOneRef).2
      = (if d.terminated_ = true ∨ HasOneRef = true then []
         else [Effect.BulkTransferHeader 24])
    ∧ headerReads (HandleIncoming d AndroidRSASign AndroidRSAPublicKey HasOneRef SocketHandleIncoming message).2
      = (if d.terminated_ = true ∨ HasOneRef = true then [] else [24]) := by
  obtain ⟨p, q, l, t, hq⟩ := dispatch_shape d AndroidRSASign AndroidRSAPublicKey
    SocketHandleIncoming message
  have ht : (HandleIncoming.dispatch d AndroidRSASign AndroidRSAPublicKey SocketHandleIncoming message).1.terminated_
      = d.terminated_ := by rw [hq]
  have hr : (ReadHeader (HandleIncoming.dispatch d AndroidRSASign AndroidRSAPublicKey SocketHandleIncoming message).1
        false HasOneRef).2
      = (if d.terminated_ = true ∨ HasOneRef = true then []
         else [Effect.BulkTransferHeader 24]) := by
    unfold ReadHeader
    rw [ht]
    rcases Bool.eq_false_or_eq_true d.terminated_ with h | h
    · simp [h]
    · rcases Bool.eq_false_or_eq_true HasOneRef with h2 | h2
      · simp [h, h2]
      · simp [h, h2, kHeaderSize]
  refine ⟨rfl, headerReads_dispatch _ _ _ _ _, hr, ?_⟩
  have hd : (HandleIncoming d AndroidRSASign AndroidRSAPublicKey HasOneRef SocketHandleIncoming message).2
      = (HandleIncoming.dispatch d AndroidRSASign AndroidRSAPublicKey SocketHandleIncoming message).2
        ++ (ReadHeader (HandleIncoming.dispatch d AndroidRSASign AndroidRSAPublicKey SocketHandleIncoming message).1
            false HasOneRef).2 := rfl
  rw [hd, headerReads_append, headerReads_dispatch, hr]
  split <;> rfl

/-- C33 (as stated) fails: on a link that is not terminated and has the open stream 257,
when `HasOneRef()` holds, an OKAY for stream 257 is handed to the stream and
`HandleIncoming` returns without starting a header read. -/
theorem C33_read_after_dispatch_counterexample :
    (CreateSocket (AndroidUsbDevice.construct 63).1
        [115, 104, 101, 108, 108, 58]).1.terminated_ = false
    ∧ (HandleIncoming
        (CreateSocket (AndroidUsbDevice.construct 63).1 [115, 104, 101, 108, 108, 58]).1
        (fun _ => []) [] true (fun _ _ => []) ⟨kCommandOKAY, 7, 257, []⟩).2
      = [Effect.SocketHandleIncoming ⟨257, [115, 104, 101, 108, 108, 58]⟩
          ⟨kCommandOKAY, 7, 257, []⟩]
    ∧ headerReads (HandleIncoming
        (CreateSocket (AndroidUsbDevice.construct 63).1 [115, 104, 101, 108, 108, 58]).1
        (fun _ => []) [] true (fun _ _ => []) ⟨kCommandOKAY, 7, 257, []⟩).2 = [] := by
  decide

/-- C35: once terminated_ is true, none of `Send`, `Queue`, `ProcessOutgoing`,
`ReadHeader` and `HandleIncoming` starts a bulk transfer, for any message and any state
of the queues, whatever calls a stream makes back on the device from inside
`HandleIncoming`; and over any sequence of calls of methods of the device other than
`ReadBody` the link stays terminated and no bulk transfer is started. -/
theorem C35_terminated_no_transfer (d : AndroidUsbDevice) (ht : d.terminated_ = true)
    (AndroidRSASign : List Byte → List Byte) (AndroidRSAPublicKey : List Byte)
    (command arg0 arg1 : uint32) (body : List Byte) (message : AdbMessage)
    (initial HasOneRef : Bool) (SocketHandleIncoming : AndroidUsbSocket → AdbMessage → List Reentry)
    (calls : List Call)
    (hcalls : ∀ call ∈ calls, call.isReadBody = false) :
    bulkTransfers (Send d command arg0 arg1 body).2 = []
    ∧ bulkTransfers (Queue d message).2 = []
    ∧ bulkTransfers (ProcessOutgoing d).2 = []
    ∧ bulkTransfers (ReadHeader d initial HasOneRef).2 = []
    ∧ bulkTransfers (HandleIncoming d AndroidRSASign AndroidRSAPublicKey HasOneRef SocketHandleIncoming message).2
      = []
    ∧ (callAll AndroidRSASign AndroidRSAPublicKey d calls).1.terminated_ = true
    ∧ bulkTransfers (callAll AndroidRSASign AndroidRSAPublicKey d calls).2.1 = [] := by
  refine ⟨?_, ?_, ?_, ?_, HandleIncoming_of_terminated d _ _ _ _ _ ht,
    (callAll_flags _ _ calls d).2.2 ht, callAll_of_terminated _ _ calls d ht hcalls⟩
  · rw [Send_of_terminated d _ _ _ _ ht]; rfl
  · rw [Queue_of_terminated d _ ht]; rfl
  · rw [ProcessOutgoing_of_terminated d ht]; rfl
  · rw [ReadHeader_of_terminated d _ _ ht]; rfl

/-- Witness for C35: the device terminated after the handshake completed, with the body
chunk of the connection message still queued and stream 257 open; a `Send`, an inbound
AUTH, an inbound WRTE that stream 257 answers with `Send` of an OKAY, a posted
`ProcessOutgoing` and a `ReadHeader` follow. -/
theorem C35_terminated_no_transfer_witness :
    (Terminate (CreateSocket (HandleIncoming (AndroidUsbDevice.construct 63).1 (fun _ => [])
        [] false (fun _ _ => []) ⟨kCommandCNXN, kVersion, kMaxPayload, []⟩).1
        [115, 104, 101, 108, 108, 58]).1 (fun _ => [])).1.outgoing_queue_.length = 1
    ∧ bulkTransfers (callAll (fun _ => [1, 2, 3]) [4, 5, 6]
        (Terminate (CreateSocket (HandleIncoming (AndroidUsbDevice.construct 63).1
          (fun _ => []) [] false (fun _ _ => [])
          ⟨kCommandCNXN, kVersion, kMaxPayload, []⟩).1
          [115, 104, 101, 108, 108, 58]).1 (fun _ => [])).1
        [Call.Send kCommandOPEN 257 0 [115, 104, 101, 108, 108, 58],
         Call.HandleIncoming ⟨kCommandAUTH, kAuthToken, 0, [7, 7, 7]⟩ false (fun _ _ => []),
         Call.HandleIncoming ⟨kCommandWRTE, 1, 257, [111, 107]⟩ false
           (fun socket m => [Reentry.Send kCommandOKAY socket.socket_id m.arg0 []]),
         Call.ProcessOutgoing, Call.ReadHeader false false]).2.1 = [] :=
  ⟨by decide,
   (C35_terminated_no_transfer
      (Terminate (CreateSocket (HandleIncoming (AndroidUsbDevice.construct 63).1
        (fun _ => []) [] false (fun _ _ => [])
        ⟨kCommandCNXN, kVersion, kMaxPayload, []⟩).1
        [115, 104, 101, 108, 108, 58]).1 (fun _ => [])).1 (by decide)
      (fun _ => [1, 2, 3]) [4, 5, 6] kCommandOPEN 257 0 [] ⟨kCommandOKAY, 0, 0, []⟩ false false
      (fun _ _ => [])
      [Call.Send kCommandOPEN 257 0 [115, 104, 101, 108, 108, 58],
       Call.HandleIncoming ⟨kCommandAUTH, kAuthToken, 0, [7, 7, 7]⟩ false (fun _ _ => []),
       Call.HandleIncoming ⟨kCommandWRTE, 1, 257, [111, 107]⟩ false
         (fun socket m => [Reentry.Send kCommandOKAY socket.socket_id m.arg0 []]),
       Call.ProcessOutgoing, Call.ReadHeader false false]
      (by decide)).2.2.2.2.2.2⟩

/-- C36: in every state the device reaches from construction under any sequence of calls
of its methods (`Send`, `CreateSocket`, `SocketDeleted`, `HandleIncoming`,
`ProcessOutgoing`, `Terminate` and the others), if is_connected_ is true then the
pending message queue is empty. -/
theorem C36_connected_pending_empty (AndroidRSASign : List Byte → List Byte)
    (AndroidRSAPublicKey : List Byte) (zero_mask : Int) (calls : List Call)
    (h : (callAll AndroidRSASign AndroidRSAPublicKey
      (AndroidUsbDevice.construct zero_mask).1 calls).1.is_connected_ = true) :
    (callAll AndroidRSASign AndroidRSAPublicKey
      (AndroidUsbDevice.construct zero_mask).1 calls).1.pending_messages_ = [] := by
  refine callAll_pending _ _ calls _ ?_ h
  obtain ⟨q, hq⟩ := construct_frame zero_mask
  rw [hq]
  intro hc
  cases hc

/-- Witness for C36: two messages are sent before the handshake completes, a stream is
opened, the peer's CNXN arrives, and a third message is sent on the connected link. -/
theorem C36_connected_pending_empty_witness :
    (callAll (fun _ => []) [] (AndroidUsbDevice.construct 63).1
        [Call.Send kCommandOPEN 257 0 [115, 104, 101, 108, 108, 58],
         Call.Send kCommandOPEN 258 0 [115, 121, 110, 99, 58]]).1.pending_messages_
      = [⟨kCommandOPEN, 257, 0, [115, 104, 101, 108, 108, 58]⟩,
         ⟨kCommandOPEN, 258, 0, [115, 121, 110, 99, 58]⟩]
    ∧ (callAll (fun _ => []) [] (AndroidUsbDevice.construct 63).1
        [Call.Send kCommandOPEN 257 0 [115, 104, 101, 108, 108, 58],
         Call.Send kCommandOPEN 258 0 [115, 121, 110, 99, 58],
         Call.CreateSocket [115, 104, 101, 108, 108, 58],
         Call.HandleIncoming ⟨kCommandCNXN, kVersion, kMaxPayload, []⟩ false (fun _ _ => []),
         Call.Send kCommandWRTE 257 1 [108, 115]]).1.is_connected_ = true
    ∧ (callAll (fun _ => []) [] (AndroidUsbDevice.construct 63).1
        [Call.Send kCommandOPEN 257 0 [115, 104, 101, 108, 108, 58],
         Call.Send kCommandOPEN 258 0 [115, 121, 110, 99, 58],
         Call.CreateSocket [115, 104, 101, 108, 108, 58],
         Call.HandleIncoming ⟨kCommandCNXN, kVersion, kMaxPayload, []⟩ false (fun _ _ => []),
         Call.Send kCommandWRTE 257 1 [108, 115]]).1.pending_messages_ = [] :=
  ⟨by decide, by decide,
   C36_connected_pending_empty (fun _ => []) [] 63
     [Call.Send kCommandOPEN 257 0 [115, 104, 101, 108, 108, 58],
      Call.Send kCommandOPEN 258 0 [115, 121, 110, 99, 58],
      Call.CreateSocket [115, 104, 101, 108, 108, 58],
      Call.HandleIncoming ⟨kCommandCNXN, kVersion, kMaxPayload, []⟩ false (fun _ _ => []),
      Call.Send kCommandWRTE 257 1 [108, 115]] (by decide)⟩

/-- C37: as long as the id counter does not wrap around (fewer than 2^32 - 256 streams
constructed by `CreateSocket`), in every state the device reaches from construction
under any sequence of calls of its methods, whatever calls streams make back on the
device from inside their handlers, the counter is 256 plus the number of `CreateSocket`
calls made, and every key of the stream table is greater than 256, at most
last_socket_id_, and the id of the stream entered under it; the keys are pairwise
different. Consequently a further `CreateSocket` (that does not wrap the counter) finds
no entry under the new id, overwrites nothing and adds the new stream after the existing
entries, also after earlier streams were removed by `SocketDeleted`. -/
theorem C37_stream_ids (AndroidRSASign : List Byte → List Byte)
    (AndroidRSAPublicKey : List Byte) (zero_mask : Int) (calls : List Call)
    (hwrap : 256 + created (callAll AndroidRSASign AndroidRSAPublicKey
        (AndroidUsbDevice.construct zero_mask).1 calls).2.1 < 4294967296) :
    (callAll AndroidRSASign AndroidRSAPublicKey
        (AndroidUsbDevice.construct zero_mask).1 calls).1.last_socket_id_.val
      = 256 + created (callAll AndroidRSASign AndroidRSAPublicKey
        (AndroidUsbDevice.construct zero_mask).1 calls).2.1
    ∧ (∀ entry ∈ (callAll AndroidRSASign AndroidRSAPublicKey
        (AndroidUsbDevice.construct zero_mask).1 calls).1.sockets_,
        256 < entry.1.val
        ∧ entry.1.val ≤ (callAll AndroidRSASign AndroidRSAPublicKey
        (AndroidUsbDevice.construct zero_mask).1 calls).1.last_socket_id_.val
        ∧ entry.2.socket_id = entry.1)
    ∧ (callAll AndroidRSASign AndroidRSAPublicKey
        (AndroidUsbDevice.construct zero_mask).1 calls).1.sockets_.Pairwise
          (fun a b => a.1 < b.1)
    ∧ ((callAll AndroidRSASign AndroidRSAPublicKey
        (AndroidUsbDevice.construct zero_mask).1 calls).1.sockets_.map
          (fun entry => entry.2.socket_id)).Nodup
    ∧ ∀ command : List Byte,
        256 + created (callAll AndroidRSASign AndroidRSAPublicKey
        (AndroidUsbDevice.construct zero_mask).1 calls).2.1 + 1 < 4294967296 →
        AndroidUsbSockets.find
            (callAll AndroidRSASign AndroidRSAPublicKey
        (AndroidUsbDevice.construct zero_mask).1 calls).1.sockets_
            (CreateSocket (callAll AndroidRSASign AndroidRSAPublicKey
        (AndroidUsbDevice.construct zero_mask).1 calls).1 command).2.socket_id = none
        ∧ (CreateSocket (callAll AndroidRSASign AndroidRSAPublicKey
        (AndroidUsbDevice.construct zero_mask).1 calls).1 command).2.socket_id.val
          = 256 + created (callAll AndroidRSASign AndroidRSAPublicKey
        (AndroidUsbDevice.construct zero_mask).1 calls).2.1 + 1
        ∧ (CreateSocket (callAll AndroidRSASign AndroidRSAPublicKey
        (AndroidUsbDevice.construct zero_mask).1 calls).1 command).1.sockets_
          = (callAll AndroidRSASign AndroidRSAPublicKey
        (AndroidUsbDevice.construct zero_mask).1 calls).1.sockets_
            ++ [((CreateSocket (callAll AndroidRSASign AndroidRSAPublicKey
        (AndroidUsbDevice.construct zero_mask).1 calls).1 command).2.socket_id,
                 (CreateSocket (callAll AndroidRSASign AndroidRSAPublicKey
        (AndroidUsbDevice.construct zero_mask).1 calls).1 command).2)] := by
  obtain ⟨q, hq⟩ := construct_frame zero_mask
  have h0l : (AndroidUsbDevice.construct zero_mask).1.last_socket_id_.val = 256 := by
    rw [hq]; rfl
  have h0s : (AndroidUsbDevice.construct zero_mask).1.sockets_ = [] := by
    rw [hq]; rfl
  obtain ⟨i1, i2, i3⟩ := callAll_table_inv AndroidRSASign AndroidRSAPublicKey calls
    (AndroidUsbDevice.construct zero_mask).1
    (by rw [h0s]; intro entry hm; cases hm)
    (by rw [h0s]; exact List.Pairwise.nil)
    (by rw [h0l])
    (by rw [h0l]; exact hwrap)
  rw [h0l] at i1
  refine ⟨i1, i2, i3, ?_, ?_⟩
  · unfold List.Nodup
    rw [List.pairwise_map]
    refine List.Pairwise.imp_of_mem ?_ i3
    intro a b ha hb hlt
    rw [(i2 a ha).2.2, (i2 b hb).2.2]
    exact ne_of_lt hlt
  · intro command hnext
    obtain ⟨hv, hf, hcs⟩ := CreateSocket_of_bound
      (callAll AndroidRSASign AndroidRSAPublicKey
        (AndroidUsbDevice.construct zero_mask).1 calls).1 command
      (by rw [i1]; exact hnext) (fun e hm => (i2 e hm).2.1)
    rw [hcs]
    exact ⟨hf, by rw [← i1]; exact hv, rfl⟩

/-- Witness for C37: three streams are opened, the first is disposed of, an OKAY for the
third makes the stream's client open one more stream and dispose of the third from
inside the handler, and a fifth is opened: the counter is 256 + 5, and the ids 258, 260
and 261 are in the table. -/
theorem C37_stream_ids_witness :
    (callAll (fun _ => []) [] (AndroidUsbDevice.construct 63).1
        [Call.CreateSocket [97], Call.CreateSocket [98], Call.CreateSocket [99],
         Call.SocketDeleted 257,
         Call.HandleIncoming ⟨kCommandOKAY, 5, 259, []⟩ false
           (fun socket _ => [Reentry.CreateSocket [100],
             Reentry.SocketDeleted socket.socket_id]),
         Call.CreateSocket [101]]).1.sockets_
      = [(258, ⟨258, [98]⟩), (260, ⟨260, [100]⟩), (261, ⟨261, [101]⟩)]
    ∧ (callAll (fun _ => []) [] (AndroidUsbDevice.construct 63).1
        [Call.CreateSocket [97], Call.CreateSocket [98], Call.CreateSocket [99],
         Call.SocketDeleted 257,
         Call.HandleIncoming ⟨kCommandOKAY, 5, 259, []⟩ false
           (fun socket _ => [Reentry.CreateSocket [100],
             Reentry.SocketDeleted socket.socket_id]),
         Call.CreateSocket [101]]).1.last_socket_id_.val = 256 + 5 :=
  ⟨by decide,
   (C37_stream_ids (fun _ => []) [] 63
      [Call.CreateSocket [97], Call.CreateSocket [98], Call.CreateSocket [99],
       Call.SocketDeleted 257,
       Call.HandleIncoming ⟨kCommandOKAY, 5, 259, []⟩ false
         (fun socket _ => [Reentry.CreateSocket [100],
           Reentry.SocketDeleted socket.socket_id]),
       Call.CreateSocket [101]] (by decide)).1.trans (by decide)⟩

/-- C38: the link flags are monotone. Under every call of a method of the device
(`Send`, `Queue`, `ProcessOutgoing`, `CreateSocket`, `SocketDeleted`, `ParseHeader`,
`ParseBody`, `HandleIncoming`, `Terminate` and the others), and so under every sequence
of calls, each of is_connected_, signature_sent_ and terminated_ that is true before is
still true after: a connected link never returns to the unconnected state and a
terminated link is never revived. -/
theorem C38_flags_monotone (AndroidRSASign : List Byte → List Byte)
    (AndroidRSAPublicKey : List Byte) (d : AndroidUsbDevice) (call : Call)
    (calls : List Call) :
    ((d.is_connected_ = true
        → (callDevice AndroidRSASign AndroidRSAPublicKey d call).1.is_connected_ = true)
      ∧ (d.signature_sent_ = true
        → (callDevice AndroidRSASign AndroidRSAPublicKey d call).1.signature_sent_ = true)
      ∧ (d.terminated_ = true
        → (callDevice AndroidRSASign AndroidRSAPublicKey d call).1.terminated_ = true))
    ∧ ((d.is_connected_ = true
        → (callAll AndroidRSASign AndroidRSAPublicKey d calls).1.is_connected_ = true)
      ∧ (d.signature_sent_ = true
        → (callAll AndroidRSASign AndroidRSAPublicKey d calls).1.signature_sent_ = true)
      ∧ (d.terminated_ = true
        → (callAll AndroidRSASign AndroidRSAPublicKey d calls).1.terminated_ = true)) :=
  ⟨callDevice_flags AndroidRSASign AndroidRSAPublicKey d call,
   callAll_flags AndroidRSASign AndroidRSAPublicKey calls d⟩

/-- C39: the checksum does not detect every corruption. For every body whose length a
header can declare (shorter than 2^32 bytes) `Checksum` is invariant under any
permutation of the bytes, and `ParseBody` with the expected length and checksum of a body
accepts and dispatches any permutation of it; in particular the body with two unequal
bytes exchanged, which is a different body of the same length. -/
theorem C39_checksum_permutation (message : AdbMessage) (body permuted : List Byte)
    (i j : Fin body.length) :
    (body.Perm permuted → body.length < 4294967296 →
      Checksum permuted = Checksum body
      ∧ ParseBody message (toUint32 body.length) (Checksum body) USB_TRANSFER_COMPLETED
          permuted body.length
        = [Task.HandleIncoming { message with body := permuted }])
    ∧ (body.get i ≠ body.get j → body.length < 4294967296 →
      (body.set i.val (body.get j)).set j.val (body.get i) ≠ body
      ∧ ((body.set i.val (body.get j)).set j.val (body.get i)).length = body.length
      ∧ Checksum ((body.set i.val (body.get j)).set j.val (body.get i)) = Checksum body
      ∧ ParseBody message (toUint32 body.length) (Checksum body) USB_TRANSFER_COMPLETED
          ((body.set i.val (body.get j)).set j.val (body.get i)) body.length
        = [Task.HandleIncoming
            { message with body := (body.set i.val (body.get j)).set j.val (body.get i) }]) := by
  refine ⟨fun hp hlen => ?_, fun hne hlen => ?_⟩
  · have hc := Checksum_perm body permuted hp hlen
    refine ⟨hc.symm, ?_⟩
    rw [ParseBody_completed message _ permuted body.length hp.length_eq.symm,
      if_neg (not_not.mpr hc.symm)]
  · obtain ⟨s1, s2, s3⟩ := swap_spec body i j hne
    have hc : Checksum ((body.set i.val (body.get j)).set j.val (body.get i))
        = Checksum body :=
      Checksum_congr _ _ s2 s3 (by rw [s2]; exact hlen)
    refine ⟨s1, s2, hc, ?_⟩
    rw [ParseBody_completed message _ _ body.length s2, if_neg (not_not.mpr hc)]

/-- Witness for C39: the body `ab` with its two bytes exchanged is accepted with the
length and the checksum of `ab`. -/
theorem C39_checksum_permutation_witness :
    Checksum [97, 98] = 195
    ∧ ParseBody ⟨kCommandWRTE, 1, 257, []⟩ 2 195 USB_TRANSFER_COMPLETED [98, 97] 2
      = [Task.HandleIncoming ⟨kCommandWRTE, 1, 257, [98, 97]⟩] :=
  ⟨by decide,
   ((C39_checksum_permutation ⟨kCommandWRTE, 1, 257, []⟩ [97, 98] [98, 97]
      ⟨0, by decide⟩ ⟨1, by decide⟩).2 (by decide) (by decide)).2.2.2⟩

/-- C40: `ParseHeader` places no upper bound on the declared body length. For every
successfully read header with matching magic and every non-zero data_length (1 to
2^32 - 1, also above the advertised maximum payload 4096) the header is accepted:
`ParseHeader` posts `ReadBody` for data_length and the declared checksum and does not
post `Terminate`, and `ReadBody` starts a body read of exactly data_length bytes. -/
theorem C40_no_length_bound (command arg0 arg1 data_length data_check : uint32)
    (h : data_length ≠ 0) :
    ParseHeader USB_TRANSFER_COMPLETED
        ((vectorBytes [command, arg0, arg1, data_length, data_check,
            toUint32 (command.val ^^^ 0xffffffff)]).take kHeaderSize) 24
      = [Task.ReadBody ⟨command, arg0, arg1, []⟩ data_length data_check]
    ∧ Task.Terminate ∉ ParseHeader USB_TRANSFER_COMPLETED
        ((vectorBytes [command, arg0, arg1, data_length, data_check,
            toUint32 (command.val ^^^ 0xffffffff)]).take kHeaderSize) 24
    ∧ ReadBody ⟨command, arg0, arg1, []⟩ data_length data_check
      = [Effect.BulkTransferBody ⟨command, arg0, arg1, []⟩ data_length data_check] := by
  obtain ⟨w0, w1, w2, w3, w4, w5⟩ := wordAt_vectorBytes command arg0 arg1 data_length
    data_check (toUint32 (command.val ^^^ 0xffffffff))
  have hp : ParseHeader USB_TRANSFER_COMPLETED
        ((vectorBytes [command, arg0, arg1, data_length, data_check,
            toUint32 (command.val ^^^ 0xffffffff)]).take kHeaderSize) 24
      = [Task.ReadBody ⟨command, arg0, arg1, []⟩ data_length data_check] := by
    rw [ParseHeader_completed, w0, w1, w2, w3, w4, w5, if_neg (not_not.mpr rfl), if_neg h]
  refine ⟨hp, ?_, rfl⟩
  rw [hp]
  simp

/-- Witness for C40: a WRTE header that declares a body of 2^32 - 1 bytes, far above the
advertised maximum payload, is accepted and a body read of 2^32 - 1 bytes is posted. -/
theorem C40_no_length_bound_witness :
    kMaxPayload < 4294967295
    ∧ ParseHeader USB_TRANSFER_COMPLETED
        ((vectorBytes [kCommandWRTE, 1, 257, 4294967295, 0,
            toUint32 (kCommandWRTE.val ^^^ 0xffffffff)]).take kHeaderSize) 24
      = [Task.ReadBody ⟨kCommandWRTE, 1, 257, []⟩ 4294967295 0] :=
  ⟨by decide, (C40_no_length_bound kCommandWRTE 1 257 4294967295 0 (by decide)).1⟩

end AndroidUsb
